import Mathlib

/-!
# GTEngine samples: segment-segment distance, input loading, pair loops, cone fit

A shallow embedding of the pieces of
`Samples/Mathematics/DistanceSegments3/DistanceSegments3.cpp`,
`Samples/Mathematics/FitCone/FitConeWindow.cpp`,
`Samples/Mathematics/MovingSphereBox/MovingSphereBoxWindow.h`,
`Samples/Mathematics/GeodesicEllipsoid/GeodesicEllipsoidWindow.cpp` and
`Samples/Imagics/GpuGaussianBlur3/GpuGaussianBlur3Window.cpp` whose behaviour is
specified. In the first part arithmetic is exact: the C++ `double` and `float` are read
as rational numbers, `int` as integers. What is said of every `double` input of
`dist3D_Segment_to_Segment` and of every draw of `CreateScene` is settled over IEEE 754
binary64 arithmetic (round to nearest, ties to even, with signed zeros, infinities and
NaN), in the namespace `Binary64`.
-/

namespace GTE

/-! ## Vector3 -/

/-- The three coordinates of a `Vector3<double>`, over exact rationals. -/
structure Vector3 where
  x : ℚ
  y : ℚ
  z : ℚ
deriving DecidableEq, Repr

namespace Vector3

/-- Componentwise difference, `operator-`. -/
def sub (p q : Vector3) : Vector3 := ⟨p.x - q.x, p.y - q.y, p.z - q.z⟩

/-- Componentwise sum, `operator+`. -/
def add (p q : Vector3) : Vector3 := ⟨p.x + q.x, p.y + q.y, p.z + q.z⟩

/-- Scalar times vector, `operator*`. -/
def smul (k : ℚ) (p : Vector3) : Vector3 := ⟨k * p.x, k * p.y, k * p.z⟩

end Vector3

/-- The dot product `Dot(u, v)`. -/
def Dot (u v : Vector3) : ℚ := u.x * v.x + u.y * v.y + u.z * v.z

/-! ## dist3D_Segment_to_Segment -/

/-- The constant `SMALL_NUM = 0.00000001` of `dist3D_Segment_to_Segment`. -/
def SMALL_NUM : ℚ := 1 / 100000000

/-- The four local variables `sN, sD, tN, tD` of `dist3D_Segment_to_Segment`. -/
structure Ratios where
  sN : ℚ
  sD : ℚ
  tN : ℚ
  tD : ℚ
deriving DecidableEq, Repr

/-- Lines 53-76: the initial values `sD = tD = D`, then either the almost-parallel
branch or the closest points on the infinite lines clipped to the edges `s=0`, `s=1`.
In the source `sN` and `tN` are unset until one of the two branches assigns them. -/
def lineParameters (a b c d e D : ℚ) : Ratios :=
  let sD := D
  let tD := D
  if D < SMALL_NUM then
    { sN := 0, sD := 1, tN := e, tD := c }
  else
    let sN := b * e - c * d
    let tN := a * e - b * d
    if sN < 0 then
      { sN := 0, sD := sD, tN := e, tD := c }
    else if sN > sD then
      { sN := sD, sD := sD, tN := e + b, tD := c }
    else
      { sN := sN, sD := sD, tN := tN, tD := tD }

/-- Lines 78-101: clipping against the edges `t=0` and `t=1`, recomputing `sN`, `sD`. -/
def clipT (a b d : ℚ) (r : Ratios) : Ratios :=
  if r.tN < 0 then
    let r := { r with tN := 0 }
    if -d < 0 then { r with sN := 0 }
    else if -d > a then { r with sN := r.sD }
    else { r with sN := -d, sD := a }
  else if r.tN > r.tD then
    let r := { r with tN := r.tD }
    if (-d + b) < 0 then { r with sN := 0 }
    else if (-d + b) > a then { r with sN := r.sD }
    else { r with sN := -d + b, sD := a }
  else r

/-- The values of `sN, sD, tN, tD` when control reaches line 102, for the inputs
`P0, P1, Q0, Q1` (lines 44-101). -/
def ratios (P0 P1 Q0 Q1 : Vector3) : Ratios :=
  let u := P1.sub P0
  let v := Q1.sub Q0
  let w := P0.sub Q0
  let a := Dot u u
  let b := Dot u v
  let c := Dot v v
  let d := Dot u w
  let e := Dot v w
  let D := a * c - b * b
  clipT a b d (lineParameters a b c d e D)

/-- The expression `std::abs(N) < SMALL_NUM ? 0.0 : N / Dn` of lines 103-104. The
quotient is evaluated only in the second arm; there a zero denominator has no
exact value and the result is `none`. -/
def quotient (N Dn : ℚ) : Option ℚ :=
  if |N| < SMALL_NUM then some 0
  else if Dn = 0 then none
  else some (N / Dn)

/-- The outputs of `dist3D_Segment_to_Segment`: the reference arguments
`sqrDistance`, `s`, `t` and the two entries of `closest`. -/
structure Result where
  sqrDistance : ℚ
  s : ℚ
  t : ℚ
  closest0 : Vector3
  closest1 : Vector3
deriving DecidableEq, Repr

/-- Lines 106-112: the outputs computed from the parameters `sc`, `tc`. -/
def output (P0 P1 Q0 Q1 : Vector3) (sc tc : ℚ) : Result :=
  let closest0 := (Vector3.smul (1 - sc) P0).add (Vector3.smul sc P1)
  let closest1 := (Vector3.smul (1 - tc) Q0).add (Vector3.smul tc Q1)
  let diff := closest0.sub closest1
  { sqrDistance := Dot diff diff, s := sc, t := tc,
    closest0 := closest0, closest1 := closest1 }

/-- The function `dist3D_Segment_to_Segment` (lines 38-113). -/
def dist3D_Segment_to_Segment (P0 P1 Q0 Q1 : Vector3) : Option Result :=
  let r := ratios P0 P1 Q0 Q1
  match quotient r.sN r.sD, quotient r.tN r.tD with
  | some sc, some tc => some (output P0 P1 Q0 Q1 sc tc)
  | _, _ => none

/-- The point `(1-k)*A + k*B` of the segment from `A` to `B` at parameter `k`. -/
def segmentPoint (A B : Vector3) (k : ℚ) : Vector3 :=
  (Vector3.smul (1 - k) A).add (Vector3.smul k B)

/-- The squared distance `|((1-s)P0 + s P1) - ((1-t)Q0 + t Q1)|^2` between the point
of the first segment at `s` and the point of the second segment at `t`. -/
def sqrDistanceAt (P0 P1 Q0 Q1 : Vector3) (s t : ℚ) : ℚ :=
  Dot ((segmentPoint P0 P1 s).sub (segmentPoint Q0 Q1 t))
    ((segmentPoint P0 P1 s).sub (segmentPoint Q0 Q1 t))

/-! ## Loops -/

/-- The loop `for (i = lo; i < hi; ++i) body(i)` acting on a state. -/
def forLoop {σ : Type} (lo hi : Nat) (body : Nat → σ → σ) (st : σ) : σ :=
  (List.range' lo (hi - lo)).foldl (fun st i => body i st) st

/-! ## LoadInput -/

/-- A `Segment<N, double>`: channel `j` of the endpoint `p[0]` is `p0 j`, channel `j`
of the endpoint `p[1]` is `p1 j`. -/
structure Segment where
  p0 : Nat → ℚ
  p1 : Nat → ℚ

/-- The state of `LoadInput`: the doubles of the file not yet read, and the array
`segment`. -/
structure LoadState where
  input : List ℚ
  segment : Nat → Segment

/-- The call `input.read((char*)&x, sizeof(double))`: the new value of `x` and the
rest of the stream. At the end of the file the read fails and `x` keeps its value. -/
def read (input : List ℚ) (x : ℚ) : ℚ × List ℚ :=
  match input with
  | [] => (x, [])
  | v :: rest => (v, rest)

/-- The assignment `segment[i].p[0][j] = v`. -/
def setP0 (i j : Nat) (v : ℚ) (segment : Nat → Segment) : Nat → Segment :=
  Function.update segment i
    { p0 := Function.update (segment i).p0 j v, p1 := (segment i).p1 }

/-- The assignment `segment[i].p[1][j] = v`. -/
def setP1 (i j : Nat) (v : ℚ) (segment : Nat → Segment) : Nat → Segment :=
  Function.update segment i
    { p0 := (segment i).p0, p1 := Function.update (segment i).p1 j v }

/-- The statement `input.read((char*)& segment[i].p[0][j], sizeof(double))`. -/
def readP0 (i j : Nat) (st : LoadState) : LoadState :=
  { input := (read st.input ((st.segment i).p0 j)).2,
    segment := setP0 i j (read st.input ((st.segment i).p0 j)).1 st.segment }

/-- The statement `input.read((char*)& segment[i].p[1][j], sizeof(double))`. -/
def readP1 (i j : Nat) (st : LoadState) : LoadState :=
  { input := (read st.input ((st.segment i).p1 j)).2,
    segment := setP1 i j (read st.input ((st.segment i).p1 j)).1 st.segment }

/-- Lines 135-139 and 154-158: for `numChannels == 4` the fourth channel of both
endpoints is set to `1.0`. -/
def setW (numChannels i : Nat) (st : LoadState) : LoadState :=
  if numChannels = 4 then
    { st with segment := setP1 i 3 1 (setP0 i 3 1 st.segment) }
  else st

/-- The body of the loop over `i` for `testNonparallel` (lines 130-139). -/
def nonparallelBody (numChannels i : Nat) (st : LoadState) : LoadState :=
  let st := forLoop 0 3 (fun j st => readP1 i j (readP0 i j st)) st
  setW numChannels i st

/-- The body of the loop over `i` in the other branch (lines 148-158). -/
def parallelBody (numChannels i : Nat) (st : LoadState) : LoadState :=
  let st := readP0 i 0 st
  let st := readP0 i 1 st
  let st := readP0 i 2 st
  let st := readP1 i 0 st
  let st := readP1 i 1 st
  let st := readP1 i 2 st
  setW numChannels i st

/-- The function `LoadInput<N>` (lines 120-162). `file` holds the doubles of the file
that the chosen branch opens (`InputNonparallel.binary` or `InputParallel.binary`). -/
def LoadInput (N : Nat) (testNonparallel : Bool) (numInputs : Nat) (file : List ℚ)
    (segment : Nat → Segment) : LoadState :=
  let numChannels := N
  if testNonparallel then
    forLoop 0 numInputs (nonparallelBody numChannels) { input := file, segment := segment }
  else
    forLoop 0 numInputs (parallelBody numChannels) { input := file, segment := segment }

/-- The layout by triples: segment `i` occupies the doubles `6i..6i+5` as two
triples, `6i+k` being channel `k` of `p[0]` and `6i+3+k` channel `k` of `p[1]`. -/
def tripleLayout (file : List ℚ) (segment : Nat → Segment) (numInputs : Nat) : Prop :=
  ∀ i, i < numInputs → ∀ k, k < 3 →
    file[6 * i + k]? = some ((segment i).p0 k) ∧
    file[6 * i + 3 + k]? = some ((segment i).p1 k)

/-- The interleaved layout: segment `i` occupies the doubles `6i..6i+5`, `6i+2k` being
channel `k` of `p[0]` and `6i+2k+1` channel `k` of `p[1]`. -/
def interleavedLayout (file : List ℚ) (segment : Nat → Segment) (numInputs : Nat) : Prop :=
  ∀ i, i < numInputs → ∀ k, k < 3 →
    file[6 * i + 2 * k]? = some ((segment i).p0 k) ∧
    file[6 * i + 2 * k + 1]? = some ((segment i).p1 k)

instance (file : List ℚ) (segment : Nat → Segment) (numInputs : Nat) :
    Decidable (tripleLayout file segment numInputs) := by
  unfold tripleLayout
  infer_instance

instance (file : List ℚ) (segment : Nat → Segment) (numInputs : Nat) :
    Decidable (interleavedLayout file segment numInputs) := by
  unfold interleavedLayout
  infer_instance

/-- An array of segments with every channel `0`, as a start value for `LoadInput`. -/
def blankSegments : Nat → Segment := fun _ => { p0 := fun _ => 0, p1 := fun _ => 0 }

/-! ## The CPU harness loops -/

/-- The constant `PERF_SUNDAY` of the anonymous enum at line 115. -/
def PERF_SUNDAY : Nat := 0

/-- The constant `PERF_ROBUST` of the anonymous enum at line 115. -/
def PERF_ROBUST : Nat := 1

/-- The constant `PERF_RATIONAL` of the anonymous enum at line 115. -/
def PERF_RATIONAL : Nat := 2

/-- The loop nest of the CPU harness,
`for (y = 0; y < numInputs; ++y) for (x = y + 1; x < numInputs; ++x) body(x, y)`. -/
def pairLoops {σ : Type} (numInputs : Nat) (body : Nat → Nat → σ → σ) (st : σ) : σ :=
  forLoop 0 numInputs (fun y st => forLoop (y + 1) numInputs (fun x st => body x y st) st) st

/-- The pairs `(x, y)` on which the loop nest runs its body, in order. -/
def visits (numInputs : Nat) : List (Nat × Nat) :=
  pairLoops numInputs (fun x y log => log ++ [(x, y)]) []

/-- The queries issued by a harness run, per algorithm: the pairs `(x, y)` of segment
indices passed to Sunday's function, to the robust query and to the rational query. -/
structure QueryLog where
  sunday : List (Nat × Nat)
  robust : List (Nat × Nat)
  rational : List (Nat × Nat)

/-- The call of `dist3D_Segment_to_Segment` on `segment[x]`, `segment[y]`. -/
def QueryLog.addSunday (x y : Nat) (log : QueryLog) : QueryLog :=
  { log with sunday := log.sunday ++ [(x, y)] }

/-- The call of the robust query on `segment[x]`, `segment[y]`. -/
def QueryLog.addRobust (x y : Nat) (log : QueryLog) : QueryLog :=
  { log with robust := log.robust ++ [(x, y)] }

/-- The call of the rational query on `segment[x]`, `segment[y]`. -/
def QueryLog.addRational (x y : Nat) (log : QueryLog) : QueryLog :=
  { log with rational := log.rational ++ [(x, y)] }

/-- The queries issued by `CPUPerformanceTest(select, testNonparallel)` (lines 259-320). -/
def CPUPerformanceTest (select : Nat) : QueryLog :=
  let numInputs := if select = PERF_RATIONAL then 1024 else 16384
  if select = PERF_SUNDAY then
    pairLoops numInputs QueryLog.addSunday { sunday := [], robust := [], rational := [] }
  else if select = PERF_ROBUST then
    pairLoops numInputs QueryLog.addRobust { sunday := [], robust := [], rational := [] }
  else
    pairLoops numInputs QueryLog.addRational { sunday := [], robust := [], rational := [] }

/-- The queries issued by `CPUAccuracyTest(compareUsingExact, testNonparallel)`
(lines 164-257). -/
def CPUAccuracyTest (compareUsingExact : Bool) : QueryLog :=
  let numInputs := if compareUsingExact then 1024 else 16384
  pairLoops numInputs (fun x y log =>
    let log := QueryLog.addSunday x y log
    let log := QueryLog.addRobust x y log
    if compareUsingExact then QueryLog.addRational x y log else log)
    { sunday := [], robust := [], rational := [] }

/-! ## Cone fit -/

/-- The cone parameters passed to and returned by the fitter: `coneVertex`,
`coneAxis`, `coneAngle`. -/
structure Cone where
  vertex : Vector3
  axis : Vector3
  angle : ℚ
deriving DecidableEq, Repr

/-- Modelled from the spec: the numeric parts of the cone fitter `ApprCone3`, whose
source is not part of the sample: the total squared error of a cone for a point set,
the solution of the damped normal equations (the parameters after the update, for a
damping factor), the length of the update between two estimates, and the estimate
derived from the point cloud that serves as initial guess when none is supplied. -/
structure ConeFitKernel where
  error : List Vector3 → Cone → ℚ
  solveDamped : List Vector3 → Cone → ℚ → Cone
  updateLength : Cone → Cone → ℚ
  estimate : List Vector3 → Cone

/-- Modelled from the spec: the terminal states of a fit (section 4.3, state machine),
for the fitter `ApprCone3` that is not part of the sample. -/
inductive FitStatus where
  | Converged
  | MaxIterationsReached
  | DampingSaturated
deriving DecidableEq, Repr

/-- Modelled from the spec: the iteration state owned by a fit of `ApprCone3` (section 3):
the current estimate, the damping factor, the error history (newest first: the error
of the current estimate, then of the estimates it replaced, the initial guess last)
and the number of outer iterations used. -/
structure FitState where
  cone : Cone
  lambda : ℚ
  errorHistory : List ℚ
  iterationsUsed : Nat
deriving DecidableEq, Repr

/-- Modelled from the spec: the value returned by the cone-fit API of `ApprCone3`
(section 6): the fitted cone, the iterations used, the final error, with the status
and the error history of the iteration state. -/
structure FitResult where
  cone : Cone
  iterationsUsed : Nat
  finalError : ℚ
  status : FitStatus
  errorHistory : List ℚ
deriving DecidableEq, Repr

/-- Modelled from the spec: the accept/reject loop of one outer Levenberg-Marquardt
iteration of `ApprCone3` (section 4.3). The damped normal equations are solved; if the
update decreases the total squared error it is accepted and the damping factor is
decreased by `lambdaAdjust`; otherwise it is rejected, the damping factor is increased
by `lambdaAdjust` and the solve is retried while retries remain. -/
def lmAdjust (K : ConeFitKernel) (points : List Vector3) (lambdaAdjust : ℚ) (cone : Cone) :
    Nat → ℚ → Option (Cone × ℚ)
  | 0, lambda =>
    if K.error points (K.solveDamped points cone lambda) < K.error points cone then
      some (K.solveDamped points cone lambda, lambda / lambdaAdjust)
    else none
  | retries + 1, lambda =>
    if K.error points (K.solveDamped points cone lambda) < K.error points cone then
      some (K.solveDamped points cone lambda, lambda / lambdaAdjust)
    else lmAdjust K points lambdaAdjust cone retries (lambda * lambdaAdjust)

/-- Modelled from the spec: the value returned from an iteration state of `ApprCone3`;
the best estimate so far is always returned. -/
def FitState.result (K : ConeFitKernel) (points : List Vector3) (st : FitState)
    (status : FitStatus) : FitResult :=
  { cone := st.cone, iterationsUsed := st.iterationsUsed,
    finalError := K.error points st.cone, status := status,
    errorHistory := st.errorHistory }

/-- Modelled from the spec: the outer Levenberg-Marquardt iterations of `ApprCone3`
(section 4.3), the first argument counting the iterations still allowed. An iteration
whose retries are exhausted ends the fit with the best estimate so far; an accepted
update ends it when the update length is below `updateLengthTolerance` or the error
decreased by less than `errorDifferenceTolerance`; otherwise the next iteration
starts, until `maxIterations` is reached. -/
def lmIterate (K : ConeFitKernel) (points : List Vector3)
    (updateLengthTolerance errorDifferenceTolerance lambdaAdjust : ℚ) (maxAdjustments : Nat) :
    Nat → FitState → FitResult
  | 0, st => st.result K points FitStatus.MaxIterationsReached
  | remaining + 1, st =>
    match lmAdjust K points lambdaAdjust st.cone maxAdjustments st.lambda with
    | none =>
      FitState.result K points { st with iterationsUsed := st.iterationsUsed + 1 }
        FitStatus.DampingSaturated
    | some (cone, lambda) =>
      if K.updateLength st.cone cone < updateLengthTolerance ∨
          K.error points st.cone - K.error points cone < errorDifferenceTolerance then
        FitState.result K points
          { cone := cone, lambda := lambda,
            errorHistory := K.error points cone :: st.errorHistory,
            iterationsUsed := st.iterationsUsed + 1 } FitStatus.Converged
      else
        lmIterate K points updateLengthTolerance errorDifferenceTolerance lambdaAdjust
          maxAdjustments remaining
          { cone := cone, lambda := lambda,
            errorHistory := K.error points cone :: st.errorHistory,
            iterationsUsed := st.iterationsUsed + 1 }

/-- Modelled from the spec: the initial guess of a fit of `ApprCone3` (section 4.3): the
cone supplied by the caller when `useConeInputAsInitialGuess` is set, otherwise the
estimate derived from the point cloud. -/
def initialGuess (K : ConeFitKernel) (points : List Vector3)
    (useConeInputAsInitialGuess : Bool) (coneInput : Cone) : Cone :=
  if useConeInputAsInitialGuess then coneInput else K.estimate points

/-- Modelled from the spec: the Levenberg-Marquardt call operator of `ApprCone3`
(sections 4.3, 6, 7), which is not part of the sample. Fewer than 6 points are rejected
before any computation; otherwise the iterations start from the initial guess with the
damping factor `lambdaFactor`. -/
def ApprCone3_LM (K : ConeFitKernel) (numPoints : Nat) (points : List Vector3)
    (maxIterations : Nat) (updateLengthTolerance errorDifferenceTolerance : ℚ)
    (lambdaFactor lambdaAdjust : ℚ) (maxAdjustments : Nat)
    (useConeInputAsInitialGuess : Bool) (coneInput : Cone) : Option FitResult :=
  if numPoints < 6 then none
  else
    some (lmIterate K points updateLengthTolerance errorDifferenceTolerance lambdaAdjust
      maxAdjustments maxIterations
      { cone := initialGuess K points useConeInputAsInitialGuess coneInput,
        lambda := lambdaFactor,
        errorHistory :=
          [K.error points (initialGuess K points useConeInputAsInitialGuess coneInput)],
        iterationsUsed := 0 })

/-- The function `FitConeWindow::CreateLMCone` (FitConeWindow.cpp, lines 228-244): the
fitter is called on the points `X` with the constants of the sample; `cone` holds the
values of `coneVertex`, `coneAxis`, `coneAngle` on entry. -/
def CreateLMCone (K : ConeFitKernel) (X : List Vector3) (cone : Cone) : Option FitResult :=
  let maxIterations : Nat := 32
  let updateLengthTolerance : ℚ := 1 / 10000
  let errorDifferenceTolerance : ℚ := 1 / 100000000
  let lambdaFactor : ℚ := 1 / 1000
  let lambdaAdjust : ℚ := 10
  let maxAdjustments : Nat := 8
  let useConeInputAsInitialGuess := false
  ApprCone3_LM K X.length X maxIterations updateLengthTolerance errorDifferenceTolerance
    lambdaFactor lambdaAdjust maxAdjustments useConeInputAsInitialGuess cone

/-- A kernel for trying the iterations on concrete values: the error is the square of
the cone angle, every solve halves the angle whatever the damping factor, and the
estimate from the points is the cone with vertex `0`, axis `(0,0,1)` and angle `1`. -/
def halvingKernel : ConeFitKernel :=
  { error := fun _ cone => cone.angle * cone.angle,
    solveDamped := fun _ cone _ => { cone with angle := cone.angle / 2 },
    updateLength := fun cone cone' => |cone.angle - cone'.angle|,
    estimate := fun _ => { vertex := ⟨0, 0, 0⟩, axis := ⟨0, 0, 1⟩, angle := 1 } }

/-- Six points, the least number the fitter accepts. -/
def sixPoints : List Vector3 :=
  [⟨1, 0, 1⟩, ⟨0, 1, 1⟩, ⟨-1, 0, 1⟩, ⟨0, -1, 1⟩, ⟨2, 0, 2⟩, ⟨0, 2, 2⟩]

/-! ## Moving sphere and box -/

/-- An `AlignedBox3<float>`: the corners `min` and `max`. -/
structure AlignedBox3 where
  min : Vector3
  max : Vector3
deriving DecidableEq, Repr

/-- A `Sphere3<float>`: center and radius. -/
structure Sphere3 where
  center : Vector3
  radius : ℚ
deriving DecidableEq, Repr

/-- Modelled from the spec: the kinds of contact reported by the box-sphere query
(section 4.2), whose source `GteIntrAlignedBox3Sphere3.h` is not part of the sample:
face, edge or corner contact, already overlapping, or no contact. -/
inductive ContactType where
  | face
  | edge
  | corner
  | overlapping
  | noContact
deriving DecidableEq, Repr

/-- Modelled from the spec: the value returned by the box-sphere query API (section 6),
whose source is not part of the sample. -/
structure FIResult where
  intersects : Bool
  contactType : ContactType
  contactPoint : Vector3
  timeOfContact : ℚ
deriving DecidableEq, Repr

/-- Modelled from the spec: the one-body problem of section 4.2, a sphere moving with
a constant velocity against a static box; its source is not part of the sample and
it is left as a function of the box, the sphere and the velocity of the sphere. -/
structure MovingSphereKernel where
  staticBoxQuery : AlignedBox3 → Sphere3 → Vector3 → FIResult

/-- Modelled from the spec: the query `FIQuery<float, AlignedBox3<float>, Sphere3<float>>`
held in `mQuery` (section 4.2, section 6), whose source is not part of the sample. The
motion of the sphere relative to the box is computed by subtracting the box velocity
from the sphere velocity, and the one-body problem is solved for it. -/
def FIQuery (K : MovingSphereKernel) (box : AlignedBox3) (sphere : Sphere3)
    (boxVelocity sphereVelocity : Vector3) : FIResult :=
  K.staticBoxQuery box sphere (sphereVelocity.sub boxVelocity)

/-- The coefficients `a, b, c, d, e, D` of `dist3D_Segment_to_Segment` (lines 44-52). -/
structure Coefficients where
  a : ℚ
  b : ℚ
  c : ℚ
  d : ℚ
  e : ℚ
  D : ℚ
deriving DecidableEq, Repr

/-- Lines 44-52 of `dist3D_Segment_to_Segment`: the vectors `u`, `v`, `w` and the
coefficients computed from them. -/
def coefficients (P0 P1 Q0 Q1 : Vector3) : Coefficients :=
  let u := P1.sub P0
  let v := Q1.sub Q0
  let w := P0.sub Q0
  let a := Dot u u
  let b := Dot u v
  let c := Dot v v
  let d := Dot u w
  let e := Dot v w
  let D := a * c - b * b
  { a := a, b := b, c := c, d := d, e := e, D := D }

/-! ## FitConeWindow: the scene and the fitter calls -/

/-- The function `FitConeWindow::CreateGNCone` (FitConeWindow.cpp, lines 214-226), with
the call operator of `ApprCone3` as the parameter `fitter`: the fitter is called on the
points `X` with the constants of the sample; `cone` holds the values of `coneVertex`,
`coneAxis`, `coneAngle` on entry. -/
def CreateGNCone {R : Type}
    (fitter : Nat → List Vector3 → Nat → ℚ → ℚ → Bool → Cone → R)
    (X : List Vector3) (cone : Cone) : R :=
  let maxIterations : Nat := 32
  let updateLengthTolerance : ℚ := 1 / 10000
  let errorDifferenceTolerance : ℚ := 1 / 100000000
  let useConeInputAsInitialGuess := false
  fitter X.length X maxIterations updateLengthTolerance errorDifferenceTolerance
    useConeInputAsInitialGuess cone

/-- The function `FitConeWindow::CreateLMCone` (FitConeWindow.cpp, lines 228-244), with
the call operator of `ApprCone3` as the parameter `fitter`; `CreateLMCone K` is this
function for the fitter `ApprCone3_LM K`. -/
def CreateLMConeWith {R : Type}
    (fitter : Nat → List Vector3 → Nat → ℚ → ℚ → ℚ → ℚ → Nat → Bool → Cone → R)
    (X : List Vector3) (cone : Cone) : R :=
  let maxIterations : Nat := 32
  let updateLengthTolerance : ℚ := 1 / 10000
  let errorDifferenceTolerance : ℚ := 1 / 100000000
  let lambdaFactor : ℚ := 1 / 1000
  let lambdaAdjust : ℚ := 10
  let maxAdjustments : Nat := 8
  let useConeInputAsInitialGuess := false
  fitter X.length X maxIterations updateLengthTolerance errorDifferenceTolerance
    lambdaFactor lambdaAdjust maxAdjustments useConeInputAsInitialGuess cone

/-- What `CreateScene` takes from outside the sample: the values drawn from `rnd(dre)`
in the order of the draws, the constant `GTE_C_PI`, the functions `std::tan`, `std::cos`,
`std::sin`, and `ComputeOrthogonalComplement(1, basis)` as the map from `basis[0]` on
entry to `basis[0]`, `basis[1]`, `basis[2]` on return. -/
structure SceneKernel where
  rnd : Nat → ℚ
  pi : ℚ
  tan : ℚ → ℚ
  cos : ℚ → ℚ
  sin : ℚ → ℚ
  orthogonalComplement : Vector3 → Vector3 × Vector3 × Vector3

/-- The local variables of one pass of the loop of `CreateScene` (lines 158-166). -/
structure PointSample where
  unit : ℚ
  h : ℚ
  perturb : ℚ
  r : ℚ
  symm : ℚ
  phi : ℚ
  csphi : ℚ
  snphi : ℚ
  X : Vector3
deriving DecidableEq, Repr

/-- One pass of the loop of `CreateScene` (lines 158-166): `s1`, `s2`, `s3` are the three
values drawn from `rnd(dre)`, in this order. -/
def scenePoint (S : SceneKernel) (V U W0 W1 : Vector3) (H0 H1 epsilon tantheta : ℚ)
    (s1 s2 s3 : ℚ) : PointSample :=
  let unit := (1 / 2) * (s1 + 1)
  let h := H0 + (H1 - H0) * unit
  let perturb := 1 + epsilon * s2
  let r := perturb * (h * tantheta)
  let symm := s3
  let phi := S.pi * symm
  let csphi := S.cos phi
  let snphi := S.sin phi
  { unit := unit, h := h, perturb := perturb, r := r, symm := symm, phi := phi,
    csphi := csphi, snphi := snphi,
    X := (V.add (Vector3.smul h U)).add
      (Vector3.smul r ((Vector3.smul csphi W0).add (Vector3.smul snphi W1))) }

/-- The points `X` of `CreateScene` (lines 137-167): pass `i` of the loop uses the draws
`3i`, `3i+1`, `3i+2` of the generator. -/
def scenePoints (S : SceneKernel) (numPoints : Nat) : List Vector3 :=
  let epsilon : ℚ := 1 / 100
  let V : Vector3 := ⟨3, 2, 1⟩
  let U : Vector3 := ⟨1, 2, 3⟩
  let basis := S.orthogonalComplement U
  let U := basis.1
  let W0 := basis.2.1
  let W1 := basis.2.2
  let H0 : ℚ := 1
  let H1 : ℚ := 2
  let theta := S.pi / 4
  let tantheta := S.tan theta
  (List.range numPoints).map (fun i =>
    (scenePoint S V U W0 W1 H0 H1 epsilon tantheta
      (S.rnd (3 * i)) (S.rnd (3 * i + 1)) (S.rnd (3 * i + 2))).X)

/-- What `CreateScene` computes (lines 135-182), the meshes apart: the points and the
cones returned by the two fitter calls. -/
structure Scene where
  X : List Vector3
  gnCone : Cone
  lmCone : Cone

/-- The function `FitConeWindow::CreateScene` (lines 135-182), the meshes apart. The
fitters return the cone through `coneVertex`, `coneAxis`, `coneAngle`, whose values
before the first call are `cone`. -/
def CreateScene (S : SceneKernel)
    (fitterGN : Nat → List Vector3 → Nat → ℚ → ℚ → Bool → Cone → Cone)
    (fitterLM : Nat → List Vector3 → Nat → ℚ → ℚ → ℚ → ℚ → Nat → Bool → Cone → Cone)
    (cone : Cone) : Scene :=
  let numPoints : Nat := 8196
  let X := scenePoints S numPoints
  let cone := CreateGNCone fitterGN X cone
  let gnCone := cone
  let cone := CreateLMConeWith fitterLM X cone
  { X := X, gnCone := gnCone, lmCone := cone }

/-- The height of the point `X` along the axis `U` of a cone with vertex `V`,
`Dot(U, X - V)`. -/
def axisHeight (V U X : Vector3) : ℚ := Dot U (X.sub V)

/-- The squared distance of the point `X` from the line through `V` with direction `U`,
for a unit vector `U`: the squared length of `X - V - Dot(U, X - V) * U`. -/
def radialSqrDistance (V U X : Vector3) : ℚ :=
  Dot ((X.sub V).sub (Vector3.smul (axisHeight V U X) U))
    ((X.sub V).sub (Vector3.smul (axisHeight V U X) U))

/-- A kernel for trying `CreateScene` on concrete values: every draw is `0`, the basis
is `(0,0,1)`, `(1,0,0)`, `(0,1,0)`, the tangent is `1`, cosine and sine are `3/5`, `4/5`. -/
def sampleSceneKernel : SceneKernel :=
  { rnd := fun _ => 0, pi := 22 / 7, tan := fun _ => 1, cos := fun _ => 3 / 5,
    sin := fun _ => 4 / 5,
    orthogonalComplement := fun _ => (⟨0, 0, 1⟩, ⟨1, 0, 0⟩, ⟨0, 1, 0⟩) }

/-! ## GPUAccuracyTest: the blocked loops -/

/-- One comparison of `GPUAccuracyTest`: the segment indices `sx`, `sy` and the index
`c + blockSize * r` of the result read from `gpuResult`. -/
structure BlockVisit where
  sx : Nat
  sy : Nat
  index : Nat
deriving DecidableEq, Repr

/-- The loop nest of `GPUAccuracyTest` (lines 376-415, and again 435-476) over the
blocks `(x, y)` with `y <= x`, the rows `r` and the columns `c` of a block, acting on a
state through the body of the innermost loop. -/
def blockLoops {σ : Type} (numBlocks blockSize : Nat) (body : BlockVisit → σ → σ) (st : σ) :
    σ :=
  forLoop 0 numBlocks (fun y st =>
    let origin1 := y * blockSize
    forLoop y numBlocks (fun x st =>
      let origin0 := x * blockSize
      forLoop 0 blockSize (fun r st =>
        let sy := origin1 + r
        let cmin := if x ≠ y then 0 else r + 1
        forLoop cmin blockSize (fun c st =>
          let sx := origin0 + c
          body { sx := sx, sy := sy, index := c + blockSize * r } st) st) st) st) st

/-- The comparisons made by the loop nest, in order. -/
def blockVisits (numBlocks blockSize : Nat) : List BlockVisit :=
  blockLoops numBlocks blockSize (fun v log => log ++ [v]) []

/-- The comparisons made by `GPUAccuracyTest` with the sizes of lines 324-326. -/
def GPUAccuracyTest_visits : List BlockVisit :=
  let numInputs := 16384
  let blockSize := 1024
  let numBlocks := numInputs / blockSize
  blockVisits numBlocks blockSize

/-! ## CPUAccuracyTest: the maximum errors -/

/-- A running maximum of `CPUAccuracyTest`: `maxError` with the pair `xmax`, `ymax`
(for instance `maxError01`, `xmax01`, `ymax01`). -/
structure MaxError where
  maxError : ℚ
  xmax : Nat
  ymax : Nat
deriving DecidableEq, Repr

/-- The statement `if (error > maxError) { maxError = error; xmax = x; ymax = y; }`. -/
def MaxError.update (m : MaxError) (error : ℚ) (x y : Nat) : MaxError :=
  if error > m.maxError then { maxError := error, xmax := x, ymax := y } else m

/-- The three running maxima of `CPUAccuracyTest` (lines 179-182). -/
structure AccuracyState where
  m01 : MaxError
  m02 : MaxError
  m12 : MaxError
deriving DecidableEq, Repr

/-- The distances compared by `CPUAccuracyTest` for the segments `segment[x]` and
`segment[y]`: `distance0` (the square root of Sunday's squared distance), `distance1`
(the robust query) and `distance2` (the square root of the rational query). The
square root and the two queries are not part of the sample. -/
structure DistanceKernel where
  distance0 : Nat → Nat → ℚ
  distance1 : Nat → Nat → ℚ
  distance2 : Nat → Nat → ℚ

/-- The body of the inner loop of `CPUAccuracyTest` (lines 196-244). -/
def accuracyBody (D : DistanceKernel) (compareUsingExact : Bool) (x y : Nat)
    (st : AccuracyState) : AccuracyState :=
  let distance0 := D.distance0 x y
  let distance1 := D.distance1 x y
  let st :=
    if compareUsingExact then
      let distance2 := D.distance2 x y
      let error := |distance0 - distance2|
      let st := { st with m02 := st.m02.update error x y }
      let error := |distance1 - distance2|
      { st with m12 := st.m12.update error x y }
    else st
  let error := |distance0 - distance1|
  { st with m01 := st.m01.update error x y }

/-- The maxima computed by `CPUAccuracyTest(compareUsingExact, testNonparallel)` over
`numInputs` segments (lines 179-246). -/
def accuracyLoops (D : DistanceKernel) (compareUsingExact : Bool) (numInputs : Nat) :
    AccuracyState :=
  pairLoops numInputs (accuracyBody D compareUsingExact)
    { m01 := { maxError := 0, xmax := 0, ymax := 0 },
      m02 := { maxError := 0, xmax := 0, ymax := 0 },
      m12 := { maxError := 0, xmax := 0, ymax := 0 } }

/-- The maxima computed by `CPUAccuracyTest(compareUsingExact, testNonparallel)`
(lines 173-246). -/
def CPUAccuracyTest_maxErrors (D : DistanceKernel) (compareUsingExact : Bool) :
    AccuracyState :=
  let numInputs := if compareUsingExact then 1024 else 16384
  accuracyLoops D compareUsingExact numInputs

/-- The running maximum `m` is the maximum of the errors `error x y` over the pairs of
`l`, located at the first pair of `l` that attains it: no error exceeds `m.maxError`,
some pair attains it when `l` is not empty, and either `m.maxError` is positive and
`(m.xmax, m.ymax)` is the first pair of `l` whose error equals it, or `m.maxError` is `0`
and the pair is still `(0, 0)`. -/
def MaxError.isFirstMaxOf (m : MaxError) (error : Nat → Nat → ℚ) (l : List (Nat × Nat)) :
    Prop :=
  (∀ p, p ∈ l → error p.1 p.2 ≤ m.maxError) ∧
  (l ≠ [] → ∃ p, p ∈ l ∧ error p.1 p.2 = m.maxError) ∧
  ((0 < m.maxError ∧ error m.xmax m.ymax = m.maxError ∧
      ∃ before after, l = before ++ (m.xmax, m.ymax) :: after ∧
        ∀ p, p ∈ before → error p.1 p.2 < m.maxError) ∨
    (m.maxError = 0 ∧ m.xmax = 0 ∧ m.ymax = 0))

/-! ## FitConeWindow: the cone mesh heights and the key presses -/

/-- The values of `CullingMode` of the library; the sample uses `CULL_ALWAYS` and
`CULL_NEVER`. -/
inductive CullingMode where
  | CULL_DYNAMIC
  | CULL_ALWAYS
  | CULL_NEVER
deriving DecidableEq, Repr

/-- The rasterizer state active in the engine: one of the two states owned by the
window, `mNoCullSolidState` and `mNoCullWireState`, or another state. -/
inductive RasterizerState where
  | mNoCullSolidState
  | mNoCullWireState
  | other
deriving DecidableEq, Repr

/-- The state that `FitConeWindow::OnCharPress` reads and writes: the rasterizer state
of the engine and the culling modes of the two cone meshes. -/
structure FitConeState where
  rasterizerState : RasterizerState
  mGNConeCulling : CullingMode
  mLMConeCulling : CullingMode
deriving DecidableEq, Repr

/-- The state after the constructor: `SetRasterizerState(mNoCullSolidState)` (line 43)
and `cone->culling = CullingMode::CULL_ALWAYS` for both meshes (line 287). -/
def FitConeState.initial : FitConeState :=
  { rasterizerState := RasterizerState.mNoCullSolidState,
    mGNConeCulling := CullingMode.CULL_ALWAYS,
    mLMConeCulling := CullingMode.CULL_ALWAYS }

/-- The function `FitConeWindow::OnCharPress` (lines 96-133): the returned flag and the
state after the key press. `base` is `Window3::OnCharPress`, which is not part of the
sample. -/
def OnCharPress (base : Char → Int → Int → FitConeState → Bool × FitConeState)
    (key : Char) (x y : Int) (st : FitConeState) : Bool × FitConeState :=
  if key = 'w' ∨ key = 'W' then
    if st.rasterizerState = RasterizerState.mNoCullSolidState then
      (true, { st with rasterizerState := RasterizerState.mNoCullWireState })
    else
      (true, { st with rasterizerState := RasterizerState.mNoCullSolidState })
  else if key = '0' then
    if st.mGNConeCulling = CullingMode.CULL_NEVER then
      (true, { st with mGNConeCulling := CullingMode.CULL_ALWAYS })
    else
      (true, { st with mGNConeCulling := CullingMode.CULL_NEVER })
  else if key = '1' then
    if st.mLMConeCulling = CullingMode.CULL_NEVER then
      (true, { st with mLMConeCulling := CullingMode.CULL_ALWAYS })
    else
      (true, { st with mLMConeCulling := CullingMode.CULL_NEVER })
  else base key x y st

/-- The meshes drawn by `FitConeWindow::OnIdle` (lines 76-86). -/
inductive Mesh where
  | mPoints
  | mGNCone
  | mLMCone
deriving DecidableEq, Repr

/-- The draw calls for meshes of `FitConeWindow::OnIdle` (lines 76-86), in order: a
cone is drawn when its culling mode is `CULL_NEVER`. -/
def OnIdle_draws (st : FitConeState) : List Mesh :=
  [Mesh.mPoints]
    ++ (if st.mGNConeCulling = CullingMode.CULL_NEVER then [Mesh.mGNCone] else [])
    ++ (if st.mLMConeCulling = CullingMode.CULL_NEVER then [Mesh.mLMCone] else [])

/-- The states the key presses move between: the rasterizer state is one of the two
states of the window and both culling modes are `CULL_ALWAYS` or `CULL_NEVER`. -/
def FitConeState.toggled (st : FitConeState) : Prop :=
  st.rasterizerState ≠ RasterizerState.other ∧
  st.mGNConeCulling ≠ CullingMode.CULL_DYNAMIC ∧
  st.mLMConeCulling ≠ CullingMode.CULL_DYNAMIC

instance (st : FitConeState) : Decidable st.toggled := by
  unfold FitConeState.toggled
  infer_instance

/-! ## GeodesicEllipsoidWindow: the approximate path -/

/-- A `GVector<float>`: the tuple of its components. -/
abbrev GVector := List ℚ

/-- What `ComputeApprPath` and `ComputeApprLength` take from `mGeodesic`, whose class
is not part of the sample: `Subdivide(end0, mid, end1)` and `Refine(end0, mid, end1)` as
the new value of `mid` (for `Refine` as a function of the old value too),
`GetCurrentQuantity()`, and `ComputeTotalLength`, `ComputeTotalCurvature` as
functions of the number of points and of the points. -/
structure GeodesicKernel where
  Subdivide : GVector → GVector → GVector
  Refine : GVector → GVector → GVector → GVector
  GetCurrentQuantity : Int
  ComputeTotalLength : Int → (Int → GVector) → ℚ
  ComputeTotalCurvature : Int → (Int → GVector) → ℚ

/-- A call made to `mGeodesic`, with the index of the point it writes. -/
inductive GeodesicCall where
  | Subdivide (mid : Int)
  | Refine (mid : Int)
  | ComputeTotalLength
  | ComputeTotalCurvature
deriving DecidableEq, Repr

/-- The members of `GeodesicEllipsoidWindow` that `ComputeApprPath` reads and writes,
and the calls made to `mGeodesic` so far, in order. The `int` members are integers;
`mApprPoints[i]` is `mApprPoints i`. -/
structure EllipsoidState where
  mNumApprPoints : Int
  mCurrNumApprPoints : Int
  mApprPoints : Int → GVector
  mApprDistance : ℚ
  mApprCurvature : ℚ
  calls : List GeodesicCall

/-- The loop `for (i = lo; i <= hi; ++i) body(i)` over `int`. -/
def forLoopUpTo {σ : Type} (lo hi : Int) (body : Int → σ → σ) (st : σ) : σ :=
  forLoop 0 (hi + 1 - lo).toNat (fun k st => body (lo + k) st) st

/-- The loop `for (i = hi; i > lo; --i) body(i)` over `int`. -/
def forLoopDownTo {σ : Type} (hi lo : Int) (body : Int → σ → σ) (st : σ) : σ :=
  forLoop 0 (hi - lo).toNat (fun k st => body (hi - k) st) st

/-- The function `GeodesicEllipsoidWindow::ComputeApprLength` (lines 222-232). -/
def ComputeApprLength (G : GeodesicKernel) (st : EllipsoidState) : EllipsoidState :=
  let numApprPoints := G.GetCurrentQuantity
  let numApprPoints := if numApprPoints = 0 then st.mCurrNumApprPoints else numApprPoints
  { st with
    mApprDistance := G.ComputeTotalLength numApprPoints st.mApprPoints,
    mApprCurvature := G.ComputeTotalCurvature numApprPoints st.mApprPoints,
    calls := st.calls ++ [GeodesicCall.ComputeTotalLength, GeodesicCall.ComputeTotalCurvature] }

/-- The function `GeodesicEllipsoidWindow::ComputeApprPath` (lines 194-220). -/
def ComputeApprPath (G : GeodesicKernel) (subdivide : Bool) (st : EllipsoidState) :
    EllipsoidState :=
  if subdivide then
    let newNumApprPoints := 2 * st.mCurrNumApprPoints - 1
    if newNumApprPoints > st.mNumApprPoints then
      st
    else
      let st := forLoopDownTo (st.mCurrNumApprPoints - 1) 0 (fun i st =>
        { st with mApprPoints := Function.update st.mApprPoints (2 * i) (st.mApprPoints i) }) st
      let st := forLoopUpTo 0 (st.mCurrNumApprPoints - 2) (fun i st =>
        { st with
          mApprPoints := Function.update st.mApprPoints (2 * i + 1)
            (G.Subdivide (st.mApprPoints (2 * i)) (st.mApprPoints (2 * i + 2))),
          calls := st.calls ++ [GeodesicCall.Subdivide (2 * i + 1)] }) st
      let st := { st with mCurrNumApprPoints := newNumApprPoints }
      ComputeApprLength G st
  else
    let st := forLoopUpTo 1 (st.mCurrNumApprPoints - 2) (fun i st =>
      { st with
        mApprPoints := Function.update st.mApprPoints i
          (G.Refine (st.mApprPoints (i - 1)) (st.mApprPoints i) (st.mApprPoints (i + 1))),
        calls := st.calls ++ [GeodesicCall.Refine i] }) st
    ComputeApprLength G st

/-! ## GeodesicEllipsoidWindow: sequences of calls -/

/-- The part of `GeodesicEllipsoidWindow::ComputeTruePath` that initialises the
approximate path (lines 189-193); `mParam0` and `mParam1` are the end points drawn at
its start (lines 161-166). The true path, computed before, lies in other members. -/
def ComputeTruePath (G : GeodesicKernel) (mParam0 mParam1 : GVector) (st : EllipsoidState) :
    EllipsoidState :=
  let st := { st with mCurrNumApprPoints := 2 }
  let st := { st with mApprPoints := Function.update st.mApprPoints 0 mParam0 }
  let st := { st with mApprPoints := Function.update st.mApprPoints 1 mParam1 }
  ComputeApprLength G st

/-- The state after the constructor of `GeodesicEllipsoidWindow` (lines 30-73):
`mNumApprPoints` is `(1 << mGeodesic.subdivisions) + 1`, `mCurrNumApprPoints` is `0`,
and `ComputeTruePath` is called (line 70). `subdivisions` is the member of `mGeodesic`,
whose class is not part of the sample; `points` are the initial elements of
`mApprPoints`. -/
def EllipsoidState.constructed (G : GeodesicKernel) (subdivisions : Nat)
    (mParam0 mParam1 : GVector) (points : Int → GVector) : EllipsoidState :=
  ComputeTruePath G mParam0 mParam1
    { mNumApprPoints := 2 ^ subdivisions + 1,
      mCurrNumApprPoints := 0,
      mApprPoints := points,
      mApprDistance := 0,
      mApprCurvature := 0,
      calls := [] }

/-- A call of `ComputeTruePath()` (`truePath`) or of `ComputeApprPath(subdivide)`
(`apprPath subdivide`). -/
inductive PathCall where
  | truePath
  | apprPath (subdivide : Bool)
deriving DecidableEq, Repr

/-- The state after one call. -/
def PathCall.apply (G : GeodesicKernel) (mParam0 mParam1 : GVector) (st : EllipsoidState) :
    PathCall → EllipsoidState
  | PathCall.truePath => ComputeTruePath G mParam0 mParam1 st
  | PathCall.apprPath subdivide => ComputeApprPath G subdivide st

/-- The state after a sequence of calls, made in order. -/
def runCalls (G : GeodesicKernel) (mParam0 mParam1 : GVector) (calls : List PathCall)
    (st : EllipsoidState) : EllipsoidState :=
  calls.foldl (PathCall.apply G mParam0 mParam1) st

/-- The indices `j` of the elements `mApprPoints[j]` used by the loops of
`ComputeApprPath(subdivide)` (lines 204-213 and 219-223), in the order of use: in the
copy loop `2*i` and `i`, in the subdivision loop `2*i`, `2*i+1`, `2*i+2`, in the
refinement loop `i-1`, `i`, `i+1`. -/
def ComputeApprPath_indices (subdivide : Bool) (st : EllipsoidState) : List Int :=
  if subdivide then
    let newNumApprPoints := 2 * st.mCurrNumApprPoints - 1
    if newNumApprPoints > st.mNumApprPoints then
      []
    else
      let used := forLoopDownTo (st.mCurrNumApprPoints - 1) 0 (fun i used =>
        used ++ [2 * i, i]) []
      forLoopUpTo 0 (st.mCurrNumApprPoints - 2) (fun i used =>
        used ++ [2 * i, 2 * i + 1, 2 * i + 2]) used
  else
    forLoopUpTo 1 (st.mCurrNumApprPoints - 2) (fun i used =>
      used ++ [i - 1, i, i + 1]) []

/-- The form of the counts: `mNumApprPoints` is `2^subdivisions + 1` and
`mCurrNumApprPoints` is `2^k + 1` for some `k` with `0 <= k <= subdivisions`. -/
def EllipsoidState.countsOfForm (subdivisions : Nat) (st : EllipsoidState) : Prop :=
  st.mNumApprPoints = 2 ^ subdivisions + 1 ∧
  ∃ k : Nat, k ≤ subdivisions ∧ st.mCurrNumApprPoints = 2 ^ k + 1

/-! ## GpuGaussianBlur3Window: the idle step -/

/-- The compute programs of `GpuGaussianBlur3Window`. -/
inductive BlurProgram where
  | mGaussianBlurProgram
  | mBoundaryDirichletProgram
  | mBoundaryNeumannProgram
deriving DecidableEq, Repr

/-- The calls that `GpuGaussianBlur3Window::OnIdle` makes to the timer and to the
engine. -/
inductive IdleCall where
  | Measure
  | Execute (program : BlurProgram) (numXGroups numYGroups numZGroups : Nat)
  | DrawOverlay
  | DrawFPS
  | DisplayColorBuffer (syncInterval : Nat)
  | UpdateFrameCount
deriving DecidableEq, Repr

/-- The file-scoped flag `gsUseDirichlet`, the members `mNumXGroups`, `mNumYGroups`
and the calls made so far, in order. -/
structure BlurState where
  gsUseDirichlet : Bool
  mNumXGroups : Nat
  mNumYGroups : Nat
  calls : List IdleCall
deriving DecidableEq, Repr

/-- The assignment of `gsUseDirichlet` in `main` (line 26) from the value of
`command.GetBoolean("d")`. -/
def main_gsUseDirichlet (getBoolean : Int) : Bool :=
  if getBoolean > 0 then true else false

/-- The function `GpuGaussianBlur3Window::OnIdle` (lines 68-88). -/
def BlurState.OnIdle (st : BlurState) : BlurState :=
  let st := { st with calls := st.calls ++ [IdleCall.Measure] }
  let st := { st with calls := st.calls ++
    [IdleCall.Execute BlurProgram.mGaussianBlurProgram st.mNumXGroups st.mNumYGroups 1] }
  let st :=
    if st.gsUseDirichlet then
      { st with calls := st.calls ++
        [IdleCall.Execute BlurProgram.mBoundaryDirichletProgram st.mNumXGroups
          st.mNumYGroups 1] }
    else
      { st with calls := st.calls ++
        [IdleCall.Execute BlurProgram.mBoundaryNeumannProgram st.mNumXGroups
          st.mNumYGroups 1] }
  let st := { st with calls := st.calls ++ [IdleCall.DrawOverlay] }
  let st := { st with calls := st.calls ++ [IdleCall.DrawFPS] }
  let st := { st with calls := st.calls ++ [IdleCall.DisplayColorBuffer 0] }
  { st with calls := st.calls ++ [IdleCall.UpdateFrameCount] }

/-- The programs executed by a list of calls, in order. -/
def executedPrograms (calls : List IdleCall) : List BlurProgram :=
  calls.filterMap (fun call =>
    match call with
    | IdleCall.Execute program _ _ _ => some program
    | _ => none)

/-! ## IEEE binary64 arithmetic

The C++ type `double` with the operations the samples use on it. Every arithmetic
operation returns the exact result rounded to the nearest value of the format, a tie going
to the even significand; an operation is rounded on its own (no fused multiply-add). -/

/-- The values of the C++ type `double` (IEEE 754 binary64): a finite value with its
exact rational value (`finite 0` is `+0.0`), the negative zero `-0.0`, the two
infinities and NaN. A value of the format is a `finite q` whose `q` the format holds
(`representable`); the arithmetic operations below return values of the format. -/
inductive Double where
  | finite (q : ℚ)
  | negZero
  | infinite (neg : Bool)
  | nan
deriving DecidableEq, Repr

/-- Rounding of a rational to the nearest integer, a tie going to the even integer. -/
def roundHalfEven (q : ℚ) : ℤ :=
  if q - ⌊q⌋ < 1 / 2 then ⌊q⌋
  else if 1 / 2 < q - ⌊q⌋ then ⌊q⌋ + 1
  else if ⌊q⌋ % 2 = 0 then ⌊q⌋ else ⌊q⌋ + 1

/-- The exponent of the spacing of the binary64 values around `q`: 52 binary places
below the leading digit of `q`, and `-1074` in the subnormal range. -/
def ulpExponent (q : ℚ) : ℤ := max (Int.log 2 |q|) (-1022) - 52

/-- Rounding of a rational to the nearest multiple of the spacing around it, ties to
even (the rounding of binary64 with the exponent unbounded above). -/
def roundToBinary64 (q : ℚ) : ℚ :=
  roundHalfEven (q / 2 ^ ulpExponent q) * 2 ^ ulpExponent q

namespace Double

/-- The value is NaN. -/
def isNaN : Double → Bool
  | nan => true
  | _ => false

/-- The value is one of the two infinities. -/
def isInf : Double → Bool
  | infinite _ => true
  | _ => false

/-- The value is finite (`std::isfinite`). -/
def isFinite : Double → Bool
  | finite _ => true
  | negZero => true
  | _ => false

/-- The rational value of a finite double (`0` for the other values). -/
def toRat : Double → ℚ
  | finite q => q
  | _ => 0

/-- The sign bit (`std::signbit`); NaN is taken with the sign bit clear. -/
def signBit : Double → Bool
  | finite q => decide (q < 0)
  | negZero => true
  | infinite neg => neg
  | nan => false

/-- The value is `+0.0` or `-0.0`. -/
def isZero (x : Double) : Bool := x.isFinite && decide (x.toRat = 0)

/-- The double nearest to the rational `q` (round to nearest, ties to even), with
overflow to infinity; `neg` is the sign of the exact result, used for a zero and for an
infinity. -/
def ofRat (neg : Bool) (q : ℚ) : Double :=
  if 2 ^ 1024 ≤ |roundToBinary64 q| then infinite neg
  else if roundToBinary64 q = 0 then (if neg then negZero else finite 0)
  else finite (roundToBinary64 q)

/-- The finite value is one of the binary64 format. -/
def representable : Double → Bool
  | finite q => decide (roundToBinary64 q = q ∧ |q| < 2 ^ 1024)
  | _ => true

/-- Unary minus. -/
def neg : Double → Double
  | finite q => if q = 0 then negZero else finite (-q)
  | negZero => finite 0
  | infinite s => infinite (!s)
  | nan => nan

/-- The function `std::abs`. -/
def abs : Double → Double
  | finite q => finite |q|
  | negZero => finite 0
  | infinite _ => infinite false
  | nan => nan

/-- The sum `x + y`. An exact sum `0` is `-0.0` when both terms have the sign bit set
and `+0.0` otherwise; infinities of opposite signs give NaN. -/
def add (x y : Double) : Double :=
  if x.isNaN || y.isNaN then nan
  else if x.isInf && y.isInf then (if x.signBit = y.signBit then x else nan)
  else if x.isInf then x
  else if y.isInf then y
  else if x.toRat + y.toRat = 0 then (if x.signBit && y.signBit then negZero else finite 0)
  else ofRat (decide (x.toRat + y.toRat < 0)) (x.toRat + y.toRat)

/-- The difference `x - y`, the sum of `x` and `-y`. -/
def sub (x y : Double) : Double := add x (neg y)

/-- The product `x * y`; zero times infinity is NaN. -/
def mul (x y : Double) : Double :=
  if x.isNaN || y.isNaN then nan
  else if x.isInf || y.isInf then
    (if x.isZero || y.isZero then nan else infinite (xor x.signBit y.signBit))
  else ofRat (xor x.signBit y.signBit) (x.toRat * y.toRat)

/-- The quotient `x / y`; `0/0` and `inf/inf` are NaN, a nonzero finite value over a zero
is an infinity. -/
def div (x y : Double) : Double :=
  if x.isNaN || y.isNaN then nan
  else if x.isInf then (if y.isInf then nan else infinite (xor x.signBit y.signBit))
  else if y.isInf then (if xor x.signBit y.signBit then negZero else finite 0)
  else if y.toRat = 0 then
    (if x.toRat = 0 then nan else infinite (xor x.signBit y.signBit))
  else ofRat (xor x.signBit y.signBit) (x.toRat / y.toRat)

/-- The comparison `x < y`; false when either is NaN. -/
def lt (x y : Double) : Bool :=
  if x.isNaN || y.isNaN then false
  else if x.isInf then x.signBit && !(y.isInf && y.signBit)
  else if y.isInf then !y.signBit
  else decide (x.toRat < y.toRat)

/-- The comparison `x <= y`; false when either is NaN. -/
def le (x y : Double) : Bool :=
  if x.isNaN || y.isNaN then false
  else if x.isInf then x.signBit || (y.isInf && !y.signBit)
  else if y.isInf then !y.signBit
  else decide (x.toRat ≤ y.toRat)

end Double

/-- The value is NaN, `+infinity` or a finite value `>= 0` other than `-0.0`: what a sum
of squares can be. -/
def Double.nonnegOrNaN (x : Double) : Prop :=
  x = .nan ∨ x = .infinite false ∨ ∃ q : ℚ, x = .finite q ∧ 0 ≤ q

/-! ## dist3D_Segment_to_Segment in binary64 arithmetic -/

namespace Binary64

/-- The three coordinates of a `Vector3<double>`. -/
structure Vector3 where
  x : Double
  y : Double
  z : Double
deriving DecidableEq, Repr

namespace Vector3

/-- Componentwise difference, `operator-`. -/
def sub (p q : Vector3) : Vector3 := ⟨p.x.sub q.x, p.y.sub q.y, p.z.sub q.z⟩

/-- Componentwise sum, `operator+`. -/
def add (p q : Vector3) : Vector3 := ⟨p.x.add q.x, p.y.add q.y, p.z.add q.z⟩

/-- Scalar times vector, `operator*`. -/
def smul (k : Double) (p : Vector3) : Vector3 := ⟨k.mul p.x, k.mul p.y, k.mul p.z⟩

end Vector3

/-- The dot product `Dot(u, v)`: the three products summed from the first on. -/
def Dot (u v : Vector3) : Double := ((u.x.mul v.x).add (u.y.mul v.y)).add (u.z.mul v.z)

/-- The constant `SMALL_NUM = 0.00000001`: the double nearest to `10^-8`. -/
def SMALL_NUM : Double := Double.ofRat false (1 / 100000000)

/-- The four local variables `sN, sD, tN, tD` of `dist3D_Segment_to_Segment`. -/
structure Ratios where
  sN : Double
  sD : Double
  tN : Double
  tD : Double
deriving DecidableEq, Repr

/-- Lines 53-76: the initial values `sD = tD = D`, then either the almost-parallel
branch or the closest points on the infinite lines clipped to the edges `s=0`, `s=1`. -/
def lineParameters (a b c d e D : Double) : Ratios :=
  let sD := D
  let tD := D
  if D.lt SMALL_NUM then
    { sN := .finite 0, sD := .finite 1, tN := e, tD := c }
  else
    let sN := (b.mul e).sub (c.mul d)
    let tN := (a.mul e).sub (b.mul d)
    if sN.lt (.finite 0) then
      { sN := .finite 0, sD := sD, tN := e, tD := c }
    else if sD.lt sN then
      { sN := sD, sD := sD, tN := e.add b, tD := c }
    else
      { sN := sN, sD := sD, tN := tN, tD := tD }

/-- Lines 78-101: clipping against the edges `t=0` and `t=1`, recomputing `sN`, `sD`. -/
def clipT (a b d : Double) (r : Ratios) : Ratios :=
  if r.tN.lt (.finite 0) then
    let r := { r with tN := .finite 0 }
    if d.neg.lt (.finite 0) then { r with sN := .finite 0 }
    else if a.lt d.neg then { r with sN := r.sD }
    else { r with sN := d.neg, sD := a }
  else if r.tD.lt r.tN then
    let r := { r with tN := r.tD }
    if (d.neg.add b).lt (.finite 0) then { r with sN := .finite 0 }
    else if a.lt (d.neg.add b) then { r with sN := r.sD }
    else { r with sN := d.neg.add b, sD := a }
  else r

/-- The values `a, b, c, d, e, D` of lines 47-52. -/
structure Coefficients where
  a : Double
  b : Double
  c : Double
  d : Double
  e : Double
  D : Double
deriving DecidableEq, Repr

/-- Lines 44-52: the vectors `u`, `v`, `w` and the values `a, b, c, d, e, D`. -/
def coefficients (P0 P1 Q0 Q1 : Vector3) : Coefficients :=
  let u := P1.sub P0
  let v := Q1.sub Q0
  let w := P0.sub Q0
  let a := Dot u u
  let b := Dot u v
  let c := Dot v v
  let d := Dot u w
  let e := Dot v w
  let D := (a.mul c).sub (b.mul b)
  { a := a, b := b, c := c, d := d, e := e, D := D }

/-- The values of `sN, sD, tN, tD` when control reaches line 102 (lines 44-101). -/
def ratios (P0 P1 Q0 Q1 : Vector3) : Ratios :=
  let k := coefficients P0 P1 Q0 Q1
  clipT k.a k.b k.d (lineParameters k.a k.b k.c k.d k.e k.D)

/-- The expression `std::abs(N) < SMALL_NUM ? 0.0 : N / Dn` of lines 103-104; the
quotient is evaluated in the second arm only. -/
def quotient (N Dn : Double) : Double :=
  if N.abs.lt SMALL_NUM then .finite 0 else N.div Dn

/-- The outputs of `dist3D_Segment_to_Segment`: the reference arguments
`sqrDistance`, `s`, `t` and the two entries of `closest`. -/
structure Result where
  sqrDistance : Double
  s : Double
  t : Double
  closest0 : Vector3
  closest1 : Vector3
deriving DecidableEq, Repr

/-- Lines 106-112: the outputs computed from the parameters `sc`, `tc`. -/
def output (P0 P1 Q0 Q1 : Vector3) (sc tc : Double) : Result :=
  let closest0 := (Vector3.smul ((Double.finite 1).sub sc) P0).add (Vector3.smul sc P1)
  let closest1 := (Vector3.smul ((Double.finite 1).sub tc) Q0).add (Vector3.smul tc Q1)
  let diff := closest0.sub closest1
  { sqrDistance := Dot diff diff, s := sc, t := tc,
    closest0 := closest0, closest1 := closest1 }

/-- The function `dist3D_Segment_to_Segment` (lines 38-113) in binary64 arithmetic. -/
def dist3D_Segment_to_Segment (P0 P1 Q0 Q1 : Vector3) : Result :=
  let r := ratios P0 P1 Q0 Q1
  output P0 P1 Q0 Q1 (quotient r.sN r.sD) (quotient r.tN r.tD)

/-- Every coordinate is finite. -/
def Vector3.isFinite (v : Vector3) : Bool := v.x.isFinite && v.y.isFinite && v.z.isFinite

/-- Every coordinate is a value of the binary64 format. -/
def Vector3.representable (v : Vector3) : Bool :=
  v.x.representable && v.y.representable && v.z.representable

/-- The point `(2^1023, 0, 0)`; its coordinates are finite doubles. -/
def hugePoint : Vector3 := ⟨.finite (2 ^ 1023), .finite 0, .finite 0⟩

/-- The point `(-2^1023, 0, 0)`; its coordinates are finite doubles. -/
def hugePointNeg : Vector3 := ⟨.finite (-(2 ^ 1023)), .finite 0, .finite 0⟩

/-! ## CreateScene in binary64 arithmetic -/

/-- What one pass of the loop of `CreateScene` takes from outside the sample: the constant
`GTE_C_PI` and the functions `std::cos`, `std::sin`. -/
structure SceneKernel where
  pi : Double
  cos : Double → Double
  sin : Double → Double

/-- The local variables of one pass of the loop of `CreateScene` (lines 158-166). -/
structure PointSample where
  unit : Double
  h : Double
  perturb : Double
  r : Double
  symm : Double
  phi : Double
  csphi : Double
  snphi : Double
  X : Vector3

/-- The constant `epsilon = 0.01` of `CreateScene`: the double nearest to `1/100`. -/
def epsilon : Double := Double.ofRat false (1 / 100)

/-- One pass of the loop of `CreateScene` (lines 158-166) in binary64 arithmetic: `s1`,
`s2`, `s3` are the three values drawn from `rnd(dre)`, in this order; `0.5`, `1.0` are the
doubles `1/2`, `1`. -/
def scenePoint (S : SceneKernel) (V U W0 W1 : Vector3) (H0 H1 epsilon tantheta : Double)
    (s1 s2 s3 : Double) : PointSample :=
  let unit := (Double.finite (1 / 2)).mul (s1.add (.finite 1))
  let h := H0.add ((H1.sub H0).mul unit)
  let perturb := (Double.finite 1).add (epsilon.mul s2)
  let r := perturb.mul (h.mul tantheta)
  let symm := s3
  let phi := S.pi.mul symm
  let csphi := S.cos phi
  let snphi := S.sin phi
  { unit := unit, h := h, perturb := perturb, r := r, symm := symm, phi := phi,
    csphi := csphi, snphi := snphi,
    X := (V.add (Vector3.smul h U)).add
      (Vector3.smul r ((Vector3.smul csphi W0).add (Vector3.smul snphi W1))) }

/-- A kernel for trying one pass of the loop on concrete values: the double nearest to
pi, and constant functions for cosine and sine. -/
def sampleSceneKernel : SceneKernel :=
  { pi := .finite (884279719003555 / 2 ^ 48), cos := fun _ => .finite 1,
    sin := fun _ => .finite 0 }

end Binary64

/-! ## Facts about the clipping stages -/

theorem Dot_self_nonneg (u : Vector3) : 0 ≤ Dot u u := by
  unfold Dot
  nlinarith [mul_self_nonneg u.x, mul_self_nonneg u.y, mul_self_nonneg u.z]

theorem SMALL_NUM_pos : 0 < SMALL_NUM := by
  unfold SMALL_NUM
  norm_num

/-- After lines 53-76 the numerator `sN` lies between `0` and `sD`, and `tD` is
not negative. -/
theorem lineParameters_bounds (a b c d e D : ℚ) (hc : 0 ≤ c) :
    0 ≤ (lineParameters a b c d e D).sN ∧
    (lineParameters a b c d e D).sN ≤ (lineParameters a b c d e D).sD ∧
    0 ≤ (lineParameters a b c d e D).tD := by
  have hS := SMALL_NUM_pos
  unfold lineParameters
  by_cases h1 : D < SMALL_NUM
  · simp only [h1, if_true]
    exact ⟨le_refl 0, zero_le_one, hc⟩
  · have hD : 0 ≤ D := le_of_lt (lt_of_lt_of_le hS (not_lt.mp h1))
    simp only [h1, if_false]
    by_cases h2 : b * e - c * d < 0
    · simp only [h2, if_true]
      exact ⟨le_refl 0, hD, hc⟩
    · simp only [h2, if_false]
      by_cases h3 : b * e - c * d > D
      · simp only [h3, if_true]
        exact ⟨hD, le_refl D, hc⟩
      · simp only [h3, if_false]
        exact ⟨not_lt.mp h2, not_lt.mp h3, hD⟩

/-- After lines 78-101 both numerators lie between `0` and their denominators. -/
theorem clipT_bounds (a b d : ℚ) (r : Ratios)
    (h0 : 0 ≤ r.sN) (h1 : r.sN ≤ r.sD) (h2 : 0 ≤ r.tD) :
    0 ≤ (clipT a b d r).sN ∧ (clipT a b d r).sN ≤ (clipT a b d r).sD ∧
    0 ≤ (clipT a b d r).tN ∧ (clipT a b d r).tN ≤ (clipT a b d r).tD := by
  have hsD : 0 ≤ r.sD := le_trans h0 h1
  unfold clipT
  by_cases c1 : r.tN < 0
  · simp only [c1, if_true]
    by_cases c2 : -d < 0
    · simp only [c2, if_true]
      exact ⟨le_refl 0, hsD, le_refl 0, h2⟩
    · simp only [c2, if_false]
      by_cases c3 : -d > a
      · simp only [c3, if_true]
        exact ⟨hsD, le_refl _, le_refl 0, h2⟩
      · simp only [c3, if_false]
        exact ⟨not_lt.mp c2, not_lt.mp c3, le_refl 0, h2⟩
  · simp only [c1, if_false]
    by_cases c4 : r.tN > r.tD
    · simp only [c4, if_true]
      by_cases c2 : -d + b < 0
      · simp only [c2, if_true]
        exact ⟨le_refl 0, hsD, h2, le_refl _⟩
      · simp only [c2, if_false]
        by_cases c3 : -d + b > a
        · simp only [c3, if_true]
          exact ⟨hsD, le_refl _, h2, le_refl _⟩
        · simp only [c3, if_false]
          exact ⟨not_lt.mp c2, not_lt.mp c3, h2, le_refl _⟩
    · simp only [c4, if_false]
      exact ⟨h0, h1, not_lt.mp c1, not_lt.mp c4⟩

/-- At line 102 both numerators lie between `0` and their denominators. -/
theorem ratios_bounds (P0 P1 Q0 Q1 : Vector3) :
    0 ≤ (ratios P0 P1 Q0 Q1).sN ∧ (ratios P0 P1 Q0 Q1).sN ≤ (ratios P0 P1 Q0 Q1).sD ∧
    0 ≤ (ratios P0 P1 Q0 Q1).tN ∧ (ratios P0 P1 Q0 Q1).tN ≤ (ratios P0 P1 Q0 Q1).tD := by
  unfold ratios
  obtain ⟨h0, h1, h2⟩ := lineParameters_bounds
    (Dot (P1.sub P0) (P1.sub P0)) (Dot (P1.sub P0) (Q1.sub Q0)) (Dot (Q1.sub Q0) (Q1.sub Q0))
    (Dot (P1.sub P0) (P0.sub Q0)) (Dot (Q1.sub Q0) (P0.sub Q0))
    (Dot (P1.sub P0) (P1.sub P0) * Dot (Q1.sub Q0) (Q1.sub Q0)
      - Dot (P1.sub P0) (Q1.sub Q0) * Dot (P1.sub P0) (Q1.sub Q0))
    (Dot_self_nonneg _)
  exact clipT_bounds _ _ _ _ h0 h1 h2

/-- A numerator between `0` and its denominator gives a quotient in `[0,1]`, and
the division is by a positive number whenever it is carried out. -/
theorem quotient_of_bounds (N Dn : ℚ) (h0 : 0 ≤ N) (h1 : N ≤ Dn) :
    ∃ q, quotient N Dn = some q ∧ 0 ≤ q ∧ q ≤ 1 := by
  unfold quotient
  by_cases c1 : |N| < SMALL_NUM
  · exact ⟨0, by simp only [c1, if_true], le_refl 0, zero_le_one⟩
  · have hN : SMALL_NUM ≤ N := by
      have := not_lt.mp c1
      rwa [abs_of_nonneg h0] at this
    have hD : 0 < Dn := lt_of_lt_of_le (lt_of_lt_of_le SMALL_NUM_pos hN) h1
    refine ⟨N / Dn, ?_, div_nonneg h0 (le_of_lt hD), (div_le_one hD).mpr h1⟩
    simp only [c1, if_false, ne_of_gt hD]

/-- The function returns, with both parameters in `[0,1]`. -/
theorem dist3D_returns (P0 P1 Q0 Q1 : Vector3) :
    ∃ sc tc, dist3D_Segment_to_Segment P0 P1 Q0 Q1 = some (output P0 P1 Q0 Q1 sc tc) ∧
      0 ≤ sc ∧ sc ≤ 1 ∧ 0 ≤ tc ∧ tc ≤ 1 := by
  obtain ⟨h0, h1, h2, h3⟩ := ratios_bounds P0 P1 Q0 Q1
  obtain ⟨sc, hs, hs0, hs1⟩ := quotient_of_bounds _ _ h0 h1
  obtain ⟨tc, ht, ht0, ht1⟩ := quotient_of_bounds _ _ h2 h3
  refine ⟨sc, tc, ?_, hs0, hs1, ht0, ht1⟩
  unfold dist3D_Segment_to_Segment
  simp only [hs, ht]

/-- The result is determined by the values at line 102 and the two quotients. -/
theorem dist3D_of_ratios {P0 P1 Q0 Q1 : Vector3} {sN sD tN tD sc tc : ℚ}
    (h : ratios P0 P1 Q0 Q1 = ⟨sN, sD, tN, tD⟩)
    (hs : quotient sN sD = some sc) (ht : quotient tN tD = some tc) :
    dist3D_Segment_to_Segment P0 P1 Q0 Q1 = some (output P0 P1 Q0 Q1 sc tc) := by
  unfold dist3D_Segment_to_Segment
  simp only [h, hs, ht]

theorem sqrDistanceAt_nonneg (P0 P1 Q0 Q1 : Vector3) (s t : ℚ) :
    0 ≤ sqrDistanceAt P0 P1 Q0 Q1 s t :=
  Dot_self_nonneg _

/-- A segment through the origin along the x axis and a segment of length about 2
that crosses it at its endpoint `(1,0,0)` under a slope of `1/131072`: the almost
parallel branch keeps `s = 0` and projects `P0` on the second line. -/
theorem crossing_example_eval :
    dist3D_Segment_to_Segment ⟨0, 0, 0⟩ ⟨1, 0, 0⟩ ⟨-1/2, -3/262144, 0⟩ ⟨3/2, 1/262144, 0⟩
      = some ⟨1/17179869185, 0, 17179869187/68719476740, ⟨0, 0, 0⟩,
          ⟨1/17179869185, -131072/17179869185, 0⟩⟩ := by
  have hr : ratios ⟨0, 0, 0⟩ ⟨1, 0, 0⟩ ⟨-1/2, -3/262144, 0⟩ ⟨3/2, 1/262144, 0⟩
      = ⟨0, 1, 17179869187/17179869184, 17179869185/4294967296⟩ := by
    simp only [ratios, Vector3.sub, Dot]
    norm_num [lineParameters, clipT, SMALL_NUM]
  have h1 : quotient 0 1 = some 0 := by
    norm_num [quotient, SMALL_NUM]
  have h2 : quotient (17179869187/17179869184) (17179869185/4294967296)
      = some (17179869187/68719476740) := by
    norm_num [quotient, SMALL_NUM, abs_lt]
  rw [dist3D_of_ratios hr h1 h2]
  simp only [output, Vector3.sub, Vector3.add, Vector3.smul, Dot, Option.some.injEq,
    Result.mk.injEq, Vector3.mk.injEq]
  norm_num

/-- Two almost parallel segments of opposite direction, one unit apart: with
`P = [(0,0,0),(1,0,0)]` first, `P0` is projected on the second line, beyond `t = 1`. -/
theorem opposite_example_eval :
    dist3D_Segment_to_Segment ⟨0, 0, 0⟩ ⟨1, 0, 0⟩ ⟨1, 131073/131072, 0⟩ ⟨0, 1, 0⟩
      = some ⟨1, 0, 1, ⟨0, 0, 0⟩, ⟨0, 1, 0⟩⟩ := by
  have hr : ratios ⟨0, 0, 0⟩ ⟨1, 0, 0⟩ ⟨1, 131073/131072, 0⟩ ⟨0, 1, 0⟩
      = ⟨0, 1, 17179869185/17179869184, 17179869185/17179869184⟩ := by
    simp only [ratios, Vector3.sub, Dot]
    norm_num [lineParameters, clipT, SMALL_NUM]
  have h1 : quotient 0 1 = some 0 := by
    norm_num [quotient, SMALL_NUM]
  have h2 : quotient (17179869185/17179869184) (17179869185/17179869184) = some 1 := by
    norm_num [quotient, SMALL_NUM, abs_lt]
  rw [dist3D_of_ratios hr h1 h2]
  simp only [output, Vector3.sub, Vector3.add, Vector3.smul, Dot, Option.some.injEq,
    Result.mk.injEq, Vector3.mk.injEq]
  norm_num

/-- The same two segments in the other order: `(1,131073/131072,0)` is projected on
the x axis, at `t = 1`, and the pair `s = 0`, `t = 1` is returned. -/
theorem opposite_example_swapped_eval :
    dist3D_Segment_to_Segment ⟨1, 131073/131072, 0⟩ ⟨0, 1, 0⟩ ⟨0, 0, 0⟩ ⟨1, 0, 0⟩
      = some ⟨17180131329/17179869184, 0, 1, ⟨1, 131073/131072, 0⟩, ⟨1, 0, 0⟩⟩ := by
  have hr : ratios ⟨1, 131073/131072, 0⟩ ⟨0, 1, 0⟩ ⟨0, 0, 0⟩ ⟨1, 0, 0⟩
      = ⟨0, 1, 1, 1⟩ := by
    simp only [ratios, Vector3.sub, Dot]
    norm_num [lineParameters, clipT, SMALL_NUM]
  have h1 : quotient 0 1 = some 0 := by
    norm_num [quotient, SMALL_NUM]
  have h2 : quotient 1 1 = some 1 := by
    norm_num [quotient, SMALL_NUM, abs_lt]
  rw [dist3D_of_ratios hr h1 h2]
  simp only [output, Vector3.sub, Vector3.add, Vector3.smul, Dot, Option.some.injEq,
    Result.mk.injEq, Vector3.mk.injEq]
  norm_num

/-! ## Facts about LoadInput -/

theorem forLoop_zero_succ {σ : Type} (n : Nat) (body : Nat → σ → σ) (st : σ) :
    forLoop 0 (n + 1) body st = body n (forLoop 0 n body st) := by
  unfold forLoop
  simp only [Nat.sub_zero, List.range'_concat, List.foldl_append, List.foldl_cons,
    List.foldl_nil, Nat.zero_add, Nat.one_mul]

theorem forLoop_zero_zero {σ : Type} (body : Nat → σ → σ) (st : σ) :
    forLoop 0 0 body st = st := rfl

/-- Six doubles at the head of the stream. -/
theorem drop_six (data : List ℚ) (n : Nat) (h : n + 6 ≤ data.length) :
    ∃ a0 a1 a2 a3 a4 a5, data.drop n = a0 :: a1 :: a2 :: a3 :: a4 :: a5 :: data.drop (n + 6) ∧
      data[n]? = some a0 ∧ data[n + 1]? = some a1 ∧ data[n + 2]? = some a2 ∧
      data[n + 3]? = some a3 ∧ data[n + 4]? = some a4 ∧ data[n + 5]? = some a5 := by
  refine ⟨data[n], data[n + 1], data[n + 2], data[n + 3], data[n + 4], data[n + 5], ?_,
    ?_, ?_, ?_, ?_, ?_, ?_⟩
  · rw [List.drop_eq_getElem_cons (by omega : n < data.length),
      List.drop_eq_getElem_cons (by omega : n + 1 < data.length),
      List.drop_eq_getElem_cons (by omega : n + 1 + 1 < data.length),
      List.drop_eq_getElem_cons (by omega : n + 1 + 1 + 1 < data.length),
      List.drop_eq_getElem_cons (by omega : n + 1 + 1 + 1 + 1 < data.length),
      List.drop_eq_getElem_cons (by omega : n + 1 + 1 + 1 + 1 + 1 < data.length)]
  all_goals exact List.getElem?_eq_getElem _

/-- One pass of the loop body of the `InputParallel.binary` branch. -/
theorem parallelBody_spec (numChannels i : Nat) (st : LoadState) (a0 a1 a2 a3 a4 a5 : ℚ)
    (rest : List ℚ) (h : st.input = a0 :: a1 :: a2 :: a3 :: a4 :: a5 :: rest) :
    (parallelBody numChannels i st).input = rest ∧
    (∀ k, k ≠ i → (parallelBody numChannels i st).segment k = st.segment k) ∧
    ((parallelBody numChannels i st).segment i).p0 0 = a0 ∧
    ((parallelBody numChannels i st).segment i).p0 1 = a1 ∧
    ((parallelBody numChannels i st).segment i).p0 2 = a2 ∧
    ((parallelBody numChannels i st).segment i).p1 0 = a3 ∧
    ((parallelBody numChannels i st).segment i).p1 1 = a4 ∧
    ((parallelBody numChannels i st).segment i).p1 2 = a5 := by
  by_cases hN : numChannels = 4
  · simp [parallelBody, readP0, readP1, read, setP0, setP1, setW, h, hN, Function.update]
    intro k hk
    simp [hk]
  · simp [parallelBody, readP0, readP1, read, setP0, setP1, setW, h, hN, Function.update]
    intro k hk
    simp [hk]

/-- One pass of the loop body of the `InputNonparallel.binary` branch. -/
theorem nonparallelBody_spec (numChannels i : Nat) (st : LoadState) (a0 a1 a2 a3 a4 a5 : ℚ)
    (rest : List ℚ) (h : st.input = a0 :: a1 :: a2 :: a3 :: a4 :: a5 :: rest) :
    (nonparallelBody numChannels i st).input = rest ∧
    (∀ k, k ≠ i → (nonparallelBody numChannels i st).segment k = st.segment k) ∧
    ((nonparallelBody numChannels i st).segment i).p0 0 = a0 ∧
    ((nonparallelBody numChannels i st).segment i).p1 0 = a1 ∧
    ((nonparallelBody numChannels i st).segment i).p0 1 = a2 ∧
    ((nonparallelBody numChannels i st).segment i).p1 1 = a3 ∧
    ((nonparallelBody numChannels i st).segment i).p0 2 = a4 ∧
    ((nonparallelBody numChannels i st).segment i).p1 2 = a5 := by
  have h3 : ∀ (f : Nat → LoadState → LoadState) (s : LoadState),
      forLoop 0 3 f s = f 2 (f 1 (f 0 s)) := fun _ _ => rfl
  by_cases hN : numChannels = 4
  · simp [nonparallelBody, h3, readP0, readP1, read, setP0, setP1, setW, h, hN, Function.update]
    intro k hk
    simp [hk]
  · simp [nonparallelBody, h3, readP0, readP1, read, setP0, setP1, setW, h, hN, Function.update]
    intro k hk
    simp [hk]

/-- The loop over `i`: when each pass consumes six doubles, touches only `segment[i]`
and leaves it in the relation `L` with the six doubles, then after `n` passes `6n`
doubles are consumed and every `segment[i]`, `i < n`, is in the relation `L` with the
doubles `6i..6i+5` of the file. -/
theorem loadLoop_invariant (body : Nat → LoadState → LoadState)
    (L : Segment → ℚ → ℚ → ℚ → ℚ → ℚ → ℚ → Prop)
    (hbody : ∀ i st a0 a1 a2 a3 a4 a5 rest,
      st.input = a0 :: a1 :: a2 :: a3 :: a4 :: a5 :: rest →
      (body i st).input = rest ∧
      (∀ k, k ≠ i → (body i st).segment k = st.segment k) ∧
      L ((body i st).segment i) a0 a1 a2 a3 a4 a5)
    (file : List ℚ) (segment : Nat → Segment) (n : Nat) (hlen : 6 * n ≤ file.length) :
    (forLoop 0 n body { input := file, segment := segment }).input = file.drop (6 * n) ∧
    ∀ i, i < n → ∃ a0 a1 a2 a3 a4 a5,
      file[6 * i]? = some a0 ∧ file[6 * i + 1]? = some a1 ∧ file[6 * i + 2]? = some a2 ∧
      file[6 * i + 3]? = some a3 ∧ file[6 * i + 4]? = some a4 ∧ file[6 * i + 5]? = some a5 ∧
      L ((forLoop 0 n body { input := file, segment := segment }).segment i)
        a0 a1 a2 a3 a4 a5 := by
  induction n with
  | zero =>
    refine ⟨rfl, ?_⟩
    intro i hi
    exact absurd hi (Nat.not_lt_zero i)
  | succ n ih =>
    obtain ⟨ihin, ihseg⟩ := ih (by omega)
    obtain ⟨a0, a1, a2, a3, a4, a5, hd, g0, g1, g2, g3, g4, g5⟩ :=
      drop_six file (6 * n) (by omega)
    obtain ⟨b1, b2, b3⟩ := hbody n (forLoop 0 n body { input := file, segment := segment })
      a0 a1 a2 a3 a4 a5 (file.drop (6 * n + 6)) (ihin.trans hd)
    rw [forLoop_zero_succ]
    refine ⟨?_, ?_⟩
    · rw [b1]
      congr 1
    · intro i hi
      by_cases hin : i = n
      · subst hin
        exact ⟨a0, a1, a2, a3, a4, a5, g0, g1, g2, g3, g4, g5, b3⟩
      · rw [b2 i hin]
        exact ihseg i (by omega)

/-- The channels read from the file are `0`, `1` and `2`. -/
theorem layout_cases (k : Nat) (hk : k < 3) : k = 0 ∨ k = 1 ∨ k = 2 := by
  omega

/-! ## Facts about the loop nest -/

/-- The loop nest is a fold of its body over the pairs `(x, y)`, `y` from `0` to
`n - 1` and, for each `y`, `x` from `y + 1` to `n - 1`. -/
theorem pairLoops_eq_foldl {σ : Type} (n : Nat) (body : Nat → Nat → σ → σ) (st : σ) :
    pairLoops n body st
      = (((List.range' 0 (n - 0)).flatMap
          (fun y => (List.range' (y + 1) (n - (y + 1))).map (fun x => (x, y)))).foldl
          (fun st p => body p.1 p.2 st) st) := by
  unfold pairLoops forLoop
  generalize List.range' 0 (n - 0) = ys
  induction ys generalizing st with
  | nil => rfl
  | cons y ys ih =>
    rw [List.foldl_cons, ih, List.flatMap_cons, List.foldl_append, List.foldl_map]

/-- Appending the visited pairs one by one builds the list of the pairs. -/
theorem foldl_append_singleton {α : Type} (l : List α) (acc : List α) :
    l.foldl (fun log p => log ++ [p]) acc = acc ++ l := by
  induction l generalizing acc with
  | nil => simp
  | cons a l ih => rw [List.foldl_cons, ih, List.append_assoc, List.singleton_append]

theorem visits_eq (n : Nat) :
    visits n = (List.range n).flatMap
      (fun y => (List.range' (y + 1) (n - (y + 1))).map (fun x => (x, y))) := by
  unfold visits
  rw [pairLoops_eq_foldl]
  have h := foldl_append_singleton ((List.range' 0 (n - 0)).flatMap
          (fun y => (List.range' (y + 1) (n - (y + 1))).map (fun x => (x, y)))) []
  simp only [List.nil_append] at h
  rw [Nat.sub_zero, ← List.range_eq_range'] at h ⊢
  exact h

/-- The loop nest runs its body on the pairs of `visits`, in that order. -/
theorem pairLoops_eq_foldl_visits {σ : Type} (n : Nat) (body : Nat → Nat → σ → σ) (st : σ) :
    pairLoops n body st = (visits n).foldl (fun st p => body p.1 p.2 st) st := by
  rw [pairLoops_eq_foldl, visits_eq, Nat.sub_zero, ← List.range_eq_range']

theorem mem_visits (n x y : Nat) : (x, y) ∈ visits n ↔ y < x ∧ x < n := by
  rw [visits_eq]
  simp only [List.mem_flatMap, List.mem_range, List.mem_map, List.mem_range'_1, Prod.mk.injEq]
  constructor
  · rintro ⟨y', hy', x', ⟨h1, h2⟩, rfl, rfl⟩
    omega
  · rintro ⟨h1, h2⟩
    exact ⟨y, by omega, x, ⟨by omega, by omega⟩, rfl, rfl⟩

theorem nodup_visits (n : Nat) : (visits n).Nodup := by
  rw [visits_eq, List.nodup_flatMap]
  constructor
  · intro y _
    refine (List.nodup_range' _ _).map ?_
    intro a b h
    exact (Prod.mk.inj h).1
  · refine (List.pairwise_lt_range n).imp ?_
    intro a b hab
    simp only [Function.onFun]
    intro p hp1 hp2
    obtain ⟨_, _, rfl⟩ := List.mem_map.1 hp1
    obtain ⟨_, _, h⟩ := List.mem_map.1 hp2
    have := (Prod.mk.inj h).2
    omega

theorem length_visits (n : Nat) : (visits n).length = n * (n - 1) / 2 := by
  have key : ∀ m, ((List.range m).flatMap
      (fun y => (List.range' (y + 1) (n - (y + 1))).map (fun x => (x, y)))).length
      = ∑ y ∈ Finset.range m, (n - 1 - y) := by
    intro m
    induction m with
    | zero => simp
    | succ m ih =>
      rw [List.range_succ, List.flatMap_append, List.length_append, ih,
        Finset.sum_range_succ, List.flatMap_singleton, List.length_map, List.length_range']
      omega
  rw [visits_eq, key n, Finset.sum_range_reflect (fun j => j) n, Finset.sum_range_id]

theorem foldl_addSunday (l : List (Nat × Nat)) (log : QueryLog) :
    l.foldl (fun st p => QueryLog.addSunday p.1 p.2 st) log
      = { log with sunday := log.sunday ++ l } := by
  induction l generalizing log with
  | nil => simp
  | cons a l ih =>
    rw [List.foldl_cons, ih]
    simp [QueryLog.addSunday]

theorem foldl_addRobust (l : List (Nat × Nat)) (log : QueryLog) :
    l.foldl (fun st p => QueryLog.addRobust p.1 p.2 st) log
      = { log with robust := log.robust ++ l } := by
  induction l generalizing log with
  | nil => simp
  | cons a l ih =>
    rw [List.foldl_cons, ih]
    simp [QueryLog.addRobust]

theorem foldl_addRational (l : List (Nat × Nat)) (log : QueryLog) :
    l.foldl (fun st p => QueryLog.addRational p.1 p.2 st) log
      = { log with rational := log.rational ++ l } := by
  induction l generalizing log with
  | nil => simp
  | cons a l ih =>
    rw [List.foldl_cons, ih]
    simp [QueryLog.addRational]

theorem foldl_accuracy (compareUsingExact : Bool) (l : List (Nat × Nat)) (log : QueryLog) :
    l.foldl (fun st p =>
        if compareUsingExact then
          QueryLog.addRational p.1 p.2 (QueryLog.addRobust p.1 p.2 (QueryLog.addSunday p.1 p.2 st))
        else QueryLog.addRobust p.1 p.2 (QueryLog.addSunday p.1 p.2 st)) log
      = { sunday := log.sunday ++ l, robust := log.robust ++ l,
          rational := if compareUsingExact then log.rational ++ l else log.rational } := by
  induction l generalizing log with
  | nil => simp
  | cons a l ih =>
    rw [List.foldl_cons, ih]
    cases compareUsingExact <;>
      simp [QueryLog.addSunday, QueryLog.addRobust, QueryLog.addRational]

theorem pairLoops_addSunday (n : Nat) :
    pairLoops n QueryLog.addSunday { sunday := [], robust := [], rational := [] }
      = { sunday := visits n, robust := [], rational := [] } := by
  rw [pairLoops_eq_foldl_visits, foldl_addSunday]
  simp

theorem pairLoops_addRobust (n : Nat) :
    pairLoops n QueryLog.addRobust { sunday := [], robust := [], rational := [] }
      = { sunday := [], robust := visits n, rational := [] } := by
  rw [pairLoops_eq_foldl_visits, foldl_addRobust]
  simp

theorem pairLoops_addRational (n : Nat) :
    pairLoops n QueryLog.addRational { sunday := [], robust := [], rational := [] }
      = { sunday := [], robust := [], rational := visits n } := by
  rw [pairLoops_eq_foldl_visits, foldl_addRational]
  simp

theorem pairLoops_accuracy (compareUsingExact : Bool) (n : Nat) :
    pairLoops n (fun x y log =>
        if compareUsingExact then
          QueryLog.addRational x y (QueryLog.addRobust x y (QueryLog.addSunday x y log))
        else QueryLog.addRobust x y (QueryLog.addSunday x y log))
      { sunday := [], robust := [], rational := [] }
      = { sunday := visits n, robust := visits n,
          rational := if compareUsingExact then visits n else [] } := by
  rw [pairLoops_eq_foldl_visits, foldl_accuracy]
  simp

theorem CPUPerformanceTest_sunday :
    CPUPerformanceTest PERF_SUNDAY = { sunday := visits 16384, robust := [], rational := [] } := by
  unfold CPUPerformanceTest
  rw [if_neg (by decide : ¬ PERF_SUNDAY = PERF_RATIONAL), if_pos rfl]
  exact pairLoops_addSunday 16384

theorem CPUPerformanceTest_robust :
    CPUPerformanceTest PERF_ROBUST = { sunday := [], robust := visits 16384, rational := [] } := by
  unfold CPUPerformanceTest
  rw [if_neg (by decide : ¬ PERF_ROBUST = PERF_RATIONAL),
    if_neg (by decide : ¬ PERF_ROBUST = PERF_SUNDAY), if_pos rfl]
  exact pairLoops_addRobust 16384

theorem CPUPerformanceTest_rational :
    CPUPerformanceTest PERF_RATIONAL = { sunday := [], robust := [], rational := visits 1024 } := by
  unfold CPUPerformanceTest
  rw [if_pos rfl, if_neg (by decide : ¬ PERF_RATIONAL = PERF_SUNDAY),
    if_neg (by decide : ¬ PERF_RATIONAL = PERF_ROBUST)]
  exact pairLoops_addRational 1024

theorem CPUAccuracyTest_exact :
    CPUAccuracyTest true
      = { sunday := visits 1024, robust := visits 1024, rational := visits 1024 } := by
  unfold CPUAccuracyTest
  rw [if_pos rfl]
  exact (pairLoops_accuracy true 1024).trans (by rw [if_pos rfl])

theorem CPUAccuracyTest_inexact :
    CPUAccuracyTest false
      = { sunday := visits 16384, robust := visits 16384, rational := [] } := by
  unfold CPUAccuracyTest
  rw [if_neg (by decide : ¬ false = true)]
  exact (pairLoops_accuracy false 16384).trans (by rw [if_neg (by decide : ¬ false = true)])

/-! ## Facts about the Levenberg-Marquardt iterations -/

/-- An accepted update has a strictly smaller error than the estimate it replaces. -/
theorem lmAdjust_decreases (K : ConeFitKernel) (points : List Vector3) (lambdaAdjust : ℚ)
    (cone : Cone) (retries : Nat) (lambda : ℚ) (cone' : Cone) (lambda' : ℚ)
    (h : lmAdjust K points lambdaAdjust cone retries lambda = some (cone', lambda')) :
    K.error points cone' < K.error points cone := by
  induction retries generalizing lambda with
  | zero =>
    unfold lmAdjust at h
    split at h
    · rename_i hlt
      simp only [Option.some.injEq, Prod.mk.injEq] at h
      rw [← h.1]
      exact hlt
    · exact absurd h (by simp)
  | succ k ih =>
    unfold lmAdjust at h
    split at h
    · rename_i hlt
      simp only [Option.some.injEq, Prod.mk.injEq] at h
      rw [← h.1]
      exact hlt
    · exact ih _ h

/-- The iterations keep the error history strictly decreasing in time, keep its oldest
entry, and end with the error of the returned cone as newest entry. -/
theorem lmIterate_history (K : ConeFitKernel) (points : List Vector3)
    (updateLengthTolerance errorDifferenceTolerance lambdaAdjust : ℚ) (maxAdjustments : Nat)
    (remaining : Nat) (st : FitState) (older : List ℚ)
    (hst : st.errorHistory = K.error points st.cone :: older)
    (hchain : List.Chain' (fun newer old => newer < old) st.errorHistory) :
    ∃ newer, (lmIterate K points updateLengthTolerance errorDifferenceTolerance lambdaAdjust
        maxAdjustments remaining st).errorHistory
        = (lmIterate K points updateLengthTolerance errorDifferenceTolerance lambdaAdjust
            maxAdjustments remaining st).finalError :: newer ∧
      (∃ pre, (lmIterate K points updateLengthTolerance errorDifferenceTolerance lambdaAdjust
        maxAdjustments remaining st).errorHistory = pre ++ st.errorHistory) ∧
      List.Chain' (fun newer old => newer < old)
        (lmIterate K points updateLengthTolerance errorDifferenceTolerance lambdaAdjust
          maxAdjustments remaining st).errorHistory ∧
      (lmIterate K points updateLengthTolerance errorDifferenceTolerance lambdaAdjust
        maxAdjustments remaining st).finalError
        = K.error points (lmIterate K points updateLengthTolerance errorDifferenceTolerance
            lambdaAdjust maxAdjustments remaining st).cone ∧
      (lmIterate K points updateLengthTolerance errorDifferenceTolerance lambdaAdjust
        maxAdjustments remaining st).finalError ≤ K.error points st.cone := by
  induction remaining generalizing st older with
  | zero =>
    exact ⟨older, hst, ⟨[], rfl⟩, hchain, rfl, le_refl _⟩
  | succ n ih =>
    unfold lmIterate
    cases hadj : lmAdjust K points lambdaAdjust st.cone maxAdjustments st.lambda with
    | none =>
      exact ⟨older, hst, ⟨[], rfl⟩, hchain, rfl, le_refl _⟩
    | some pr =>
      obtain ⟨cone', lambda'⟩ := pr
      have hlt := lmAdjust_decreases K points lambdaAdjust st.cone maxAdjustments st.lambda
        cone' lambda' hadj
      have hchain' : List.Chain' (fun newer old => newer < old)
          (K.error points cone' :: st.errorHistory) := by
        rw [hst]
        rw [hst] at hchain
        exact List.Chain'.cons hlt hchain
      simp only []
      split
      · exact ⟨st.errorHistory, rfl, ⟨[K.error points cone'], rfl⟩, hchain', rfl, le_of_lt hlt⟩
      · obtain ⟨newer, h1, ⟨pre, h2⟩, h3, h4, h5⟩ := ih
          { cone := cone', lambda := lambda',
            errorHistory := K.error points cone' :: st.errorHistory,
            iterationsUsed := st.iterationsUsed + 1 } st.errorHistory rfl hchain'
        refine ⟨newer, h1, ⟨pre ++ [K.error points cone'], ?_⟩, h3, h4, le_trans h5 (le_of_lt hlt)⟩
        rw [h2, List.append_assoc]
        rfl

/-! ## Facts about the coefficients -/

/-- The values at line 102 are computed from the coefficients of lines 44-52. -/
theorem ratios_eq_coefficients (P0 P1 Q0 Q1 : Vector3) :
    ratios P0 P1 Q0 Q1
      = clipT (coefficients P0 P1 Q0 Q1).a (coefficients P0 P1 Q0 Q1).b
          (coefficients P0 P1 Q0 Q1).d
          (lineParameters (coefficients P0 P1 Q0 Q1).a (coefficients P0 P1 Q0 Q1).b
            (coefficients P0 P1 Q0 Q1).c (coefficients P0 P1 Q0 Q1).d
            (coefficients P0 P1 Q0 Q1).e (coefficients P0 P1 Q0 Q1).D) := rfl

/-- The inequality of Cauchy and Schwarz for `Dot`, from the identity of Lagrange. -/
theorem Dot_cauchy_schwarz (u v : Vector3) : 0 ≤ Dot u u * Dot v v - Dot u v * Dot u v := by
  have h : Dot u u * Dot v v - Dot u v * Dot u v
      = (u.x * v.y - u.y * v.x) * (u.x * v.y - u.y * v.x)
        + (u.y * v.z - u.z * v.y) * (u.y * v.z - u.z * v.y)
        + (u.z * v.x - u.x * v.z) * (u.z * v.x - u.x * v.z) := by
    unfold Dot
    ring
  rw [h]
  have h1 := mul_self_nonneg (u.x * v.y - u.y * v.x)
  have h2 := mul_self_nonneg (u.y * v.z - u.z * v.y)
  have h3 := mul_self_nonneg (u.z * v.x - u.x * v.z)
  linarith

theorem Vector3.sub_self (p : Vector3) : p.sub p = ⟨0, 0, 0⟩ := by
  simp [Vector3.sub]

/-! ## Facts about the scene -/

theorem scenePoints_length (S : SceneKernel) (numPoints : Nat) :
    (scenePoints S numPoints).length = numPoints := by
  unfold scenePoints
  simp only [List.length_map, List.length_range]

theorem CreateScene_X (S : SceneKernel)
    (fitterGN : Nat → List Vector3 → Nat → ℚ → ℚ → Bool → Cone → Cone)
    (fitterLM : Nat → List Vector3 → Nat → ℚ → ℚ → ℚ → ℚ → Nat → Bool → Cone → Cone)
    (cone : Cone) :
    (CreateScene S fitterGN fitterLM cone).X = scenePoints S 8196 := by
  simp only [CreateScene]

theorem CreateScene_gnCone (S : SceneKernel)
    (fitterGN : Nat → List Vector3 → Nat → ℚ → ℚ → Bool → Cone → Cone)
    (fitterLM : Nat → List Vector3 → Nat → ℚ → ℚ → ℚ → ℚ → Nat → Bool → Cone → Cone)
    (cone : Cone) :
    (CreateScene S fitterGN fitterLM cone).gnCone
      = CreateGNCone fitterGN (scenePoints S 8196) cone := by
  simp only [CreateScene]

theorem CreateScene_lmCone (S : SceneKernel)
    (fitterGN : Nat → List Vector3 → Nat → ℚ → ℚ → Bool → Cone → Cone)
    (fitterLM : Nat → List Vector3 → Nat → ℚ → ℚ → ℚ → ℚ → Nat → Bool → Cone → Cone)
    (cone : Cone) :
    (CreateScene S fitterGN fitterLM cone).lmCone
      = CreateLMConeWith fitterLM (scenePoints S 8196)
          (CreateGNCone fitterGN (scenePoints S 8196) cone) := by
  simp only [CreateScene]

/-- Every point of the scene is the point of one pass of the loop, made from three
successive draws with the constants of `CreateScene`. -/
theorem mem_scenePoints (S : SceneKernel) (numPoints : Nat) (p : Vector3)
    (h : p ∈ scenePoints S numPoints) :
    ∃ i, i < numPoints ∧
      p = (scenePoint S ⟨3, 2, 1⟩ (S.orthogonalComplement ⟨1, 2, 3⟩).1
        (S.orthogonalComplement ⟨1, 2, 3⟩).2.1 (S.orthogonalComplement ⟨1, 2, 3⟩).2.2
        1 2 (1 / 100) (S.tan (S.pi / 4))
        (S.rnd (3 * i)) (S.rnd (3 * i + 1)) (S.rnd (3 * i + 2))).X := by
  unfold scenePoints at h
  obtain ⟨i, hi, e⟩ := List.mem_map.1 h
  exact ⟨i, List.mem_range.1 hi, e.symm⟩

/-! ## Facts about the blocked loops -/

/-- A loop that appends a list in each pass appends their concatenation. -/
theorem forLoop_append {α : Type} (lo hi : Nat) (f : Nat → List α) (log : List α) :
    forLoop lo hi (fun i log => log ++ f i) log
      = log ++ (List.range' lo (hi - lo)).flatMap f := by
  unfold forLoop
  generalize List.range' lo (hi - lo) = l
  induction l generalizing log with
  | nil => simp
  | cons a l ih => rw [List.foldl_cons, ih, List.flatMap_cons, List.append_assoc]

/-- The comparisons of the loop nest as nested concatenations. -/
theorem blockVisits_eq (numBlocks blockSize : Nat) :
    blockVisits numBlocks blockSize
      = (List.range' 0 (numBlocks - 0)).flatMap (fun y =>
          (List.range' y (numBlocks - y)).flatMap (fun x =>
            (List.range' 0 (blockSize - 0)).flatMap (fun r =>
              (List.range' (if x ≠ y then 0 else r + 1)
                  (blockSize - (if x ≠ y then 0 else r + 1))).flatMap (fun c =>
                [{ sx := x * blockSize + c, sy := y * blockSize + r,
                   index := c + blockSize * r }])))) := by
  unfold blockVisits blockLoops
  simp only [forLoop_append, List.nil_append]

/-- Membership in the comparisons of the loop nest, by the loop variables. -/
theorem mem_blockVisits (numBlocks blockSize : Nat) (v : BlockVisit) :
    v ∈ blockVisits numBlocks blockSize ↔
      ∃ y x r c, y < numBlocks ∧ y ≤ x ∧ x < numBlocks ∧ r < blockSize ∧
        (if x ≠ y then 0 else r + 1) ≤ c ∧ c < blockSize ∧
        v = { sx := x * blockSize + c, sy := y * blockSize + r, index := c + blockSize * r } := by
  rw [blockVisits_eq]
  simp only [List.mem_flatMap, List.mem_range'_1, List.mem_singleton]
  constructor
  · rintro ⟨y, ⟨_, hy⟩, x, ⟨hx1, hx2⟩, r, ⟨_, hr⟩, c, ⟨hc1, hc2⟩, rfl⟩
    have hc3 : (if x ≠ y then 0 else r + 1) ≤ blockSize := by
      split_ifs <;> omega
    exact ⟨y, x, r, c, by omega, hx1, by omega, by omega, hc1, by omega, rfl⟩
  · rintro ⟨y, x, r, c, hy, hyx, hx, hr, hc1, hc2, rfl⟩
    exact ⟨y, ⟨by omega, by omega⟩, x, ⟨hyx, by omega⟩, r, ⟨by omega, by omega⟩, c,
      ⟨hc1, by omega⟩, rfl⟩

/-- Quotient and remainder of `q * blockSize + r` for `r < blockSize`. -/
theorem block_div_mod (q blockSize r : Nat) (h : r < blockSize) :
    (q * blockSize + r) / blockSize = q ∧ (q * blockSize + r) % blockSize = r := by
  have hb : 0 < blockSize := by omega
  rw [Nat.mul_comm q blockSize]
  constructor
  · rw [Nat.mul_add_div hb, Nat.div_eq_of_lt h, Nat.add_zero]
  · rw [Nat.mul_add_mod, Nat.mod_eq_of_lt h]

/-- Lists whose elements carry the index of their list are pairwise disjoint, so their
concatenation has no duplicates when none of them has. -/
theorem nodup_flatMap_of_key {α β : Type} (l : List α) (f : α → List β) (key : β → α)
    (hl : l.Nodup) (hf : ∀ a, a ∈ l → (f a).Nodup)
    (hkey : ∀ a, a ∈ l → ∀ b, b ∈ f a → key b = a) : (l.flatMap f).Nodup := by
  rw [List.nodup_flatMap]
  refine ⟨hf, ?_⟩
  refine List.Pairwise.imp_of_mem ?_ hl
  intro a b ha hb hab
  simp only [Function.onFun]
  intro v hva hvb
  exact hab ((hkey a ha v hva).symm.trans (hkey b hb v hvb))

/-- Every comparison of the loop nest has `sy < sx < numBlocks * blockSize`, and its
result index is below `blockSize * blockSize`. -/
theorem blockVisits_bounds (numBlocks blockSize : Nat) (v : BlockVisit)
    (hv : v ∈ blockVisits numBlocks blockSize) :
    v.sy < v.sx ∧ v.sx < numBlocks * blockSize ∧ v.index < blockSize * blockSize ∧
    v.index = v.sx % blockSize + blockSize * (v.sy % blockSize) := by
  obtain ⟨y, x, r, c, hy, hyx, hx, hr, hc1, hc2, rfl⟩ := (mem_blockVisits _ _ v).1 hv
  have h1 : (x + 1) * blockSize ≤ numBlocks * blockSize := Nat.mul_le_mul_right _ (by omega)
  have h2 : blockSize * (r + 1) ≤ blockSize * blockSize := Nat.mul_le_mul_left _ (by omega)
  rw [Nat.add_mul, Nat.one_mul] at h1
  rw [Nat.mul_add, Nat.mul_one] at h2
  refine ⟨?_, by simp only; omega, by simp only; omega, ?_⟩
  · simp only
    by_cases hxy : x = y
    · subst hxy
      rw [if_neg (by simp)] at hc1
      omega
    · have h3 : (y + 1) * blockSize ≤ x * blockSize := Nat.mul_le_mul_right _ (by omega)
      rw [Nat.add_mul, Nat.one_mul] at h3
      omega
  · simp only
    rw [(block_div_mod x blockSize c hc2).2, (block_div_mod y blockSize r hr).2]

/-- Every pair `sy < sx < numBlocks * blockSize` is compared by the loop nest. -/
theorem blockVisits_onto (numBlocks blockSize sx sy : Nat) (h1 : sy < sx)
    (h2 : sx < numBlocks * blockSize) :
    ∃ v, v ∈ blockVisits numBlocks blockSize ∧ v.sx = sx ∧ v.sy = sy := by
  have hb : 0 < blockSize := by
    rcases Nat.eq_zero_or_pos blockSize with h | h
    · rw [h, Nat.mul_zero] at h2
      omega
    · exact h
  have ex := Nat.div_add_mod sx blockSize
  have ey := Nat.div_add_mod sy blockSize
  have hx : sx / blockSize < numBlocks := (Nat.div_lt_iff_lt_mul hb).2 h2
  have hyx : sy / blockSize ≤ sx / blockSize := Nat.div_le_div_right (le_of_lt h1)
  have hr : sy % blockSize < blockSize := Nat.mod_lt _ hb
  have hc : sx % blockSize < blockSize := Nat.mod_lt _ hb
  rw [Nat.mul_comm] at ex ey
  refine ⟨{ sx := sx / blockSize * blockSize + sx % blockSize,
            sy := sy / blockSize * blockSize + sy % blockSize,
            index := sx % blockSize + blockSize * (sy % blockSize) }, ?_, ex, ey⟩
  rw [mem_blockVisits]
  refine ⟨sy / blockSize, sx / blockSize, sy % blockSize, sx % blockSize, by omega, hyx, hx,
    hr, ?_, hc, rfl⟩
  by_cases hxy : sx / blockSize = sy / blockSize
  · rw [if_neg (by simp [hxy])]
    rw [hxy] at ex
    omega
  · rw [if_pos hxy]
    omega

/-- No comparison is made twice: the loop nest visits each pair once. -/
theorem blockVisits_nodup (numBlocks blockSize : Nat) :
    ((blockVisits numBlocks blockSize).map (fun v => (v.sx, v.sy))).Nodup := by
  refine List.Nodup.map_on ?_ ?_
  · intro v hv w hw hvw
    obtain ⟨_, _, _, iv⟩ := blockVisits_bounds _ _ v hv
    obtain ⟨_, _, _, iw⟩ := blockVisits_bounds _ _ w hw
    have e1 : v.sx = w.sx := (Prod.mk.inj hvw).1
    have e2 : v.sy = w.sy := (Prod.mk.inj hvw).2
    cases v
    cases w
    simp only at e1 e2 iv iw
    subst e1 e2
    rw [iv, iw]
  · rw [blockVisits_eq]
    refine nodup_flatMap_of_key _ _ (fun v => v.sy / blockSize) (List.nodup_range' _ _) ?_ ?_
    · intro y _
      refine nodup_flatMap_of_key _ _ (fun v => v.sx / blockSize) (List.nodup_range' _ _) ?_ ?_
      · intro x _
        refine nodup_flatMap_of_key _ _ (fun v => v.sy % blockSize) (List.nodup_range' _ _)
          ?_ ?_
        · intro r _
          refine nodup_flatMap_of_key _ _ (fun v => v.sx % blockSize)
            (List.nodup_range' _ _) ?_ ?_
          · intro c _
            exact List.nodup_singleton _
          · intro c hc v hv
            rw [List.mem_singleton.1 hv]
            have hc' := List.mem_range'_1.1 hc
            generalize (if x ≠ y then 0 else r + 1) = cmin at hc'
            exact (block_div_mod x blockSize c (by omega)).2
        · intro r hr v hv
          obtain ⟨c, _, hv⟩ := List.mem_flatMap.1 hv
          rw [List.mem_singleton.1 hv]
          have hr' := List.mem_range'_1.1 hr
          exact (block_div_mod y blockSize r (by omega)).2
      · intro x _ v hv
        obtain ⟨r, _, hv⟩ := List.mem_flatMap.1 hv
        obtain ⟨c, hc, hv⟩ := List.mem_flatMap.1 hv
        rw [List.mem_singleton.1 hv]
        have hc' := List.mem_range'_1.1 hc
        generalize (if x ≠ y then 0 else r + 1) = cmin at hc'
        exact (block_div_mod x blockSize c (by omega)).1
    · intro y _ v hv
      obtain ⟨x, _, hv⟩ := List.mem_flatMap.1 hv
      obtain ⟨r, hr, hv⟩ := List.mem_flatMap.1 hv
      obtain ⟨c, _, hv⟩ := List.mem_flatMap.1 hv
      rw [List.mem_singleton.1 hv]
      have hr' := List.mem_range'_1.1 hr
      exact (block_div_mod y blockSize r (by omega)).1

/-- The loop nest compares the pairs that the CPU loops visit, each once. -/
theorem blockVisits_perm_visits (numBlocks blockSize : Nat) :
    ((blockVisits numBlocks blockSize).map (fun v => (v.sx, v.sy))).Perm
      (visits (numBlocks * blockSize)) := by
  rw [List.perm_ext_iff_of_nodup (blockVisits_nodup _ _) (nodup_visits _)]
  rintro ⟨sx, sy⟩
  rw [mem_visits, List.mem_map]
  constructor
  · rintro ⟨v, hv, e⟩
    obtain ⟨b1, b2, _, _⟩ := blockVisits_bounds _ _ v hv
    rw [← (Prod.mk.inj e).1, ← (Prod.mk.inj e).2]
    exact ⟨b1, b2⟩
  · rintro ⟨h1, h2⟩
    obtain ⟨v, hv, e1, e2⟩ := blockVisits_onto numBlocks blockSize sx sy h1 h2
    exact ⟨v, hv, by rw [e1, e2]⟩

/-! ## Facts about the running maxima -/

/-- Folding the update over a list of pairs, from the start value `(0, 0, 0)`, gives
the maximum of the errors at its first occurrence, for errors that are not negative. -/
theorem foldl_update_isFirstMaxOf (error : Nat → Nat → ℚ) (hnn : ∀ x y, 0 ≤ error x y)
    (l : List (Nat × Nat)) :
    (l.foldl (fun m p => MaxError.update m (error p.1 p.2) p.1 p.2)
      { maxError := 0, xmax := 0, ymax := 0 }).isFirstMaxOf error l := by
  induction l using List.reverseRecOn with
  | nil =>
    refine ⟨?_, ?_, Or.inr ⟨rfl, rfl, rfl⟩⟩
    · intro p hp
      exact absurd hp (List.not_mem_nil p)
    · intro h
      exact absurd rfl h
  | append_singleton l q ih =>
    rw [List.foldl_append, List.foldl_cons, List.foldl_nil]
    obtain ⟨hub, _, hfirst⟩ := ih
    generalize l.foldl (fun m p => MaxError.update m (error p.1 p.2) p.1 p.2)
      { maxError := 0, xmax := 0, ymax := 0 } = m at hub hfirst
    have hm0 : 0 ≤ m.maxError := by
      rcases hfirst with ⟨h, _⟩ | ⟨h, _⟩
      · exact le_of_lt h
      · rw [h]
    unfold MaxError.update
    by_cases hgt : error q.1 q.2 > m.maxError
    · rw [if_pos hgt]
      refine ⟨?_, ?_, Or.inl ⟨lt_of_le_of_lt hm0 hgt, rfl, l, [], rfl, ?_⟩⟩
      · intro p hp
        rcases List.mem_append.1 hp with hp | hp
        · exact le_trans (hub p hp) (le_of_lt hgt)
        · rw [List.mem_singleton.1 hp]
      · intro _
        exact ⟨q, List.mem_append_right _ (List.mem_singleton_self q), rfl⟩
      · intro p hp
        exact lt_of_le_of_lt (hub p hp) hgt
    · rw [if_neg hgt]
      have hq : error q.1 q.2 ≤ m.maxError := not_lt.mp hgt
      have hub' : ∀ p, p ∈ l ++ [q] → error p.1 p.2 ≤ m.maxError := by
        intro p hp
        rcases List.mem_append.1 hp with hp | hp
        · exact hub p hp
        · rw [List.mem_singleton.1 hp]
          exact hq
      refine ⟨hub', ?_, ?_⟩
      · intro _
        rcases hfirst with ⟨_, hat, before, after, hl, _⟩ | ⟨h0, _⟩
        · refine ⟨(m.xmax, m.ymax), ?_, hat⟩
          rw [hl]
          simp
        · refine ⟨q, List.mem_append_right _ (List.mem_singleton_self q), ?_⟩
          rw [h0] at hq ⊢
          exact le_antisymm hq (hnn _ _)
      · rcases hfirst with ⟨hpos, hat, before, after, hl, hbefore⟩ | h0
        · refine Or.inl ⟨hpos, hat, before, after ++ [q], ?_, hbefore⟩
          rw [hl, List.append_assoc, List.cons_append]
        · exact Or.inr h0

/-- The three maxima after a fold of the loop body: each is the fold of its own
update, the two that involve `distance2` only when `compareUsingExact` is set. -/
theorem foldl_accuracyBody (D : DistanceKernel) (compareUsingExact : Bool)
    (l : List (Nat × Nat)) (st : AccuracyState) :
    l.foldl (fun st p => accuracyBody D compareUsingExact p.1 p.2 st) st
      = { m01 := l.foldl (fun m p => MaxError.update m
            (|D.distance0 p.1 p.2 - D.distance1 p.1 p.2|) p.1 p.2) st.m01,
          m02 := if compareUsingExact then l.foldl (fun m p => MaxError.update m
            (|D.distance0 p.1 p.2 - D.distance2 p.1 p.2|) p.1 p.2) st.m02 else st.m02,
          m12 := if compareUsingExact then l.foldl (fun m p => MaxError.update m
            (|D.distance1 p.1 p.2 - D.distance2 p.1 p.2|) p.1 p.2) st.m12 else st.m12 } := by
  induction l generalizing st with
  | nil => cases compareUsingExact <;> rfl
  | cons p l ih =>
    rw [List.foldl_cons, ih]
    cases compareUsingExact <;> simp [accuracyBody]

/-- The maxima after the double loop over `numInputs` segments. -/
theorem accuracyLoops_isFirstMaxOf (D : DistanceKernel) (compareUsingExact : Bool)
    (numInputs : Nat) :
    (accuracyLoops D compareUsingExact numInputs).m01.isFirstMaxOf
      (fun x y => |D.distance0 x y - D.distance1 x y|) (visits numInputs) ∧
    (compareUsingExact = true →
      (accuracyLoops D compareUsingExact numInputs).m02.isFirstMaxOf
        (fun x y => |D.distance0 x y - D.distance2 x y|) (visits numInputs) ∧
      (accuracyLoops D compareUsingExact numInputs).m12.isFirstMaxOf
        (fun x y => |D.distance1 x y - D.distance2 x y|) (visits numInputs)) ∧
    (compareUsingExact = false →
      (accuracyLoops D compareUsingExact numInputs).m02 = { maxError := 0, xmax := 0, ymax := 0 } ∧
      (accuracyLoops D compareUsingExact numInputs).m12
        = { maxError := 0, xmax := 0, ymax := 0 }) := by
  unfold accuracyLoops
  rw [pairLoops_eq_foldl_visits, foldl_accuracyBody]
  refine ⟨?_, ?_, ?_⟩
  · exact foldl_update_isFirstMaxOf (fun x y => |D.distance0 x y - D.distance1 x y|)
      (fun _ _ => abs_nonneg _) (visits numInputs)
  · intro h
    subst h
    exact ⟨foldl_update_isFirstMaxOf (fun x y => |D.distance0 x y - D.distance2 x y|)
        (fun _ _ => abs_nonneg _) (visits numInputs),
      foldl_update_isFirstMaxOf (fun x y => |D.distance1 x y - D.distance2 x y|)
        (fun _ _ => abs_nonneg _) (visits numInputs)⟩
  · intro h
    subst h
    exact ⟨rfl, rfl⟩

theorem visits_ne_nil (n : Nat) (hn : 2 ≤ n) : visits n ≠ [] := by
  intro h
  have hm : (1, 0) ∈ visits n := (mem_visits n 1 0).2 ⟨by omega, by omega⟩
  rw [h] at hm
  exact absurd hm (List.not_mem_nil _)

/-! ## Facts about the cone mesh heights -/

/-- The point of one pass of the loop, relative to the vertex, has the component `h`
along a unit axis orthogonal to `W0` and `W1`. -/
theorem scenePoint_axisHeight (S : SceneKernel) (V U W0 W1 : Vector3)
    (H0 H1 epsilon tantheta s1 s2 s3 : ℚ)
    (hU : Dot U U = 1) (hUW0 : Dot U W0 = 0) (hUW1 : Dot U W1 = 0) :
    axisHeight V U (scenePoint S V U W0 W1 H0 H1 epsilon tantheta s1 s2 s3).X
      = (scenePoint S V U W0 W1 H0 H1 epsilon tantheta s1 s2 s3).h := by
  simp only [axisHeight, scenePoint, Dot, Vector3.sub, Vector3.add, Vector3.smul] at *
  generalize S.cos (S.pi * s3) = cs
  generalize S.sin (S.pi * s3) = sn
  generalize H0 + (H1 - H0) * (1 / 2 * (s1 + 1)) = h
  generalize (1 + epsilon * s2) * (h * tantheta) = r
  have e : U.x * (V.x + h * U.x + r * (cs * W0.x + sn * W1.x) - V.x)
        + U.y * (V.y + h * U.y + r * (cs * W0.y + sn * W1.y) - V.y)
        + U.z * (V.z + h * U.z + r * (cs * W0.z + sn * W1.z) - V.z)
      = h * (U.x * U.x + U.y * U.y + U.z * U.z)
        + r * cs * (U.x * W0.x + U.y * W0.y + U.z * W0.z)
        + r * sn * (U.x * W1.x + U.y * W1.y + U.z * W1.z) := by ring
  rw [e, hU, hUW0, hUW1]
  ring

/-- The point of one pass of the loop is at the distance `r` from the axis, when the
basis is orthonormal and the cosine and sine values lie on the unit circle. -/
theorem scenePoint_radialSqrDistance (S : SceneKernel) (V U W0 W1 : Vector3)
    (H0 H1 epsilon tantheta s1 s2 s3 : ℚ)
    (hU : Dot U U = 1) (hW0 : Dot W0 W0 = 1) (hW1 : Dot W1 W1 = 1)
    (hUW0 : Dot U W0 = 0) (hUW1 : Dot U W1 = 0) (hW : Dot W0 W1 = 0)
    (htrig : S.cos (S.pi * s3) * S.cos (S.pi * s3) + S.sin (S.pi * s3) * S.sin (S.pi * s3) = 1) :
    radialSqrDistance V U (scenePoint S V U W0 W1 H0 H1 epsilon tantheta s1 s2 s3).X
      = (scenePoint S V U W0 W1 H0 H1 epsilon tantheta s1 s2 s3).r
        * (scenePoint S V U W0 W1 H0 H1 epsilon tantheta s1 s2 s3).r := by
  have hh := scenePoint_axisHeight S V U W0 W1 H0 H1 epsilon tantheta s1 s2 s3 hU hUW0 hUW1
  unfold radialSqrDistance
  rw [hh]
  simp only [scenePoint, Dot, Vector3.sub, Vector3.add, Vector3.smul] at *
  generalize S.cos (S.pi * s3) = cs at *
  generalize S.sin (S.pi * s3) = sn at *
  generalize H0 + (H1 - H0) * (1 / 2 * (s1 + 1)) = h
  generalize (1 + epsilon * s2) * (h * tantheta) = r
  have e : (V.x + h * U.x + r * (cs * W0.x + sn * W1.x) - V.x - h * U.x)
          * (V.x + h * U.x + r * (cs * W0.x + sn * W1.x) - V.x - h * U.x)
        + (V.y + h * U.y + r * (cs * W0.y + sn * W1.y) - V.y - h * U.y)
          * (V.y + h * U.y + r * (cs * W0.y + sn * W1.y) - V.y - h * U.y)
        + (V.z + h * U.z + r * (cs * W0.z + sn * W1.z) - V.z - h * U.z)
          * (V.z + h * U.z + r * (cs * W0.z + sn * W1.z) - V.z - h * U.z)
      = r * r * (cs * cs * (W0.x * W0.x + W0.y * W0.y + W0.z * W0.z)
          + sn * sn * (W1.x * W1.x + W1.y * W1.y + W1.z * W1.z)
          + 2 * cs * sn * (W0.x * W1.x + W0.y * W1.y + W0.z * W1.z)) := by ring
  rw [e, hW0, hW1, hW]
  linear_combination (r * r) * htrig

/-! ## Facts about the approximate path counts -/

/-- A property kept by the body of a loop is kept by the loop. -/
theorem forLoop_preserves {σ : Type} (P : σ → Prop) (lo hi : Nat) (body : Nat → σ → σ)
    (hbody : ∀ i st, P st → P (body i st)) (st : σ) (h : P st) :
    P (forLoop lo hi body st) := by
  unfold forLoop
  generalize List.range' lo (hi - lo) = l
  induction l generalizing st with
  | nil => exact h
  | cons a l ih =>
    rw [List.foldl_cons]
    exact ih (body a st) (hbody a st h)

/-- `ComputeApprPath` keeps `mNumApprPoints`. -/
theorem ComputeApprPath_mNumApprPoints (G : GeodesicKernel) (subdivide : Bool)
    (st : EllipsoidState) :
    (ComputeApprPath G subdivide st).mNumApprPoints = st.mNumApprPoints := by
  cases subdivide with
  | false =>
    simp only [ComputeApprPath, Bool.false_eq_true, if_false, ComputeApprLength, forLoopUpTo]
    apply forLoop_preserves (fun s : EllipsoidState => s.mNumApprPoints = st.mNumApprPoints)
    · intro _ _ h
      exact h
    · rfl
  | true =>
    by_cases hcap : 2 * st.mCurrNumApprPoints - 1 > st.mNumApprPoints
    · simp only [ComputeApprPath, if_true, if_pos hcap]
    · simp only [ComputeApprPath, if_true, if_neg hcap, ComputeApprLength, forLoopUpTo,
        forLoopDownTo]
      apply forLoop_preserves (fun s : EllipsoidState => s.mNumApprPoints = st.mNumApprPoints)
      · intro _ _ h
        exact h
      · apply forLoop_preserves
          (fun s : EllipsoidState => s.mNumApprPoints = st.mNumApprPoints)
        · intro _ _ h
          exact h
        · rfl

/-- A refinement keeps `mCurrNumApprPoints`. -/
theorem ComputeApprPath_refine_curr (G : GeodesicKernel) (st : EllipsoidState) :
    (ComputeApprPath G false st).mCurrNumApprPoints = st.mCurrNumApprPoints := by
  simp only [ComputeApprPath, Bool.false_eq_true, if_false, ComputeApprLength, forLoopUpTo]
  apply forLoop_preserves
    (fun s : EllipsoidState => s.mCurrNumApprPoints = st.mCurrNumApprPoints)
  · intro _ _ h
    exact h
  · rfl

/-- A subdivision at capacity keeps `mCurrNumApprPoints`, a subdivision below capacity
replaces it by `2*mCurrNumApprPoints - 1`. -/
theorem ComputeApprPath_subdivide_curr (G : GeodesicKernel) (st : EllipsoidState) :
    (ComputeApprPath G true st).mCurrNumApprPoints
      = if 2 * st.mCurrNumApprPoints - 1 > st.mNumApprPoints then st.mCurrNumApprPoints
        else 2 * st.mCurrNumApprPoints - 1 := by
  by_cases hcap : 2 * st.mCurrNumApprPoints - 1 > st.mNumApprPoints
  · simp only [ComputeApprPath, if_true, if_pos hcap]
  · simp only [ComputeApprPath, if_true, if_neg hcap, ComputeApprLength]

/-- `ComputeTruePath` keeps `mNumApprPoints` and sets `mCurrNumApprPoints` to `2`. -/
theorem ComputeTruePath_counts (G : GeodesicKernel) (mParam0 mParam1 : GVector)
    (st : EllipsoidState) :
    (ComputeTruePath G mParam0 mParam1 st).mNumApprPoints = st.mNumApprPoints ∧
    (ComputeTruePath G mParam0 mParam1 st).mCurrNumApprPoints = 2 :=
  ⟨rfl, rfl⟩

/-- Counts of the form `2^k + 1` with `k <= subdivisions` lie between `2` and
`mNumApprPoints`. -/
theorem countsOfForm_bounds (subdivisions : Nat) (st : EllipsoidState)
    (h : st.countsOfForm subdivisions) :
    2 ≤ st.mCurrNumApprPoints ∧ st.mCurrNumApprPoints ≤ st.mNumApprPoints := by
  obtain ⟨hn, k, hk, hc⟩ := h
  have h1 : (0 : Int) < 2 ^ k := pow_pos (by norm_num) k
  have h2 : (2 : Int) ^ k ≤ 2 ^ subdivisions := pow_le_pow_right₀ (by norm_num) hk
  rw [hn, hc]
  constructor <;> omega

/-- The constructor leaves counts of the form. -/
theorem constructed_countsOfForm (G : GeodesicKernel) (subdivisions : Nat)
    (mParam0 mParam1 : GVector) (points : Int → GVector) :
    (EllipsoidState.constructed G subdivisions mParam0 mParam1 points).countsOfForm
      subdivisions :=
  ⟨rfl, 0, Nat.zero_le _, rfl⟩

/-- Every call keeps counts of the form. -/
theorem apply_countsOfForm (G : GeodesicKernel) (mParam0 mParam1 : GVector)
    (subdivisions : Nat) (st : EllipsoidState) (call : PathCall)
    (h : st.countsOfForm subdivisions) :
    (call.apply G mParam0 mParam1 st).countsOfForm subdivisions := by
  obtain ⟨hn, k, hk, hc⟩ := h
  cases call with
  | truePath => exact ⟨hn, 0, Nat.zero_le _, rfl⟩
  | apprPath subdivide =>
    refine ⟨(ComputeApprPath_mNumApprPoints G subdivide st).trans hn, ?_⟩
    cases subdivide with
    | false =>
      exact ⟨k, hk, (ComputeApprPath_refine_curr G st).trans hc⟩
    | true =>
      have hcur : (PathCall.apply G mParam0 mParam1 st (PathCall.apprPath true)).mCurrNumApprPoints
          = if 2 * st.mCurrNumApprPoints - 1 > st.mNumApprPoints then st.mCurrNumApprPoints
            else 2 * st.mCurrNumApprPoints - 1 := ComputeApprPath_subdivide_curr G st
      rw [hcur]
      by_cases hcap : 2 * st.mCurrNumApprPoints - 1 > st.mNumApprPoints
      · rw [if_pos hcap]
        exact ⟨k, hk, hc⟩
      · rw [if_neg hcap]
        have e : 2 * st.mCurrNumApprPoints - 1 = 2 ^ (k + 1) + 1 := by
          rw [hc, pow_succ]
          ring
        have hle : (2 : Int) ^ (k + 1) ≤ 2 ^ subdivisions := by
          rw [e, hn] at hcap
          omega
        exact ⟨k + 1, (pow_le_pow_iff_right₀ (by norm_num : (1 : Int) < 2)).1 hle, e⟩

/-- Every sequence of calls keeps counts of the form. -/
theorem runCalls_countsOfForm (G : GeodesicKernel) (mParam0 mParam1 : GVector)
    (subdivisions : Nat) (calls : List PathCall) (st : EllipsoidState)
    (h : st.countsOfForm subdivisions) :
    (runCalls G mParam0 mParam1 calls st).countsOfForm subdivisions := by
  unfold runCalls
  induction calls generalizing st with
  | nil => exact h
  | cons call calls ih =>
    rw [List.foldl_cons]
    exact ih _ (apply_countsOfForm G mParam0 mParam1 subdivisions st call h)

/-- The indices used by the loops, as a list built from the loop variables. -/
theorem ComputeApprPath_indices_eq (subdivide : Bool) (st : EllipsoidState) :
    ComputeApprPath_indices subdivide st
      = if subdivide then
          if 2 * st.mCurrNumApprPoints - 1 > st.mNumApprPoints then []
          else
            (List.range' 0 ((st.mCurrNumApprPoints - 1 - 0).toNat - 0)).flatMap
                (fun k => [2 * (st.mCurrNumApprPoints - 1 - (k : Int)),
                  st.mCurrNumApprPoints - 1 - (k : Int)])
              ++ (List.range' 0 ((st.mCurrNumApprPoints - 2 + 1 - 0).toNat - 0)).flatMap
                (fun k => [2 * (0 + (k : Int)), 2 * (0 + (k : Int)) + 1,
                  2 * (0 + (k : Int)) + 2])
        else
          (List.range' 0 ((st.mCurrNumApprPoints - 2 + 1 - 1).toNat - 0)).flatMap
            (fun k => [1 + (k : Int) - 1, 1 + (k : Int), 1 + (k : Int) + 1]) := by
  unfold ComputeApprPath_indices
  simp only [forLoopUpTo, forLoopDownTo, forLoop_append, List.nil_append]

/-- With `2 <= mCurrNumApprPoints <= mNumApprPoints`, every index used by the loops of
`ComputeApprPath` is an index of `mApprPoints`. -/
theorem ComputeApprPath_indices_bounds (subdivide : Bool) (st : EllipsoidState)
    (h2 : 2 ≤ st.mCurrNumApprPoints) (hle : st.mCurrNumApprPoints ≤ st.mNumApprPoints)
    (j : Int) (hj : j ∈ ComputeApprPath_indices subdivide st) :
    0 ≤ j ∧ j < st.mNumApprPoints := by
  rw [ComputeApprPath_indices_eq] at hj
  cases subdivide with
  | false =>
    simp only [Bool.false_eq_true, if_false, List.mem_flatMap, List.mem_range'_1,
      List.mem_cons, List.mem_singleton, List.not_mem_nil, or_false] at hj
    obtain ⟨k, ⟨_, hk⟩, hj⟩ := hj
    rcases hj with rfl | rfl | rfl <;> omega
  | true =>
    by_cases hcap : 2 * st.mCurrNumApprPoints - 1 > st.mNumApprPoints
    · simp only [if_true, if_pos hcap] at hj
      exact absurd hj (List.not_mem_nil j)
    · simp only [if_true, if_neg hcap, List.mem_append, List.mem_flatMap, List.mem_range'_1,
        List.mem_cons, List.mem_singleton, List.not_mem_nil, or_false] at hj
      rcases hj with ⟨k, ⟨_, hk⟩, hj⟩ | ⟨k, ⟨_, hk⟩, hj⟩
      · rcases hj with rfl | rfl <;> omega
      · rcases hj with rfl | rfl | rfl <;> omega

/-! ## Facts in exact arithmetic -/

/-- In exact arithmetic, for every input, including zero-length and exactly parallel
segments, when
the quotient `sN / sD` (resp. `tN / tD`) of lines 103-104 is evaluated, that is when
`abs(sN) < SMALL_NUM` (resp. `abs(tN) < SMALL_NUM`) is false, its denominator is
strictly positive; so no division by zero occurs and the function returns. -/
theorem exact_no_division_by_zero (P0 P1 Q0 Q1 : Vector3) :
    (¬ |(ratios P0 P1 Q0 Q1).sN| < SMALL_NUM → 0 < (ratios P0 P1 Q0 Q1).sD) ∧
    (¬ |(ratios P0 P1 Q0 Q1).tN| < SMALL_NUM → 0 < (ratios P0 P1 Q0 Q1).tD) ∧
    (dist3D_Segment_to_Segment P0 P1 Q0 Q1).isSome = true := by
  obtain ⟨h0, h1, h2, h3⟩ := ratios_bounds P0 P1 Q0 Q1
  refine ⟨?_, ?_, ?_⟩
  · intro h
    rw [abs_of_nonneg h0] at h
    exact lt_of_lt_of_le (lt_of_lt_of_le SMALL_NUM_pos (not_lt.mp h)) h1
  · intro h
    rw [abs_of_nonneg h2] at h
    exact lt_of_lt_of_le (lt_of_lt_of_le SMALL_NUM_pos (not_lt.mp h)) h3
  · obtain ⟨sc, tc, h, _⟩ := dist3D_returns P0 P1 Q0 Q1
    rw [h]
    rfl

/-- In exact arithmetic, for every input the outputs are consistent with each other:
`closest[0] = (1-s)*P0 + s*P1`, `closest[1] = (1-t)*Q0 + t*Q1`, `sqrDistance` is the
squared length of `closest[0] - closest[1]`, and `sqrDistance ≥ 0`. -/
theorem exact_outputs_consistent (P0 P1 Q0 Q1 : Vector3) :
    ∃ r, dist3D_Segment_to_Segment P0 P1 Q0 Q1 = some r ∧
      r.closest0 = segmentPoint P0 P1 r.s ∧
      r.closest1 = segmentPoint Q0 Q1 r.t ∧
      r.sqrDistance = Dot (r.closest0.sub r.closest1) (r.closest0.sub r.closest1) ∧
      r.sqrDistance = sqrDistanceAt P0 P1 Q0 Q1 r.s r.t ∧
      0 ≤ r.sqrDistance := by
  obtain ⟨sc, tc, h, _⟩ := dist3D_returns P0 P1 Q0 Q1
  exact ⟨_, h, rfl, rfl, rfl, rfl, Dot_self_nonneg _⟩

/-- In exact arithmetic, when both segments are points (`P1 = P0` and `Q1 = Q0`) the function returns
`s = 0`, `t = 0`, `closest[0] = P0`, `closest[1] = Q0` and `sqrDistance = |P0 - Q0|^2`. -/
theorem exact_two_points (P0 Q0 : Vector3) :
    dist3D_Segment_to_Segment P0 P0 Q0 Q0
      = some { sqrDistance := Dot (P0.sub Q0) (P0.sub Q0), s := 0, t := 0,
               closest0 := P0, closest1 := Q0 } := by
  have hr : ratios P0 P0 Q0 Q0 = ⟨0, 1, 0, 0⟩ := by
    have hS := SMALL_NUM_pos
    simp only [ratios, Vector3.sub_self, Dot]
    simp [lineParameters, clipT, hS]
  have hq1 : quotient 0 1 = some 0 := by
    simp [quotient, SMALL_NUM_pos]
  have hq0 : quotient 0 0 = some 0 := by
    simp [quotient, SMALL_NUM_pos]
  rw [dist3D_of_ratios hr hq1 hq0]
  simp [output, Vector3.add, Vector3.smul]

/-- In exact arithmetic, in one pass of the loop of `CreateScene`, for draws `s1`, `s2` in `[-1, 1)`:
`unit` lies in `[0, 1)`, the height `h` lies in `[1, 2)` and `perturb` lies in
`[0.99, 1.01)`; when the tangent is positive `r` lies within the factor `[0.99, 1.01)`
of `h * tantheta`; and when `U`, `W0`, `W1` are orthonormal and the cosine and sine
values satisfy `cs^2 + sn^2 = 1`, the generated point has height `h` along the axis and
radial distance `r` from it (squared distance `r^2`, with `r > 0`). -/
theorem exact_sample_ranges (S : SceneKernel) (V U W0 W1 : Vector3) (tantheta s1 s2 s3 : ℚ)
    (h1 : -1 ≤ s1 ∧ s1 < 1) (h2 : -1 ≤ s2 ∧ s2 < 1) (htan : 0 < tantheta)
    (hU : Dot U U = 1) (hW0 : Dot W0 W0 = 1) (hW1 : Dot W1 W1 = 1)
    (hUW0 : Dot U W0 = 0) (hUW1 : Dot U W1 = 0) (hW : Dot W0 W1 = 0)
    (htrig : S.cos (S.pi * s3) * S.cos (S.pi * s3) + S.sin (S.pi * s3) * S.sin (S.pi * s3) = 1) :
    (0 ≤ (scenePoint S V U W0 W1 1 2 (1 / 100) tantheta s1 s2 s3).unit ∧
      (scenePoint S V U W0 W1 1 2 (1 / 100) tantheta s1 s2 s3).unit < 1) ∧
    (1 ≤ (scenePoint S V U W0 W1 1 2 (1 / 100) tantheta s1 s2 s3).h ∧
      (scenePoint S V U W0 W1 1 2 (1 / 100) tantheta s1 s2 s3).h < 2) ∧
    (1 - 1 / 100 ≤ (scenePoint S V U W0 W1 1 2 (1 / 100) tantheta s1 s2 s3).perturb ∧
      (scenePoint S V U W0 W1 1 2 (1 / 100) tantheta s1 s2 s3).perturb < 1 + 1 / 100) ∧
    ((99 / 100) * ((scenePoint S V U W0 W1 1 2 (1 / 100) tantheta s1 s2 s3).h * tantheta)
        ≤ (scenePoint S V U W0 W1 1 2 (1 / 100) tantheta s1 s2 s3).r ∧
      (scenePoint S V U W0 W1 1 2 (1 / 100) tantheta s1 s2 s3).r
        < (101 / 100) * ((scenePoint S V U W0 W1 1 2 (1 / 100) tantheta s1 s2 s3).h * tantheta)) ∧
    0 < (scenePoint S V U W0 W1 1 2 (1 / 100) tantheta s1 s2 s3).r ∧
    axisHeight V U (scenePoint S V U W0 W1 1 2 (1 / 100) tantheta s1 s2 s3).X
      = (scenePoint S V U W0 W1 1 2 (1 / 100) tantheta s1 s2 s3).h ∧
    radialSqrDistance V U (scenePoint S V U W0 W1 1 2 (1 / 100) tantheta s1 s2 s3).X
      = (scenePoint S V U W0 W1 1 2 (1 / 100) tantheta s1 s2 s3).r
        * (scenePoint S V U W0 W1 1 2 (1 / 100) tantheta s1 s2 s3).r := by
  obtain ⟨h1a, h1b⟩ := h1
  obtain ⟨h2a, h2b⟩ := h2
  have hh : 1 ≤ 1 + (2 - 1) * ((1 / 2) * (s1 + 1)) := by linarith
  have hht : 0 < (1 + (2 - 1) * ((1 / 2) * (s1 + 1))) * tantheta :=
    mul_pos (by linarith) htan
  have hheight : axisHeight V U (scenePoint S V U W0 W1 1 2 (1 / 100) tantheta s1 s2 s3).X
      = (scenePoint S V U W0 W1 1 2 (1 / 100) tantheta s1 s2 s3).h :=
    scenePoint_axisHeight S V U W0 W1 1 2 (1 / 100) tantheta s1 s2 s3 hU hUW0 hUW1
  refine ⟨⟨?_, ?_⟩, ⟨?_, ?_⟩, ⟨?_, ?_⟩, ⟨?_, ?_⟩, ?_, hheight, ?_⟩
  · show 0 ≤ (1 / 2) * (s1 + 1)
    linarith
  · show (1 / 2) * (s1 + 1) < 1
    linarith
  · exact hh
  · show 1 + (2 - 1) * ((1 / 2) * (s1 + 1)) < 2
    linarith
  · show 1 - 1 / 100 ≤ 1 + (1 / 100) * s2
    linarith
  · show 1 + (1 / 100) * s2 < 1 + 1 / 100
    linarith
  · show (99 / 100) * ((1 + (2 - 1) * ((1 / 2) * (s1 + 1))) * tantheta)
      ≤ (1 + (1 / 100) * s2) * ((1 + (2 - 1) * ((1 / 2) * (s1 + 1))) * tantheta)
    exact mul_le_mul_of_nonneg_right (by linarith) (le_of_lt hht)
  · show (1 + (1 / 100) * s2) * ((1 + (2 - 1) * ((1 / 2) * (s1 + 1))) * tantheta)
      < (101 / 100) * ((1 + (2 - 1) * ((1 / 2) * (s1 + 1))) * tantheta)
    exact mul_lt_mul_of_pos_right (by linarith) hht
  · show 0 < (1 + (1 / 100) * s2) * ((1 + (2 - 1) * ((1 / 2) * (s1 + 1))) * tantheta)
    exact mul_pos (by linarith) hht
  · exact scenePoint_radialSqrDistance S V U W0 W1 1 2 (1 / 100) tantheta s1 s2 s3
      hU hW0 hW1 hUW0 hUW1 hW htrig

/-- An instance of the exact ranges: the pass with all three draws `0`, the basis `(0,0,1)`, `(1,0,0)`,
`(0,1,0)` and tangent `1`. -/
theorem exact_sample_ranges_example :
    (((-1 : ℚ) ≤ 0 ∧ (0 : ℚ) < 1) ∧ ((-1 : ℚ) ≤ 0 ∧ (0 : ℚ) < 1) ∧ (0 : ℚ) < 1 ∧
      Dot ⟨0, 0, 1⟩ ⟨0, 0, 1⟩ = 1 ∧ Dot ⟨1, 0, 0⟩ ⟨1, 0, 0⟩ = 1 ∧ Dot ⟨0, 1, 0⟩ ⟨0, 1, 0⟩ = 1 ∧
      Dot ⟨0, 0, 1⟩ ⟨1, 0, 0⟩ = 0 ∧ Dot ⟨0, 0, 1⟩ ⟨0, 1, 0⟩ = 0 ∧
      Dot ⟨1, 0, 0⟩ ⟨0, 1, 0⟩ = 0 ∧
      sampleSceneKernel.cos (sampleSceneKernel.pi * 0) * sampleSceneKernel.cos (sampleSceneKernel.pi * 0)
        + sampleSceneKernel.sin (sampleSceneKernel.pi * 0) * sampleSceneKernel.sin (sampleSceneKernel.pi * 0)
        = 1) ∧
    ((0 ≤ (scenePoint sampleSceneKernel ⟨3, 2, 1⟩ ⟨0, 0, 1⟩ ⟨1, 0, 0⟩ ⟨0, 1, 0⟩ 1 2 (1 / 100) 1 0 0 0).unit ∧
      (scenePoint sampleSceneKernel ⟨3, 2, 1⟩ ⟨0, 0, 1⟩ ⟨1, 0, 0⟩ ⟨0, 1, 0⟩ 1 2 (1 / 100) 1 0 0 0).unit < 1) ∧
    (1 ≤ (scenePoint sampleSceneKernel ⟨3, 2, 1⟩ ⟨0, 0, 1⟩ ⟨1, 0, 0⟩ ⟨0, 1, 0⟩ 1 2 (1 / 100) 1 0 0 0).h ∧
      (scenePoint sampleSceneKernel ⟨3, 2, 1⟩ ⟨0, 0, 1⟩ ⟨1, 0, 0⟩ ⟨0, 1, 0⟩ 1 2 (1 / 100) 1 0 0 0).h < 2) ∧
    (1 - 1 / 100 ≤ (scenePoint sampleSceneKernel ⟨3, 2, 1⟩ ⟨0, 0, 1⟩ ⟨1, 0, 0⟩ ⟨0, 1, 0⟩ 1 2 (1 / 100) 1 0 0 0).perturb ∧
      (scenePoint sampleSceneKernel ⟨3, 2, 1⟩ ⟨0, 0, 1⟩ ⟨1, 0, 0⟩ ⟨0, 1, 0⟩ 1 2 (1 / 100) 1 0 0 0).perturb < 1 + 1 / 100) ∧
    ((99 / 100) * ((scenePoint sampleSceneKernel ⟨3, 2, 1⟩ ⟨0, 0, 1⟩ ⟨1, 0, 0⟩ ⟨0, 1, 0⟩ 1 2 (1 / 100) 1 0 0 0).h * 1)
        ≤ (scenePoint sampleSceneKernel ⟨3, 2, 1⟩ ⟨0, 0, 1⟩ ⟨1, 0, 0⟩ ⟨0, 1, 0⟩ 1 2 (1 / 100) 1 0 0 0).r ∧
      (scenePoint sampleSceneKernel ⟨3, 2, 1⟩ ⟨0, 0, 1⟩ ⟨1, 0, 0⟩ ⟨0, 1, 0⟩ 1 2 (1 / 100) 1 0 0 0).r
        < (101 / 100) * ((scenePoint sampleSceneKernel ⟨3, 2, 1⟩ ⟨0, 0, 1⟩ ⟨1, 0, 0⟩ ⟨0, 1, 0⟩ 1 2 (1 / 100) 1 0 0 0).h * 1)) ∧
    0 < (scenePoint sampleSceneKernel ⟨3, 2, 1⟩ ⟨0, 0, 1⟩ ⟨1, 0, 0⟩ ⟨0, 1, 0⟩ 1 2 (1 / 100) 1 0 0 0).r ∧
    axisHeight ⟨3, 2, 1⟩ ⟨0, 0, 1⟩ (scenePoint sampleSceneKernel ⟨3, 2, 1⟩ ⟨0, 0, 1⟩ ⟨1, 0, 0⟩ ⟨0, 1, 0⟩ 1 2 (1 / 100) 1 0 0 0).X
      = (scenePoint sampleSceneKernel ⟨3, 2, 1⟩ ⟨0, 0, 1⟩ ⟨1, 0, 0⟩ ⟨0, 1, 0⟩ 1 2 (1 / 100) 1 0 0 0).h ∧
    radialSqrDistance ⟨3, 2, 1⟩ ⟨0, 0, 1⟩ (scenePoint sampleSceneKernel ⟨3, 2, 1⟩ ⟨0, 0, 1⟩ ⟨1, 0, 0⟩ ⟨0, 1, 0⟩ 1 2 (1 / 100) 1 0 0 0).X
      = (scenePoint sampleSceneKernel ⟨3, 2, 1⟩ ⟨0, 0, 1⟩ ⟨1, 0, 0⟩ ⟨0, 1, 0⟩ 1 2 (1 / 100) 1 0 0 0).r
        * (scenePoint sampleSceneKernel ⟨3, 2, 1⟩ ⟨0, 0, 1⟩ ⟨1, 0, 0⟩ ⟨0, 1, 0⟩ 1 2 (1 / 100) 1 0 0 0).r) :=
  ⟨⟨⟨by norm_num, by norm_num⟩, ⟨by norm_num, by norm_num⟩, by norm_num,
      by norm_num [Dot], by norm_num [Dot], by norm_num [Dot], by norm_num [Dot],
      by norm_num [Dot], by norm_num [Dot], by norm_num [sampleSceneKernel]⟩,
    exact_sample_ranges sampleSceneKernel ⟨3, 2, 1⟩ ⟨0, 0, 1⟩ ⟨1, 0, 0⟩ ⟨0, 1, 0⟩ 1 0 0 0
      ⟨by norm_num, by norm_num⟩ ⟨by norm_num, by norm_num⟩ (by norm_num)
      (by norm_num [Dot]) (by norm_num [Dot]) (by norm_num [Dot]) (by norm_num [Dot])
      (by norm_num [Dot]) (by norm_num [Dot]) (by norm_num [sampleSceneKernel])⟩

/-! ## Facts about rounding to binary64 -/

theorem roundHalfEven_intCast (z : ℤ) : roundHalfEven (z : ℚ) = z := by
  simp [roundHalfEven]

theorem roundHalfEven_floor_or (q : ℚ) :
    roundHalfEven q = ⌊q⌋ ∨ roundHalfEven q = ⌊q⌋ + 1 := by
  unfold roundHalfEven
  split_ifs <;> simp

/-- Rounding to the nearest integer is monotone. -/
theorem roundHalfEven_mono {x y : ℚ} (h : x ≤ y) : roundHalfEven x ≤ roundHalfEven y := by
  have hf : ⌊x⌋ ≤ ⌊y⌋ := Int.floor_mono h
  rcases lt_or_eq_of_le hf with hlt | heq
  · rcases roundHalfEven_floor_or x with hx | hx <;>
      rcases roundHalfEven_floor_or y with hy | hy <;> omega
  · unfold roundHalfEven
    rw [heq]
    have hxy : x - (⌊y⌋ : ℚ) ≤ y - (⌊y⌋ : ℚ) := by linarith
    split_ifs <;> first | omega | (exfalso; linarith)

/-- A rational within less than one half of an integer rounds to it. -/
theorem roundHalfEven_of_near (q : ℚ) (m : ℤ) (h : |q - m| < 1 / 2) : roundHalfEven q = m := by
  rw [abs_lt] at h
  obtain ⟨h1, h2⟩ := h
  by_cases c : (m : ℚ) ≤ q
  · have hf : ⌊q⌋ = m := by
      rw [Int.floor_eq_iff]
      constructor <;> linarith
    unfold roundHalfEven
    rw [hf, if_pos (by linarith)]
  · have hf : ⌊q⌋ = m - 1 := by
      rw [Int.floor_eq_iff]
      push_cast
      constructor <;> linarith
    unfold roundHalfEven
    rw [hf]
    push_cast
    rw [if_neg (by linarith), if_pos (by linarith)]
    ring

theorem roundHalfEven_neg (q : ℚ) : roundHalfEven (-q) = -roundHalfEven q := by
  by_cases c : q = (⌊q⌋ : ℚ)
  · have e : -q = ((-⌊q⌋ : ℤ) : ℚ) := by
      push_cast
      linarith
    rw [e, roundHalfEven_intCast]
    nth_rewrite 2 [c]
    rw [roundHalfEven_intCast]
  · have h1 : (⌊q⌋ : ℚ) < q := lt_of_le_of_ne (Int.floor_le q) (Ne.symm c)
    have h2 : q < (⌊q⌋ : ℚ) + 1 := Int.lt_floor_add_one q
    have hf : ⌊-q⌋ = -⌊q⌋ - 1 := by
      rw [Int.floor_eq_iff]
      push_cast
      constructor <;> linarith
    unfold roundHalfEven
    rw [hf]
    push_cast
    split_ifs <;> first | omega | (exfalso; linarith)

theorem roundHalfEven_nonneg {q : ℚ} (h : 0 ≤ q) : 0 ≤ roundHalfEven q := by
  have := roundHalfEven_mono h
  rwa [show (0 : ℚ) = ((0 : ℤ) : ℚ) by norm_num, roundHalfEven_intCast] at this

theorem two_zpow_pos (k : ℤ) : (0 : ℚ) < 2 ^ k := zpow_pos (by norm_num) k

theorem ulpExponent_neg (q : ℚ) : ulpExponent (-q) = ulpExponent q := by
  simp [ulpExponent]

theorem roundToBinary64_neg (q : ℚ) : roundToBinary64 (-q) = -roundToBinary64 q := by
  unfold roundToBinary64
  rw [ulpExponent_neg, neg_div, roundHalfEven_neg]
  push_cast
  ring

theorem roundToBinary64_zero : roundToBinary64 0 = 0 := by
  unfold roundToBinary64
  rw [zero_div, show (0 : ℚ) = ((0 : ℤ) : ℚ) by norm_num, roundHalfEven_intCast]
  simp

theorem roundToBinary64_nonneg {q : ℚ} (h : 0 ≤ q) : 0 ≤ roundToBinary64 q := by
  unfold roundToBinary64
  have h1 : 0 ≤ q / 2 ^ ulpExponent q := div_nonneg h (le_of_lt (two_zpow_pos _))
  have h2 : (0 : ℚ) ≤ (roundHalfEven (q / 2 ^ ulpExponent q) : ℚ) := by
    exact_mod_cast roundHalfEven_nonneg h1
  exact mul_nonneg h2 (le_of_lt (two_zpow_pos _))

/-- The spacing exponent of a rational between `2^k` and `2^(k+1)`. -/
theorem ulpExponent_eq (q : ℚ) (k : ℤ) (h1 : 2 ^ k ≤ |q|) (h2 : |q| < 2 ^ (k + 1)) :
    ulpExponent q = max k (-1022) - 52 := by
  have hpos : 0 < |q| := lt_of_lt_of_le (two_zpow_pos k) h1
  have e1 : k ≤ Int.log 2 |q| := by
    rw [← Int.zpow_le_iff_le_log (by norm_num) hpos]
    exact_mod_cast h1
  have e2 : Int.log 2 |q| < k + 1 := by
    rw [← Int.lt_zpow_iff_log_lt (by norm_num) hpos]
    exact_mod_cast h2
  unfold ulpExponent
  have : Int.log 2 |q| = k := by omega
  rw [this]

/-- The rounding of a rational between `2^k` and `2^(k+1)`, from the rounding of its
multiple of the spacing. -/
theorem roundToBinary64_eval (q : ℚ) (k m : ℤ) (h1 : 2 ^ k ≤ |q|) (h2 : |q| < 2 ^ (k + 1))
    (hm : roundHalfEven (q / 2 ^ (max k (-1022) - 52)) = m) :
    roundToBinary64 q = m * 2 ^ (max k (-1022) - 52) := by
  unfold roundToBinary64
  rw [ulpExponent_eq q k h1 h2, hm]

/-- A positive rational lies between two consecutive powers of two. -/
theorem log_bounds {q : ℚ} (h : 0 < q) :
    (2 : ℚ) ^ Int.log 2 q ≤ q ∧ q < 2 ^ (Int.log 2 q + 1) := by
  have a := Int.zpow_log_le_self (b := 2) (r := q) (by norm_num) h
  have b := Int.lt_zpow_succ_log_self (b := 2) (by norm_num) q
  exact ⟨by exact_mod_cast a, by exact_mod_cast b⟩

/-- The rounding of a positive rational is at most `2^53` spacings. -/
theorem roundToBinary64_le_top {q : ℚ} (h : 0 < q) :
    roundToBinary64 q ≤ 2 ^ (ulpExponent q + 53) := by
  obtain ⟨_, hb⟩ := log_bounds h
  have hk : Int.log 2 q + 1 ≤ ulpExponent q + 53 := by
    unfold ulpExponent
    rw [abs_of_pos h]
    have := le_max_left (Int.log 2 q) (-1022)
    omega
  have hq : q < 2 ^ (ulpExponent q + 53) :=
    lt_of_lt_of_le hb (zpow_le_zpow_right₀ (by norm_num) hk)
  have hdiv : q / 2 ^ ulpExponent q ≤ ((2 ^ 53 : ℤ) : ℚ) := by
    rw [div_le_iff₀ (two_zpow_pos _)]
    push_cast
    rw [zpow_add₀ (by norm_num : (2 : ℚ) ≠ 0)] at hq
    have : (2 : ℚ) ^ (53 : ℤ) = 2 ^ 53 := by norm_num
    rw [this, mul_comm] at hq
    exact le_of_lt hq
  have hr := roundHalfEven_mono hdiv
  rw [roundHalfEven_intCast] at hr
  unfold roundToBinary64
  have hr' : (roundHalfEven (q / 2 ^ ulpExponent q) : ℚ) ≤ 2 ^ 53 := by exact_mod_cast hr
  rw [zpow_add₀ (by norm_num : (2 : ℚ) ≠ 0)]
  have : (2 : ℚ) ^ (53 : ℤ) = 2 ^ 53 := by norm_num
  rw [this, mul_comm ((2 : ℚ) ^ ulpExponent q)]
  exact mul_le_mul_of_nonneg_right hr' (le_of_lt (two_zpow_pos _))

/-- The rounding of a positive rational in the normal range is at least the power of two
below it. -/
theorem roundToBinary64_ge_bottom {q : ℚ} (h : 0 < q) (hn : -1022 ≤ Int.log 2 q) :
    2 ^ (ulpExponent q + 52) ≤ roundToBinary64 q := by
  obtain ⟨ha, _⟩ := log_bounds h
  have hk : ulpExponent q + 52 = Int.log 2 q := by
    unfold ulpExponent
    rw [abs_of_pos h, max_eq_left hn]
    omega
  have hdiv : ((2 ^ 52 : ℤ) : ℚ) ≤ q / 2 ^ ulpExponent q := by
    rw [le_div_iff₀ (two_zpow_pos _)]
    push_cast
    rw [← hk, zpow_add₀ (by norm_num : (2 : ℚ) ≠ 0)] at ha
    have : (2 : ℚ) ^ (52 : ℤ) = 2 ^ 52 := by norm_num
    rw [this, mul_comm] at ha
    exact ha
  have hr := roundHalfEven_mono hdiv
  rw [roundHalfEven_intCast] at hr
  unfold roundToBinary64
  have hr' : (2 : ℚ) ^ 52 ≤ (roundHalfEven (q / 2 ^ ulpExponent q) : ℚ) := by exact_mod_cast hr
  rw [zpow_add₀ (by norm_num : (2 : ℚ) ≠ 0)]
  have : (2 : ℚ) ^ (52 : ℤ) = 2 ^ 52 := by norm_num
  rw [this, mul_comm ((2 : ℚ) ^ ulpExponent q)]
  exact mul_le_mul_of_nonneg_right hr' (le_of_lt (two_zpow_pos _))

theorem roundToBinary64_mono_pos {q q' : ℚ} (h : 0 < q) (hle : q ≤ q') :
    roundToBinary64 q ≤ roundToBinary64 q' := by
  have h' : 0 < q' := lt_of_lt_of_le h hle
  have hlog : Int.log 2 q ≤ Int.log 2 q' := Int.log_mono_right h hle
  have hE : ulpExponent q ≤ ulpExponent q' := by
    unfold ulpExponent
    rw [abs_of_pos h, abs_of_pos h']
    have := max_le_max_right (-1022) hlog
    omega
  rcases lt_or_eq_of_le hE with hlt | heq
  · have hn : -1022 ≤ Int.log 2 q' := by
      unfold ulpExponent at hlt
      rw [abs_of_pos h, abs_of_pos h'] at hlt
      have := le_max_right (Int.log 2 q) (-1022)
      rcases max_cases (Int.log 2 q') (-1022) with ⟨e, _⟩ | ⟨e, _⟩ <;> omega
    calc roundToBinary64 q ≤ 2 ^ (ulpExponent q + 53) := roundToBinary64_le_top h
      _ ≤ 2 ^ (ulpExponent q' + 52) := zpow_le_zpow_right₀ (by norm_num) (by omega)
      _ ≤ roundToBinary64 q' := roundToBinary64_ge_bottom h' hn
  · unfold roundToBinary64
    rw [heq]
    have hdiv : q / 2 ^ ulpExponent q' ≤ q' / 2 ^ ulpExponent q' :=
      div_le_div_of_nonneg_right hle (le_of_lt (two_zpow_pos _))
    have hr : (roundHalfEven (q / 2 ^ ulpExponent q') : ℚ)
        ≤ (roundHalfEven (q' / 2 ^ ulpExponent q') : ℚ) := by
      exact_mod_cast roundHalfEven_mono hdiv
    exact mul_le_mul_of_nonneg_right hr (le_of_lt (two_zpow_pos _))

/-- Rounding to binary64 is monotone. -/
theorem roundToBinary64_mono {q q' : ℚ} (hle : q ≤ q') :
    roundToBinary64 q ≤ roundToBinary64 q' := by
  rcases lt_trichotomy 0 q with h | h | h
  · exact roundToBinary64_mono_pos h hle
  · rw [← h, roundToBinary64_zero]
    exact roundToBinary64_nonneg (by rw [h]; exact hle)
  · rcases le_or_lt 0 q' with h' | h'
    · have a : roundToBinary64 q ≤ 0 := by
        have := roundToBinary64_nonneg (by linarith : (0 : ℚ) ≤ -q)
        rw [roundToBinary64_neg] at this
        linarith
      exact le_trans a (roundToBinary64_nonneg h')
    · have := roundToBinary64_mono_pos (by linarith : (0 : ℚ) < -q') (by linarith : -q' ≤ -q)
      rw [roundToBinary64_neg, roundToBinary64_neg] at this
      linarith

theorem roundToBinary64_exact (q : ℚ) (k m : ℤ) (h1 : 2 ^ k ≤ |q|) (h2 : |q| < 2 ^ (k + 1))
    (hq : q = m * 2 ^ (max k (-1022) - 52)) : roundToBinary64 q = q := by
  have hm : roundHalfEven (q / 2 ^ (max k (-1022) - 52)) = m := by
    nth_rewrite 1 [hq]
    rw [mul_div_assoc, div_self (ne_of_gt (two_zpow_pos _)), mul_one, roundHalfEven_intCast]
  rw [roundToBinary64_eval q k m h1 h2 hm, ← hq]

theorem roundToBinary64_one : roundToBinary64 1 = 1 := by
  apply roundToBinary64_exact 1 0 (2 ^ 52)
  · norm_num
  · norm_num
  · norm_num

/-- The double nearest to `10^-8` is `3022314549036573 / 2^78`. -/
theorem roundToBinary64_small :
    roundToBinary64 (1 / 100000000) = 3022314549036573 / 2 ^ 78 := by
  rw [roundToBinary64_eval (1 / 100000000) (-27) 6044629098073146]
  · norm_num
  · rw [abs_of_pos (by norm_num)]
    norm_num
  · rw [abs_of_pos (by norm_num)]
    norm_num
  · apply roundHalfEven_of_near
    norm_num [abs_lt]

/-- A rounded value is a value of the format: rounding it again returns it. -/
theorem roundToBinary64_idem_pos {q : ℚ} (hq : 0 < q) :
    roundToBinary64 (roundToBinary64 q) = roundToBinary64 q := by
  have h2 : (2 : ℚ) ≠ 0 := by norm_num
  have hnn : 0 ≤ roundHalfEven (q / 2 ^ ulpExponent q) :=
    roundHalfEven_nonneg (div_nonneg (le_of_lt hq) (le_of_lt (two_zpow_pos _)))
  have hr : roundToBinary64 q = roundHalfEven (q / 2 ^ ulpExponent q) * 2 ^ ulpExponent q := rfl
  rcases eq_or_lt_of_le hnn with h0 | hpos
  · have e : roundToBinary64 q = 0 := by
      rw [hr, ← h0]
      simp
    rw [e, roundToBinary64_zero]
  have hrpos : 0 < roundToBinary64 q := by
    rw [hr]
    exact mul_pos (by exact_mod_cast hpos) (two_zpow_pos _)
  have htop := roundToBinary64_le_top hq
  obtain ⟨lo, hi⟩ := log_bounds hq
  by_cases hn : -1022 ≤ Int.log 2 q
  · have hE : ulpExponent q = Int.log 2 q - 52 := by
      unfold ulpExponent
      rw [abs_of_pos hq, max_eq_left hn]
    have hbot := roundToBinary64_ge_bottom hq hn
    rcases eq_or_lt_of_le htop with heq | hlt
    · apply roundToBinary64_exact _ (ulpExponent q + 53) (2 ^ 52)
      · rw [abs_of_pos hrpos, heq]
      · rw [abs_of_pos hrpos, heq]
        exact zpow_lt_zpow_right₀ (by norm_num) (by omega)
      · rw [heq, max_eq_left (by omega)]
        push_cast
        rw [show ulpExponent q + 53 = 52 + (ulpExponent q + 53 - 52) by ring,
          zpow_add₀ h2]
        norm_num
    · apply roundToBinary64_exact _ (ulpExponent q + 52)
        (roundHalfEven (q / 2 ^ ulpExponent q))
      · rw [abs_of_pos hrpos]
        exact hbot
      · rw [abs_of_pos hrpos, show ulpExponent q + 52 + 1 = ulpExponent q + 53 by ring]
        exact hlt
      · rw [max_eq_left (by omega), show ulpExponent q + 52 - 52 = ulpExponent q by ring]
        exact hr
  · have hE : ulpExponent q = -1074 := by
      unfold ulpExponent
      rw [abs_of_pos hq, max_eq_right (by omega)]
      norm_num
    have hsmall : roundToBinary64 q ≤ 2 ^ (-1022 : ℤ) := by
      have hq' : q ≤ 2 ^ (-1022 : ℤ) :=
        le_trans (le_of_lt hi) (zpow_le_zpow_right₀ (by norm_num) (by omega))
      have e : roundToBinary64 ((2 : ℚ) ^ (-1022 : ℤ)) = 2 ^ (-1022 : ℤ) := by
        apply roundToBinary64_exact _ (-1022) (2 ^ 52)
        · rw [abs_of_pos (two_zpow_pos _)]
        · rw [abs_of_pos (two_zpow_pos _)]
          exact zpow_lt_zpow_right₀ (by norm_num) (by omega)
        · rw [max_self]
          push_cast
          rw [show (-1022 : ℤ) = 52 + (-1022 - 52) by norm_num, zpow_add₀ h2]
          norm_num
      have := roundToBinary64_mono hq'
      rw [e] at this
      exact this
    rcases eq_or_lt_of_le hsmall with heq | hlt
    · apply roundToBinary64_exact _ (-1022) (2 ^ 52)
      · rw [abs_of_pos hrpos, heq]
      · rw [abs_of_pos hrpos, heq]
        exact zpow_lt_zpow_right₀ (by norm_num) (by omega)
      · rw [heq, max_self]
        push_cast
        rw [show (-1022 : ℤ) = 52 + (-1022 - 52) by norm_num, zpow_add₀ h2]
        norm_num
    · obtain ⟨lo', hi'⟩ := log_bounds hrpos
      have hk : Int.log 2 (roundToBinary64 q) < -1022 := by
        rw [← Int.lt_zpow_iff_log_lt (by norm_num) hrpos]
        exact_mod_cast hlt
      apply roundToBinary64_exact _ (Int.log 2 (roundToBinary64 q))
        (roundHalfEven (q / 2 ^ ulpExponent q))
      · rw [abs_of_pos hrpos]
        exact lo'
      · rw [abs_of_pos hrpos]
        exact hi'
      · rw [max_eq_right (by omega), hr, hE]
        norm_num

theorem roundToBinary64_idem (q : ℚ) :
    roundToBinary64 (roundToBinary64 q) = roundToBinary64 q := by
  rcases lt_trichotomy 0 q with h | h | h
  · exact roundToBinary64_idem_pos h
  · rw [← h, roundToBinary64_zero, roundToBinary64_zero]
  · have := roundToBinary64_idem_pos (by linarith : (0 : ℚ) < -q)
    rw [roundToBinary64_neg, roundToBinary64_neg] at this
    linarith

/-! ## Facts about the binary64 operations -/

theorem ofRat_isNaN (neg : Bool) (q : ℚ) : (Double.ofRat neg q).isNaN = false := by
  unfold Double.ofRat
  split_ifs <;> rfl

theorem ofRat_of_ne_zero (neg : Bool) (q : ℚ) (h : |roundToBinary64 q| < 2 ^ 1024)
    (h0 : roundToBinary64 q ≠ 0) : Double.ofRat neg q = .finite (roundToBinary64 q) := by
  unfold Double.ofRat
  rw [if_neg (not_le.mpr h), if_neg h0]

theorem ofRat_zero (neg : Bool) :
    Double.ofRat neg 0 = if neg then .negZero else .finite 0 := by
  unfold Double.ofRat
  rw [roundToBinary64_zero]
  norm_num

theorem ofRat_overflow (neg : Bool) (q : ℚ) (h : 2 ^ 1024 ≤ |roundToBinary64 q|) :
    Double.ofRat neg q = .infinite neg := by
  unfold Double.ofRat
  rw [if_pos h]

theorem ofRat_false_nonnegOrNaN {q : ℚ} (h : 0 ≤ q) : (Double.ofRat false q).nonnegOrNaN := by
  unfold Double.ofRat
  simp only [Bool.false_eq_true, if_false]
  split_ifs with h1 h2
  · exact Or.inr (Or.inl rfl)
  · exact Or.inr (Or.inr ⟨0, rfl, le_refl _⟩)
  · exact Or.inr (Or.inr ⟨_, rfl, roundToBinary64_nonneg h⟩)

theorem mul_self_nonnegOrNaN (x : Double) : (x.mul x).nonnegOrNaN := by
  cases x with
  | finite q =>
    have e : (Double.finite q).mul (.finite q) = Double.ofRat false (q * q) := by
      simp [Double.mul, Double.isNaN, Double.isInf, Double.toRat, Double.signBit]
    rw [e]
    exact ofRat_false_nonnegOrNaN (mul_self_nonneg q)
  | negZero =>
    have e : Double.negZero.mul .negZero = Double.ofRat false 0 := by
      simp [Double.mul, Double.isNaN, Double.isInf, Double.toRat, Double.signBit]
    rw [e]
    exact ofRat_false_nonnegOrNaN (le_refl _)
  | infinite s =>
    refine Or.inr (Or.inl ?_)
    simp [Double.mul, Double.isNaN, Double.isInf, Double.isZero, Double.isFinite, Double.signBit]
  | nan => exact Or.inl rfl

theorem add_nonnegOrNaN {x y : Double} (hx : x.nonnegOrNaN) (hy : y.nonnegOrNaN) :
    (x.add y).nonnegOrNaN := by
  rcases hx with rfl | rfl | ⟨p, rfl, hp⟩
  · exact Or.inl rfl
  · rcases hy with rfl | rfl | ⟨q, rfl, hq⟩
    · exact Or.inl rfl
    · exact Or.inr (Or.inl rfl)
    · exact Or.inr (Or.inl rfl)
  · rcases hy with rfl | rfl | ⟨q, rfl, hq⟩
    · exact Or.inl rfl
    · exact Or.inr (Or.inl rfl)
    · have e : (Double.finite p).add (.finite q)
          = if p + q = 0 then .finite 0 else Double.ofRat false (p + q) := by
        have h1 : ¬ p < 0 := not_lt.mpr hp
        have h2 : ¬ p + q < 0 := not_lt.mpr (add_nonneg hp hq)
        simp [Double.add, Double.isNaN, Double.isInf, Double.toRat, Double.signBit, h1, h2]
      rw [e]
      split_ifs
      · exact Or.inr (Or.inr ⟨0, rfl, le_refl _⟩)
      · exact ofRat_false_nonnegOrNaN (add_nonneg hp hq)

theorem Dot_self_nonnegOrNaN (v : Binary64.Vector3) : (Binary64.Dot v v).nonnegOrNaN :=
  add_nonnegOrNaN (add_nonnegOrNaN (mul_self_nonnegOrNaN _) (mul_self_nonnegOrNaN _))
    (mul_self_nonnegOrNaN _)

theorem nonnegOrNaN_le {x : Double} (h : x.nonnegOrNaN) :
    x.isNaN = true ∨ (Double.finite 0).le x = true := by
  rcases h with rfl | rfl | ⟨q, rfl, hq⟩
  · exact Or.inl rfl
  · exact Or.inr rfl
  · right
    simp [Double.le, Double.isNaN, Double.isInf, Double.toRat, hq]

theorem nonnegOrNaN_finite {x : Double} (h : x.nonnegOrNaN) (hf : x.isFinite = true) :
    ∃ q : ℚ, x = .finite q ∧ 0 ≤ q := by
  rcases h with rfl | rfl | h
  · exact absurd hf (by decide)
  · exact absurd hf (by decide)
  · exact h

/-- The constant `SMALL_NUM` is the double `3022314549036573 / 2^78`. -/
theorem b64_SMALL_NUM_eq : Binary64.SMALL_NUM = .finite (3022314549036573 / 2 ^ 78) := by
  unfold Binary64.SMALL_NUM
  rw [ofRat_of_ne_zero, roundToBinary64_small]
  · rw [roundToBinary64_small, abs_of_pos (by norm_num)]
    norm_num
  · rw [roundToBinary64_small]
    norm_num

theorem add_isNaN_of_finite {x y : Double} (hx : x.isFinite = true) (hy : y.isFinite = true) :
    (x.add y).isNaN = false := by
  have hx1 : x.isNaN = false := by cases x <;> simp_all [Double.isFinite, Double.isNaN]
  have hy1 : y.isNaN = false := by cases y <;> simp_all [Double.isFinite, Double.isNaN]
  have hx2 : x.isInf = false := by cases x <;> simp_all [Double.isFinite, Double.isInf]
  have hy2 : y.isInf = false := by cases y <;> simp_all [Double.isFinite, Double.isInf]
  unfold Double.add
  simp only [hx1, hy1, hx2, hy2, Bool.or_self, Bool.and_self, Bool.false_eq_true, if_false]
  split_ifs
  · rfl
  · rfl
  · exact ofRat_isNaN _ _

theorem neg_isFinite {x : Double} (hx : x.isFinite = true) : x.neg.isFinite = true := by
  cases x with
  | finite q =>
    by_cases c : q = 0
    · simp [Double.neg, c, Double.isFinite]
    · simp [Double.neg, c, Double.isFinite]
  | negZero => rfl
  | infinite s => simp [Double.isFinite] at hx
  | nan => simp [Double.isFinite] at hx

theorem isNaN_of_isFinite {x : Double} (hx : x.isFinite = true) : x.isNaN = false := by
  cases x <;> simp_all [Double.isFinite, Double.isNaN]

/-- A value that is a number and not below `SMALL_NUM` is positive. -/
theorem pos_of_not_lt_SMALL_NUM {D : Double} (hD : D.isNaN = false)
    (h : D.lt Binary64.SMALL_NUM = false) : (Double.finite 0).lt D = true := by
  rw [b64_SMALL_NUM_eq] at h
  cases D with
  | finite q =>
    simp only [Double.lt, Double.isNaN, Double.isInf, Double.toRat, Bool.or_self,
      Bool.false_eq_true, if_false, decide_eq_false_iff_not, not_lt, decide_eq_true_eq] at h ⊢
    have : (0 : ℚ) < 3022314549036573 / 2 ^ 78 := by norm_num
    linarith
  | negZero =>
    simp [Double.lt, Double.isNaN, Double.isInf, Double.toRat] at h
  | infinite s =>
    cases s
    · rfl
    · simp [Double.lt, Double.isNaN, Double.isInf, Double.signBit] at h
  | nan => exact absurd hD (by decide)

/-- A number `X` with `0 <= X <= q` that is not below `SMALL_NUM` in absolute value makes
`q` positive. -/
theorem pos_of_between {X : Double} {q : ℚ} (hX : X.isNaN = false)
    (h1 : X.lt (.finite 0) = false) (h2 : (Double.finite q).lt X = false)
    (h3 : X.abs.lt Binary64.SMALL_NUM = false) : (Double.finite 0).lt (.finite q) = true := by
  rw [b64_SMALL_NUM_eq] at h3
  have hS : (0 : ℚ) < 3022314549036573 / 2 ^ 78 := by norm_num
  cases X with
  | finite x =>
    simp only [Double.lt, Double.abs, Double.isNaN, Double.isInf, Double.toRat, Bool.or_self,
      Bool.false_eq_true, if_false, decide_eq_false_iff_not, not_lt, decide_eq_true_eq]
      at h1 h2 h3 ⊢
    rw [abs_of_nonneg h1] at h3
    linarith
  | negZero =>
    simp [Double.lt, Double.abs, Double.isNaN, Double.isInf, Double.toRat] at h3
  | infinite s =>
    cases s
    · simp [Double.lt, Double.isNaN, Double.isInf, Double.signBit] at h2
    · simp [Double.lt, Double.isNaN, Double.isInf, Double.signBit] at h1
  | nan => exact absurd hX (by decide)

/-- Every rounded result is a value of the binary64 format. -/
theorem ofRat_representable (neg : Bool) (q : ℚ) : (Double.ofRat neg q).representable = true := by
  unfold Double.ofRat
  split_ifs with h1 h2 h3
  · rfl
  · rfl
  · simp only [Double.representable, roundToBinary64_zero, decide_eq_true_eq, true_and]
    norm_num
  · simp only [Double.representable, roundToBinary64_idem, decide_eq_true_eq, true_and]
    exact not_le.mp h1

/-! ## Facts about the binary64 clipping stages -/

theorem b64_zero_lt_one : (Double.finite 0).lt (.finite 1) = true := by
  simp [Double.lt, Double.isNaN, Double.isInf, Double.toRat]

theorem b64_abs_zero_lt_SMALL_NUM :
    (Double.finite 0).abs.lt Binary64.SMALL_NUM = true := by
  rw [b64_SMALL_NUM_eq]
  simp [Double.lt, Double.abs, Double.isNaN, Double.isInf, Double.toRat]

/-- After lines 53-76 the denominator `sD` is positive, and `tD` is positive or it is `c`
with a numerator `tN` that is a number. -/
theorem b64_lineParameters_spec (a b c d e D : Double)
    (hb : b.isFinite = true) (he : e.isFinite = true) (hD : D.isNaN = false) :
    (Double.finite 0).lt (Binary64.lineParameters a b c d e D).sD = true ∧
    ((Double.finite 0).lt (Binary64.lineParameters a b c d e D).tD = true ∨
      ((Binary64.lineParameters a b c d e D).tD = c ∧
        (Binary64.lineParameters a b c d e D).tN.isNaN = false)) := by
  unfold Binary64.lineParameters
  dsimp only
  split_ifs with h1 h2 h3
  · exact ⟨b64_zero_lt_one, Or.inr ⟨rfl, isNaN_of_isFinite he⟩⟩
  · exact ⟨pos_of_not_lt_SMALL_NUM hD (by simpa using h1),
      Or.inr ⟨rfl, isNaN_of_isFinite he⟩⟩
  · exact ⟨pos_of_not_lt_SMALL_NUM hD (by simpa using h1),
      Or.inr ⟨rfl, add_isNaN_of_finite he hb⟩⟩
  · exact ⟨pos_of_not_lt_SMALL_NUM hD (by simpa using h1),
      Or.inl (pos_of_not_lt_SMALL_NUM hD (by simpa using h1))⟩

/-- After lines 78-101 a numerator that is not below `SMALL_NUM` in absolute value has a
positive denominator. -/
theorem b64_clipT_spec (a b d : Double) (r : Binary64.Ratios) (qa qc : ℚ)
    (ha : a = .finite qa) (hb : b.isFinite = true) (hd : d.isFinite = true)
    (hqc : 0 ≤ qc)
    (hsD : (Double.finite 0).lt r.sD = true)
    (ht : (Double.finite 0).lt r.tD = true ∨ (r.tD = .finite qc ∧ r.tN.isNaN = false)) :
    ((Binary64.clipT a b d r).sN.abs.lt Binary64.SMALL_NUM = false →
        (Double.finite 0).lt (Binary64.clipT a b d r).sD = true) ∧
    ((Binary64.clipT a b d r).tN.abs.lt Binary64.SMALL_NUM = false →
        (Double.finite 0).lt (Binary64.clipT a b d r).tD = true) := by
  have hz := b64_abs_zero_lt_SMALL_NUM
  have hdn : d.neg.isNaN = false := isNaN_of_isFinite (neg_isFinite hd)
  have hdb : (d.neg.add b).isNaN = false := add_isNaN_of_finite (neg_isFinite hd) hb
  have htD : r.tD.abs.lt Binary64.SMALL_NUM = false → (Double.finite 0).lt r.tD = true := by
    intro h
    rcases ht with ht | ⟨ht, _⟩
    · exact ht
    · rw [ht] at h ⊢
      rw [b64_SMALL_NUM_eq] at h
      simp only [Double.lt, Double.abs, Double.isNaN, Double.isInf, Double.toRat, Bool.or_self,
        Bool.false_eq_true, if_false, decide_eq_false_iff_not, not_lt, decide_eq_true_eq] at h ⊢
      rw [abs_of_nonneg hqc] at h
      have : (0 : ℚ) < 3022314549036573 / 2 ^ 78 := by norm_num
      linarith
  subst ha
  unfold Binary64.clipT
  dsimp only
  split_ifs with h1 h2 h3 h4 h5 h6
  · refine ⟨fun h => ?_, fun h => ?_⟩
    · rw [hz] at h
      exact absurd h (by decide)
    · rw [hz] at h
      exact absurd h (by decide)
  · refine ⟨fun _ => hsD, fun h => ?_⟩
    rw [hz] at h
    exact absurd h (by decide)
  · refine ⟨fun h => ?_, fun h => ?_⟩
    · exact pos_of_between hdn (by simpa using h2) (by simpa using h3) h
    · rw [hz] at h
      exact absurd h (by decide)
  · refine ⟨fun h => ?_, fun h => htD h⟩
    rw [hz] at h
    exact absurd h (by decide)
  · exact ⟨fun _ => hsD, fun h => htD h⟩
  · exact ⟨fun h => pos_of_between hdb (by simpa using h5) (by simpa using h6) h,
      fun h => htD h⟩
  · refine ⟨fun _ => hsD, fun h => ?_⟩
    rcases ht with ht | ⟨ht, hn⟩
    · exact ht
    · rw [ht] at h4 ⊢
      exact pos_of_between hn (by simpa using h1) (by simpa using h4) h

/-! ## Facts about zero-length segments in binary64 arithmetic -/

theorem isZero_iff (x : Double) : x.isZero = true ↔ x = .finite 0 ∨ x = .negZero := by
  cases x with
  | finite q => simp [Double.isZero, Double.isFinite, Double.toRat]
  | negZero => simp [Double.isZero, Double.isFinite, Double.toRat]
  | infinite s => simp [Double.isZero, Double.isFinite]
  | nan => simp [Double.isZero, Double.isFinite]

theorem b64_sub_self {x : Double} (hx : x.isFinite = true) : x.sub x = .finite 0 := by
  cases x with
  | finite q =>
    by_cases c : q = 0
    · subst c
      simp [Double.sub, Double.neg, Double.add, Double.isNaN, Double.isInf, Double.toRat,
        Double.signBit]
    · simp [Double.sub, Double.neg, Double.add, Double.isNaN, Double.isInf, Double.toRat,
        Double.signBit, c]
      intro h1
      linarith
  | negZero =>
    simp [Double.sub, Double.neg, Double.add, Double.isNaN, Double.isInf, Double.toRat,
      Double.signBit]
  | infinite s => simp [Double.isFinite] at hx
  | nan => simp [Double.isFinite] at hx

theorem b64_mul_zero_zero : (Double.finite 0).mul (.finite 0) = .finite 0 := by
  simp [Double.mul, Double.isNaN, Double.isInf, Double.toRat, Double.signBit, ofRat_zero]

theorem b64_add_zero_zero : (Double.finite 0).add (.finite 0) = .finite 0 := by
  simp [Double.add, Double.isNaN, Double.isInf, Double.toRat, Double.signBit]

theorem b64_sub_zero_zero : (Double.finite 0).sub (.finite 0) = .finite 0 :=
  b64_sub_self rfl

theorem b64_Dot_zero_zero :
    Binary64.Dot ⟨.finite 0, .finite 0, .finite 0⟩ ⟨.finite 0, .finite 0, .finite 0⟩
      = .finite 0 := by
  simp only [Binary64.Dot, b64_mul_zero_zero, b64_add_zero_zero]

theorem b64_zero_mul_isZero {w : Double} (hw : w.isFinite = true) :
    ((Double.finite 0).mul w).isZero = true := by
  cases w with
  | finite q =>
    by_cases c : q < 0
    · simp [Double.mul, Double.isNaN, Double.isInf, Double.toRat, Double.signBit, ofRat_zero, c,
        Double.isZero, Double.isFinite]
    · simp [Double.mul, Double.isNaN, Double.isInf, Double.toRat, Double.signBit, ofRat_zero, c,
        Double.isZero, Double.isFinite]
  | negZero =>
    simp [Double.mul, Double.isNaN, Double.isInf, Double.toRat, Double.signBit, ofRat_zero,
      Double.isZero, Double.isFinite]
  | infinite s => simp [Double.isFinite] at hw
  | nan => simp [Double.isFinite] at hw

theorem b64_add_isZero {x y : Double} (hx : x.isZero = true) (hy : y.isZero = true) :
    (x.add y).isZero = true := by
  rw [isZero_iff] at hx hy
  rcases hx with rfl | rfl <;> rcases hy with rfl | rfl <;>
    simp [Double.add, Double.isNaN, Double.isInf, Double.toRat, Double.signBit, Double.isZero,
      Double.isFinite]

theorem b64_Dot_zero_isZero {w : Binary64.Vector3} (hw : w.isFinite = true) :
    (Binary64.Dot ⟨.finite 0, .finite 0, .finite 0⟩ w).isZero = true := by
  simp only [Binary64.Vector3.isFinite, Bool.and_eq_true] at hw
  obtain ⟨⟨h1, h2⟩, h3⟩ := hw
  exact b64_add_isZero (b64_add_isZero (b64_zero_mul_isZero h1) (b64_zero_mul_isZero h2))
    (b64_zero_mul_isZero h3)

/-- A zero is neither below nor above `+0.0`, and the quotient expression of lines 103-104
with a zero numerator is `0.0`. -/
theorem b64_isZero_facts {e : Double} (he : e.isZero = true) (Dn : Double) :
    e.lt (.finite 0) = false ∧ (Double.finite 0).lt e = false ∧
      Binary64.quotient e Dn = .finite 0 := by
  rw [isZero_iff] at he
  have hz := b64_abs_zero_lt_SMALL_NUM
  rcases he with rfl | rfl
  · refine ⟨?_, ?_, ?_⟩
    · simp [Double.lt, Double.isNaN, Double.isInf, Double.toRat]
    · simp [Double.lt, Double.isNaN, Double.isInf, Double.toRat]
    · unfold Binary64.quotient
      rw [if_pos hz]
  · refine ⟨?_, ?_, ?_⟩
    · simp [Double.lt, Double.isNaN, Double.isInf, Double.toRat]
    · simp [Double.lt, Double.isNaN, Double.isInf, Double.toRat]
    · unfold Binary64.quotient
      rw [if_pos (by simpa [Double.abs] using hz)]

theorem b64_zero_lt_SMALL_NUM : (Double.finite 0).lt Binary64.SMALL_NUM = true := by
  rw [b64_SMALL_NUM_eq]
  simp [Double.lt, Double.isNaN, Double.isInf, Double.toRat]

theorem b64_one_sub_zero : (Double.finite 1).sub (.finite 0) = .finite 1 := by
  have e : Double.ofRat false 1 = .finite 1 := by
    rw [ofRat_of_ne_zero, roundToBinary64_one]
    · rw [roundToBinary64_one]
      norm_num
    · rw [roundToBinary64_one]
      norm_num
  have h10 : ¬ (1 : ℚ) < 0 := by norm_num
  simp [Double.sub, Double.neg, Double.add, Double.isNaN, Double.isInf, Double.toRat,
    Double.signBit, e, h10]

/-- For a finite value `x` of the format, `1.0 * x + 0.0 * x` is `x`, the sign of a zero
included. -/
theorem b64_lerp_zero {x : Double} (hf : x.isFinite = true) (hr : x.representable = true) :
    ((Double.finite 1).mul x).add ((Double.finite 0).mul x) = x := by
  have h10 : ¬ (1 : ℚ) < 0 := by norm_num
  cases x with
  | finite q =>
    simp only [Double.representable, decide_eq_true_eq] at hr
    obtain ⟨hr1, hr2⟩ := hr
    by_cases c : q = 0
    · subst c
      simp [Double.mul, Double.add, Double.isNaN, Double.isInf, Double.toRat, Double.signBit,
        ofRat_zero, h10]
    · have hr1' : roundToBinary64 q ≠ 0 := by rw [hr1]; exact c
      have hr2' : |roundToBinary64 q| < 2 ^ 1024 := by rw [hr1]; exact hr2
      have e1 : ∀ n, Double.ofRat n q = .finite q := by
        intro n
        rw [ofRat_of_ne_zero n q hr2' hr1', hr1]
      by_cases c2 : q < 0
      · simp [Double.mul, Double.add, Double.isNaN, Double.isInf, Double.toRat, Double.signBit,
          ofRat_zero, e1, c, c2, h10]
      · simp [Double.mul, Double.add, Double.isNaN, Double.isInf, Double.toRat, Double.signBit,
          ofRat_zero, e1, c, c2, h10]
  | negZero =>
    simp [Double.mul, Double.add, Double.isNaN, Double.isInf, Double.toRat, Double.signBit,
      ofRat_zero, h10]
  | infinite s => simp [Double.isFinite] at hf
  | nan => simp [Double.isFinite] at hf

theorem b64_segment_at_zero {P : Binary64.Vector3} (hf : P.isFinite = true)
    (hr : P.representable = true) :
    (Binary64.Vector3.smul ((Double.finite 1).sub (.finite 0)) P).add
      (Binary64.Vector3.smul (.finite 0) P) = P := by
  simp only [Binary64.Vector3.isFinite, Binary64.Vector3.representable, Bool.and_eq_true]
    at hf hr
  obtain ⟨⟨f1, f2⟩, f3⟩ := hf
  obtain ⟨⟨r1, r2⟩, r3⟩ := hr
  rw [b64_one_sub_zero]
  simp only [Binary64.Vector3.smul, Binary64.Vector3.add, b64_lerp_zero f1 r1,
    b64_lerp_zero f2 r2, b64_lerp_zero f3 r3]

theorem b64_vector_sub_self {P : Binary64.Vector3} (hf : P.isFinite = true) :
    P.sub P = ⟨.finite 0, .finite 0, .finite 0⟩ := by
  simp only [Binary64.Vector3.isFinite, Bool.and_eq_true] at hf
  obtain ⟨⟨f1, f2⟩, f3⟩ := hf
  simp only [Binary64.Vector3.sub, b64_sub_self f1, b64_sub_self f2, b64_sub_self f3]

/-- The values `sN, sD, tN, tD` for two finite points whose difference is finite. -/
theorem b64_ratios_two_points {P0 Q0 : Binary64.Vector3} (hP : P0.isFinite = true)
    (hQ : Q0.isFinite = true) (hw : (P0.sub Q0).isFinite = true) :
    ∃ e : Double, e.isZero = true ∧
      Binary64.ratios P0 P0 Q0 Q0 = ⟨.finite 0, .finite 1, e, .finite 0⟩ := by
  refine ⟨Binary64.Dot ⟨.finite 0, .finite 0, .finite 0⟩ (P0.sub Q0),
    b64_Dot_zero_isZero hw, ?_⟩
  have he := b64_isZero_facts (b64_Dot_zero_isZero hw) (.finite 0)
  unfold Binary64.ratios Binary64.coefficients
  simp only [b64_vector_sub_self hP, b64_vector_sub_self hQ, b64_Dot_zero_zero,
    b64_mul_zero_zero, b64_sub_zero_zero]
  unfold Binary64.lineParameters
  simp only [b64_zero_lt_SMALL_NUM, if_true]
  unfold Binary64.clipT
  simp only [he.1, he.2.1, Bool.false_eq_true, if_false]

/-! ## Facts about concrete binary64 evaluations -/

/-- A value `m * 2^(k-52)` between `2^k` and `2^(k+1)` below the overflow threshold is
returned unchanged. -/
theorem ofRat_exact (neg : Bool) (q : ℚ) (k m : ℤ) (h1 : 2 ^ k ≤ |q|) (h2 : |q| < 2 ^ (k + 1))
    (hq : q = m * 2 ^ (max k (-1022) - 52)) (hlt : |q| < 2 ^ 1024) :
    Double.ofRat neg q = .finite q := by
  have e := roundToBinary64_exact q k m h1 h2 hq
  have h0 : q ≠ 0 := by
    intro h
    rw [h, abs_zero] at h1
    exact absurd h1 (not_le.mpr (two_zpow_pos k))
  rw [ofRat_of_ne_zero neg q (by rw [e]; exact hlt) (by rw [e]; exact h0), e]

theorem roundToBinary64_huge : roundToBinary64 (2 ^ 1023) = 2 ^ 1023 := by
  apply roundToBinary64_exact (2 ^ 1023) 1023 (2 ^ 52)
  · norm_num
  · norm_num
  · norm_num

theorem roundToBinary64_overflow : roundToBinary64 (2 ^ 1024) = 2 ^ 1024 := by
  apply roundToBinary64_exact (2 ^ 1024) 1024 (2 ^ 52)
  · norm_num
  · norm_num
  · norm_num

/-- The difference `B - (-B)` for a positive `B` is the rounding of `B + B`. -/
theorem b64_sub_neg_self {B : ℚ} (hB : 0 < B) :
    (Double.finite B).sub (.finite (-B)) = Double.ofRat false (B + B) := by
  have h1 : ¬ (B = 0) := ne_of_gt hB
  have h3 : ¬ (B + B = 0) := by linarith
  have h4 : ¬ (B + B < 0) := by linarith
  simp only [Double.sub, Double.neg, neg_eq_zero, h1, if_false, neg_neg, Double.add,
    Double.isNaN, Double.isInf, Double.toRat, h3, h4, Bool.or_self, Bool.and_self,
    Bool.false_eq_true, decide_False]

theorem b64_huge_sub :
    (Double.finite (2 ^ 1023)).sub (.finite (-(2 ^ 1023))) = .infinite false := by
  have h2 : (2 : ℚ) ^ 1023 + 2 ^ 1023 = 2 ^ 1024 := by norm_num
  rw [b64_sub_neg_self (by norm_num), h2]
  apply ofRat_overflow
  rw [roundToBinary64_overflow]
  norm_num

theorem b64_hugePoint_finite :
    Binary64.hugePoint.isFinite = true ∧ Binary64.hugePoint.representable = true ∧
    Binary64.hugePointNeg.isFinite = true ∧ Binary64.hugePointNeg.representable = true := by
  have h0 : (|(0 : ℚ)| : ℚ) < 2 ^ 1024 := by norm_num
  have h1 : (|(2 : ℚ) ^ 1023| : ℚ) < 2 ^ 1024 := by
    rw [abs_of_pos (by norm_num)]
    norm_num
  have h2 : roundToBinary64 (-(2 ^ 1023)) = -(2 ^ 1023) := by
    rw [roundToBinary64_neg, roundToBinary64_huge]
  refine ⟨rfl, ?_, rfl, ?_⟩
  · simp only [Binary64.hugePoint, Binary64.Vector3.representable, Double.representable,
      roundToBinary64_huge, roundToBinary64_zero, h0, h1, and_self, decide_True, Bool.and_self]
  · simp only [Binary64.hugePointNeg, Binary64.Vector3.representable, Double.representable,
      h2, roundToBinary64_zero, h0, h1, abs_neg, and_self, decide_True, Bool.and_self]

/-- The values `sN, sD, tN, tD` for two finite points whose difference overflows in the
first coordinate: `tN` is NaN and `tD` is zero. -/
theorem b64_ratios_of_overflow {P Q : Binary64.Vector3} (hP : P.isFinite = true)
    (hQ : Q.isFinite = true)
    (hw : P.sub Q = ⟨.infinite false, .finite 0, .finite 0⟩) :
    Binary64.ratios P P Q Q = ⟨.finite 0, .finite 1, .nan, .finite 0⟩ := by
  have hd : Binary64.Dot ⟨.finite 0, .finite 0, .finite 0⟩
      ⟨.infinite false, .finite 0, .finite 0⟩ = .nan := by
    simp [Binary64.Dot, Double.mul, Double.add, Double.isNaN, Double.isInf, Double.isZero,
      Double.isFinite, Double.toRat]
  unfold Binary64.ratios Binary64.coefficients
  simp only [b64_vector_sub_self hP, b64_vector_sub_self hQ, hw, hd, b64_Dot_zero_zero,
    b64_mul_zero_zero, b64_sub_zero_zero]
  unfold Binary64.lineParameters
  simp only [b64_zero_lt_SMALL_NUM, if_true]
  unfold Binary64.clipT
  simp [Double.lt, Double.isNaN]

theorem b64_nan_lt (y : Double) : Double.nan.lt y = false := by
  simp [Double.lt, Double.isNaN]

theorem b64_nan_div (y : Double) : Double.nan.div y = .nan := by
  simp [Double.div, Double.isNaN]

theorem b64_quotient_nan (Dn : Double) : Binary64.quotient .nan Dn = .nan := by
  unfold Binary64.quotient
  have e : Double.nan.abs = .nan := rfl
  rw [e, b64_nan_lt, b64_nan_div]
  simp

/-- The outputs when `tN` is NaN and `sN` is zero: `t`, `closest[1]` and `sqrDistance`
are NaN. -/
theorem b64_eval_of_nan_ratios {P Q : Binary64.Vector3} (hP : P.isFinite = true)
    (hPr : P.representable = true)
    (hr : Binary64.ratios P P Q Q = ⟨.finite 0, .finite 1, .nan, .finite 0⟩) :
    Binary64.dist3D_Segment_to_Segment P P Q Q
      = { sqrDistance := .nan, s := .finite 0, t := .nan, closest0 := P,
          closest1 := ⟨.nan, .nan, .nan⟩ } := by
  have hs : Binary64.quotient (.finite 0) (.finite 1) = .finite 0 :=
    (b64_isZero_facts ((isZero_iff (.finite 0)).mpr (Or.inl rfl)) (.finite 1)).2.2
  have ht : Binary64.quotient .nan (.finite 0) = .nan := b64_quotient_nan _
  have hn : (Double.finite 1).sub .nan = .nan := by
    simp [Double.sub, Double.neg, Double.add, Double.isNaN]
  have hm : ∀ x, Double.nan.mul x = .nan := by
    intro x
    simp [Double.mul, Double.isNaN]
  have ha : Double.nan.add .nan = .nan := by
    simp [Double.add, Double.isNaN]
  have hx : ∀ x : Double, x.sub .nan = .nan := by
    intro x
    simp [Double.sub, Double.neg, Double.add, Double.isNaN]
  have hd : Binary64.Dot ⟨.nan, .nan, .nan⟩ ⟨.nan, .nan, .nan⟩ = .nan := by
    simp only [Binary64.Dot, hm, ha]
  have hc1 : (Binary64.Vector3.smul ((Double.finite 1).sub .nan) Q).add
      (Binary64.Vector3.smul .nan Q) = ⟨.nan, .nan, .nan⟩ := by
    simp only [Binary64.Vector3.smul, Binary64.Vector3.add, hn, hm, ha]
  have hdiff : P.sub ⟨.nan, .nan, .nan⟩ = ⟨.nan, .nan, .nan⟩ := by
    simp only [Binary64.Vector3.sub, hx]
  unfold Binary64.dist3D_Segment_to_Segment
  rw [hr]
  simp only [hs, ht]
  unfold Binary64.output
  simp only [b64_segment_at_zero hP hPr, hc1, hdiff, hd]

theorem b64_overflow_example_eval :
    Binary64.dist3D_Segment_to_Segment Binary64.hugePoint Binary64.hugePoint
        Binary64.hugePointNeg Binary64.hugePointNeg
      = { sqrDistance := .nan, s := .finite 0, t := .nan, closest0 := Binary64.hugePoint,
          closest1 := ⟨.nan, .nan, .nan⟩ } := by
  have hw : Binary64.hugePoint.sub Binary64.hugePointNeg
      = ⟨.infinite false, .finite 0, .finite 0⟩ := by
    simp only [Binary64.hugePoint, Binary64.hugePointNeg, Binary64.Vector3.sub, b64_huge_sub,
      b64_sub_zero_zero]
  exact b64_eval_of_nan_ratios b64_hugePoint_finite.1 b64_hugePoint_finite.2.1
    (b64_ratios_of_overflow b64_hugePoint_finite.1 b64_hugePoint_finite.2.2.1 hw)

theorem b64_mul_finite (p q : ℚ) :
    (Double.finite p).mul (.finite q)
      = Double.ofRat (xor (decide (p < 0)) (decide (q < 0))) (p * q) := by
  simp [Double.mul, Double.isNaN, Double.isInf, Double.toRat, Double.signBit]

theorem b64_add_finite (p q : ℚ) :
    (Double.finite p).add (.finite q)
      = if p + q = 0 then (if p < 0 ∧ q < 0 then .negZero else .finite 0)
        else Double.ofRat (decide (p + q < 0)) (p + q) := by
  simp [Double.add, Double.isNaN, Double.isInf, Double.toRat, Double.signBit]

theorem b64_neg_finite (q : ℚ) :
    (Double.finite q).neg = if q = 0 then .negZero else .finite (-q) := rfl

theorem b64_neg_negZero : Double.negZero.neg = .finite 0 := rfl

theorem b64_add_finite_negZero (p : ℚ) :
    (Double.finite p).add .negZero
      = if p = 0 then .finite 0 else Double.ofRat (decide (p < 0)) p := by
  by_cases c : p = 0
  · subst c
    simp [Double.add, Double.isNaN, Double.isInf, Double.toRat, Double.signBit]
  · simp [Double.add, Double.isNaN, Double.isInf, Double.toRat, Double.signBit, c]

theorem b64_add_negZero_finite (p : ℚ) :
    Double.negZero.add (.finite p)
      = if p = 0 then .finite 0 else Double.ofRat (decide (p < 0)) p := by
  by_cases c : p = 0
  · subst c
    simp [Double.add, Double.isNaN, Double.isInf, Double.toRat, Double.signBit]
  · simp [Double.add, Double.isNaN, Double.isInf, Double.toRat, Double.signBit, c]

theorem b64_mul_finite_negZero (p : ℚ) :
    (Double.finite p).mul .negZero = if p < 0 then .finite 0 else .negZero := by
  by_cases c : p < 0
  · simp [Double.mul, Double.isNaN, Double.isInf, Double.toRat, Double.signBit, ofRat_zero, c]
  · simp [Double.mul, Double.isNaN, Double.isInf, Double.toRat, Double.signBit, ofRat_zero, c]

theorem b64_mul_negZero_finite (p : ℚ) :
    Double.negZero.mul (.finite p) = if p < 0 then .finite 0 else .negZero := by
  by_cases c : p < 0
  · simp [Double.mul, Double.isNaN, Double.isInf, Double.toRat, Double.signBit, ofRat_zero, c]
  · simp [Double.mul, Double.isNaN, Double.isInf, Double.toRat, Double.signBit, ofRat_zero, c]

theorem b64_lt_finite (p q : ℚ) : (Double.finite p).lt (.finite q) = decide (p < q) := by
  simp [Double.lt, Double.isNaN, Double.isInf, Double.toRat]

theorem ofRat_one (neg : Bool) : Double.ofRat neg 1 = .finite 1 :=
  ofRat_exact neg 1 0 (2 ^ 52) (by norm_num) (by norm_num) (by norm_num) (by norm_num)

theorem ofRat_neg_one (neg : Bool) : Double.ofRat neg (-1) = .finite (-1) :=
  ofRat_exact neg (-1) 0 (-(2 ^ 52)) (by norm_num) (by norm_num) (by norm_num) (by norm_num)

/-- The coefficients for `P = [(0,0,0),(1,0,0)]`, `Q = [(1,0,0),(1,1,0)]`. -/
theorem b64_corner_coefficients :
    Binary64.coefficients ⟨.finite 0, .finite 0, .finite 0⟩ ⟨.finite 1, .finite 0, .finite 0⟩
        ⟨.finite 1, .finite 0, .finite 0⟩ ⟨.finite 1, .finite 1, .finite 0⟩
      = { a := .finite 1, b := .finite 0, c := .finite 1, d := .finite (-1), e := .finite 0,
          D := .finite 1 } := by
  norm_num [Binary64.coefficients, Binary64.Dot, Binary64.Vector3.sub, Double.sub,
    b64_mul_finite, b64_add_finite, b64_neg_finite, b64_add_finite_negZero,
    b64_add_negZero_finite, b64_mul_finite_negZero, b64_mul_negZero_finite, ofRat_one,
    ofRat_neg_one, ofRat_zero]

theorem b64_corner_ratios :
    Binary64.ratios ⟨.finite 0, .finite 0, .finite 0⟩ ⟨.finite 1, .finite 0, .finite 0⟩
        ⟨.finite 1, .finite 0, .finite 0⟩ ⟨.finite 1, .finite 1, .finite 0⟩
      = ⟨.finite 1, .finite 1, .finite 0, .finite 1⟩ := by
  have h1 : (Double.finite 1).lt Binary64.SMALL_NUM = false := by
    rw [b64_SMALL_NUM_eq, b64_lt_finite]
    norm_num
  have e1 : ((Double.finite 0).mul (.finite 0)).sub ((Double.finite 1).mul (.finite (-1)))
      = .finite 1 := by
    norm_num [Double.sub, b64_mul_finite, b64_add_finite, b64_neg_finite, ofRat_one,
      ofRat_neg_one, ofRat_zero]
  have e2 : ((Double.finite 1).mul (.finite 0)).sub ((Double.finite 0).mul (.finite (-1)))
      = .finite 0 := by
    norm_num [Double.sub, b64_mul_finite, b64_add_finite, b64_neg_finite, ofRat_one,
      ofRat_neg_one, ofRat_zero, b64_neg_negZero]
  have h2 : (Double.finite 1).lt (.finite 0) = false := by
    rw [b64_lt_finite]
    norm_num
  have h3 : (Double.finite 1).lt (.finite 1) = false := by
    rw [b64_lt_finite]
    norm_num
  have h4 : (Double.finite 0).lt (.finite 0) = false := by
    rw [b64_lt_finite]
    norm_num
  unfold Binary64.ratios
  rw [b64_corner_coefficients]
  unfold Binary64.lineParameters
  simp only [h1, e1, e2, h2, h3, Bool.false_eq_true, if_false]
  unfold Binary64.clipT
  simp only [h2, h4, Bool.false_eq_true, if_false]

theorem b64_one_abs_not_lt_SMALL_NUM :
    (Double.finite 1).abs.lt Binary64.SMALL_NUM = false := by
  rw [b64_SMALL_NUM_eq]
  have e : (Double.finite 1).abs = .finite 1 := by
    simp [Double.abs]
  rw [e, b64_lt_finite]
  norm_num

theorem b64_representable_one : (Double.finite 1).representable = true := by
  simp only [Double.representable, roundToBinary64_one, decide_eq_true_eq, true_and]
  norm_num

theorem b64_representable_zero : (Double.finite 0).representable = true := by
  simp only [Double.representable, roundToBinary64_zero, decide_eq_true_eq, true_and]
  norm_num

/-! ## Facts about the binary64 operations on finite values -/

/-- C1: for every four points `dist3D_Segment_to_Segment` returns, and the returned
parameters satisfy `0 ≤ s ≤ 1` and `0 ≤ t ≤ 1`, the returned closest points being the
points of the two segments at these parameters. -/
theorem C1_parameters_in_unit_interval (P0 P1 Q0 Q1 : Vector3) :
    ∃ r, dist3D_Segment_to_Segment P0 P1 Q0 Q1 = some r ∧
      0 ≤ r.s ∧ r.s ≤ 1 ∧ 0 ≤ r.t ∧ r.t ≤ 1 ∧
      r.closest0 = (Vector3.smul (1 - r.s) P0).add (Vector3.smul r.s P1) ∧
      r.closest1 = (Vector3.smul (1 - r.t) Q0).add (Vector3.smul r.t Q1) := by
  obtain ⟨sc, tc, h, hs0, hs1, ht0, ht1⟩ := dist3D_returns P0 P1 Q0 Q1
  exact ⟨_, h, hs0, hs1, ht0, ht1, rfl, rfl⟩

/-- C2: at the segments `P = [(0,0,0),(1,0,0)]`, `Q = [(-1/2,-3/262144,0),(3/2,1/262144,0)]`,
both of positive length, `dist3D_Segment_to_Segment` returns the squared distance
`1/17179869185`, although the points at `s = 1`, `t = 3/4` are at squared distance `0`:
the returned value is not the minimum over the unit square. -/
theorem C2_returned_distance_not_minimal :
    0 < Dot (Vector3.sub ⟨1, 0, 0⟩ ⟨0, 0, 0⟩) (Vector3.sub ⟨1, 0, 0⟩ ⟨0, 0, 0⟩) ∧
    0 < Dot (Vector3.sub ⟨3/2, 1/262144, 0⟩ ⟨-1/2, -3/262144, 0⟩)
          (Vector3.sub ⟨3/2, 1/262144, 0⟩ ⟨-1/2, -3/262144, 0⟩) ∧
    (dist3D_Segment_to_Segment ⟨0, 0, 0⟩ ⟨1, 0, 0⟩ ⟨-1/2, -3/262144, 0⟩
        ⟨3/2, 1/262144, 0⟩).map Result.sqrDistance = some (1/17179869185) ∧
    sqrDistanceAt ⟨0, 0, 0⟩ ⟨1, 0, 0⟩ ⟨-1/2, -3/262144, 0⟩ ⟨3/2, 1/262144, 0⟩ 1 (3/4) = 0 ∧
    sqrDistanceAt ⟨0, 0, 0⟩ ⟨1, 0, 0⟩ ⟨-1/2, -3/262144, 0⟩ ⟨3/2, 1/262144, 0⟩ 1 (3/4)
      < 1/17179869185 := by
  refine ⟨?_, ?_, ?_, ?_, ?_⟩
  · norm_num [Dot, Vector3.sub]
  · norm_num [Dot, Vector3.sub]
  · rw [crossing_example_eval]
    rfl
  · norm_num [sqrDistanceAt, segmentPoint, Dot, Vector3.sub, Vector3.add, Vector3.smul]
  · norm_num [sqrDistanceAt, segmentPoint, Dot, Vector3.sub, Vector3.add, Vector3.smul]

/-- C3: for `P = [(0,0,0),(1,0,0)]` and `Q = [(1,131073/131072,0),(0,1,0)]` the call
`dist3D_Segment_to_Segment(P0,P1,Q0,Q1)` returns the squared distance `1` and the call
with the segments swapped returns `17180131329/17179869184`: the two differ. -/
theorem C3_swapped_distance_differs :
    (dist3D_Segment_to_Segment ⟨0, 0, 0⟩ ⟨1, 0, 0⟩ ⟨1, 131073/131072, 0⟩
        ⟨0, 1, 0⟩).map Result.sqrDistance = some 1 ∧
    (dist3D_Segment_to_Segment ⟨1, 131073/131072, 0⟩ ⟨0, 1, 0⟩ ⟨0, 0, 0⟩
        ⟨1, 0, 0⟩).map Result.sqrDistance = some (17180131329/17179869184) ∧
    (dist3D_Segment_to_Segment ⟨0, 0, 0⟩ ⟨1, 0, 0⟩ ⟨1, 131073/131072, 0⟩
        ⟨0, 1, 0⟩).map Result.sqrDistance ≠
    (dist3D_Segment_to_Segment ⟨1, 131073/131072, 0⟩ ⟨0, 1, 0⟩ ⟨0, 0, 0⟩
        ⟨1, 0, 0⟩).map Result.sqrDistance := by
  rw [opposite_example_eval, opposite_example_swapped_eval]
  simp only [Option.map_some', ne_eq, Option.some.injEq, true_and]
  norm_num

/-- C4: the segments `P = [(0,0,0),(1,0,0)]` and `Q = [(-1/2,-3/262144,0),(3/2,1/262144,0)]`
share the point `(1,0,0)` (at `s = 1`, `t = 3/4`), yet `dist3D_Segment_to_Segment`
returns a squared distance different from `0` and two different closest points. -/
theorem C4_common_point_not_found :
    segmentPoint ⟨0, 0, 0⟩ ⟨1, 0, 0⟩ 1
      = segmentPoint ⟨-1/2, -3/262144, 0⟩ ⟨3/2, 1/262144, 0⟩ (3/4) ∧
    ∃ r, dist3D_Segment_to_Segment ⟨0, 0, 0⟩ ⟨1, 0, 0⟩ ⟨-1/2, -3/262144, 0⟩
        ⟨3/2, 1/262144, 0⟩ = some r ∧
      r.sqrDistance ≠ 0 ∧ r.closest0 ≠ r.closest1 := by
  refine ⟨?_, _, crossing_example_eval, ?_, ?_⟩
  · simp only [segmentPoint, Vector3.add, Vector3.smul, Vector3.mk.injEq]
    norm_num
  · norm_num
  · simp only [ne_eq, Vector3.mk.injEq]
    norm_num

/-- C5 (counterexample): for the finite doubles `P0 = P1 = (2^1023, 0, 0)` and
`Q0 = Q1 = (-2^1023, 0, 0)` the difference `P0 - Q0` overflows and `e` is NaN; at line 104
the test `abs(tN) < SMALL_NUM` is false, so `tN / tD` is evaluated, with the denominator
`tD = 0.0`, which is not strictly positive; the returned `t` is NaN. -/
theorem C5_nan_divided_by_zero :
    (Binary64.hugePoint.isFinite = true ∧ Binary64.hugePoint.representable = true ∧
      Binary64.hugePointNeg.isFinite = true ∧ Binary64.hugePointNeg.representable = true) ∧
    (Binary64.ratios Binary64.hugePoint Binary64.hugePoint Binary64.hugePointNeg
        Binary64.hugePointNeg).tN.abs.lt Binary64.SMALL_NUM = false ∧
    (Binary64.ratios Binary64.hugePoint Binary64.hugePoint Binary64.hugePointNeg
        Binary64.hugePointNeg).tD = .finite 0 ∧
    (Double.finite 0).lt (Binary64.ratios Binary64.hugePoint Binary64.hugePoint
        Binary64.hugePointNeg Binary64.hugePointNeg).tD = false ∧
    (Binary64.dist3D_Segment_to_Segment Binary64.hugePoint Binary64.hugePoint
        Binary64.hugePointNeg Binary64.hugePointNeg).t = .nan := by
  have hw : Binary64.hugePoint.sub Binary64.hugePointNeg
      = ⟨.infinite false, .finite 0, .finite 0⟩ := by
    simp only [Binary64.hugePoint, Binary64.hugePointNeg, Binary64.Vector3.sub, b64_huge_sub,
      b64_sub_zero_zero]
  have hr := b64_ratios_of_overflow b64_hugePoint_finite.1 b64_hugePoint_finite.2.2.1 hw
  refine ⟨b64_hugePoint_finite, ?_, ?_, ?_, ?_⟩
  · rw [hr]
    exact b64_nan_lt _
  · rw [hr]
  · rw [hr]
    show (Double.finite 0).lt (.finite 0) = false
    rw [b64_lt_finite]
    norm_num
  · rw [b64_overflow_example_eval]

/-- C5 (as amended): for every input on which the dot products `a, b, c, d, e` are finite
and `D` is not NaN, when the quotient `sN / sD` (resp. `tN / tD`) of lines 103-104 is
evaluated, that is when `abs(sN) < SMALL_NUM` (resp. `abs(tN) < SMALL_NUM`) is false, its
denominator is strictly positive; `s` and `t` are the values of these two expressions. -/
theorem C5_denominators_positive (P0 P1 Q0 Q1 : Binary64.Vector3)
    (ha : (Binary64.coefficients P0 P1 Q0 Q1).a.isFinite = true)
    (hb : (Binary64.coefficients P0 P1 Q0 Q1).b.isFinite = true)
    (hc : (Binary64.coefficients P0 P1 Q0 Q1).c.isFinite = true)
    (hd : (Binary64.coefficients P0 P1 Q0 Q1).d.isFinite = true)
    (he : (Binary64.coefficients P0 P1 Q0 Q1).e.isFinite = true)
    (hD : (Binary64.coefficients P0 P1 Q0 Q1).D.isNaN = false) :
    ((Binary64.ratios P0 P1 Q0 Q1).sN.abs.lt Binary64.SMALL_NUM = false →
      (Double.finite 0).lt (Binary64.ratios P0 P1 Q0 Q1).sD = true) ∧
    ((Binary64.ratios P0 P1 Q0 Q1).tN.abs.lt Binary64.SMALL_NUM = false →
      (Double.finite 0).lt (Binary64.ratios P0 P1 Q0 Q1).tD = true) ∧
    (Binary64.dist3D_Segment_to_Segment P0 P1 Q0 Q1).s
      = Binary64.quotient (Binary64.ratios P0 P1 Q0 Q1).sN (Binary64.ratios P0 P1 Q0 Q1).sD ∧
    (Binary64.dist3D_Segment_to_Segment P0 P1 Q0 Q1).t
      = Binary64.quotient (Binary64.ratios P0 P1 Q0 Q1).tN (Binary64.ratios P0 P1 Q0 Q1).tD := by
  obtain ⟨qa, hqa, _⟩ := nonnegOrNaN_finite (Dot_self_nonnegOrNaN (P1.sub P0)) ha
  obtain ⟨qc, hqc, hqc0⟩ := nonnegOrNaN_finite (Dot_self_nonnegOrNaN (Q1.sub Q0)) hc
  obtain ⟨l1, l2⟩ := b64_lineParameters_spec (Binary64.coefficients P0 P1 Q0 Q1).a
    (Binary64.coefficients P0 P1 Q0 Q1).b (Binary64.coefficients P0 P1 Q0 Q1).c
    (Binary64.coefficients P0 P1 Q0 Q1).d (Binary64.coefficients P0 P1 Q0 Q1).e
    (Binary64.coefficients P0 P1 Q0 Q1).D hb he hD
  have l2' : (Double.finite 0).lt (Binary64.lineParameters (Binary64.coefficients P0 P1 Q0 Q1).a
        (Binary64.coefficients P0 P1 Q0 Q1).b (Binary64.coefficients P0 P1 Q0 Q1).c
        (Binary64.coefficients P0 P1 Q0 Q1).d (Binary64.coefficients P0 P1 Q0 Q1).e
        (Binary64.coefficients P0 P1 Q0 Q1).D).tD = true ∨
      ((Binary64.lineParameters (Binary64.coefficients P0 P1 Q0 Q1).a
        (Binary64.coefficients P0 P1 Q0 Q1).b (Binary64.coefficients P0 P1 Q0 Q1).c
        (Binary64.coefficients P0 P1 Q0 Q1).d (Binary64.coefficients P0 P1 Q0 Q1).e
        (Binary64.coefficients P0 P1 Q0 Q1).D).tD = .finite qc ∧
       (Binary64.lineParameters (Binary64.coefficients P0 P1 Q0 Q1).a
        (Binary64.coefficients P0 P1 Q0 Q1).b (Binary64.coefficients P0 P1 Q0 Q1).c
        (Binary64.coefficients P0 P1 Q0 Q1).d (Binary64.coefficients P0 P1 Q0 Q1).e
        (Binary64.coefficients P0 P1 Q0 Q1).D).tN.isNaN = false) := by
    rcases l2 with l2 | ⟨l2, l3⟩
    · exact Or.inl l2
    · exact Or.inr ⟨l2.trans hqc, l3⟩
  obtain ⟨r1, r2⟩ := b64_clipT_spec (Binary64.coefficients P0 P1 Q0 Q1).a
    (Binary64.coefficients P0 P1 Q0 Q1).b (Binary64.coefficients P0 P1 Q0 Q1).d _ qa qc
    hqa hb hd hqc0 l1 l2'
  exact ⟨r1, r2, rfl, rfl⟩

/-- Witness of C5: the segments `P = [(0,0,0),(1,0,0)]`, `Q = [(1,0,0),(1,1,0)]`, where
`a = 1, b = 0, c = 1, d = -1, e = 0, D = 1`, the quotient `sN / sD = 1 / 1` is evaluated
and its denominator is positive. -/
theorem C5_denominators_positive_witness :
    ((Binary64.coefficients ⟨.finite 0, .finite 0, .finite 0⟩ ⟨.finite 1, .finite 0, .finite 0⟩
        ⟨.finite 1, .finite 0, .finite 0⟩ ⟨.finite 1, .finite 1, .finite 0⟩).a.isFinite = true ∧
      (Binary64.coefficients ⟨.finite 0, .finite 0, .finite 0⟩ ⟨.finite 1, .finite 0, .finite 0⟩
        ⟨.finite 1, .finite 0, .finite 0⟩ ⟨.finite 1, .finite 1, .finite 0⟩).b.isFinite = true ∧
      (Binary64.coefficients ⟨.finite 0, .finite 0, .finite 0⟩ ⟨.finite 1, .finite 0, .finite 0⟩
        ⟨.finite 1, .finite 0, .finite 0⟩ ⟨.finite 1, .finite 1, .finite 0⟩).c.isFinite = true ∧
      (Binary64.coefficients ⟨.finite 0, .finite 0, .finite 0⟩ ⟨.finite 1, .finite 0, .finite 0⟩
        ⟨.finite 1, .finite 0, .finite 0⟩ ⟨.finite 1, .finite 1, .finite 0⟩).d.isFinite = true ∧
      (Binary64.coefficients ⟨.finite 0, .finite 0, .finite 0⟩ ⟨.finite 1, .finite 0, .finite 0⟩
        ⟨.finite 1, .finite 0, .finite 0⟩ ⟨.finite 1, .finite 1, .finite 0⟩).e.isFinite = true ∧
      (Binary64.coefficients ⟨.finite 0, .finite 0, .finite 0⟩ ⟨.finite 1, .finite 0, .finite 0⟩
        ⟨.finite 1, .finite 0, .finite 0⟩ ⟨.finite 1, .finite 1, .finite 0⟩).D.isNaN = false) ∧
    (Binary64.ratios ⟨.finite 0, .finite 0, .finite 0⟩ ⟨.finite 1, .finite 0, .finite 0⟩
        ⟨.finite 1, .finite 0, .finite 0⟩ ⟨.finite 1, .finite 1, .finite 0⟩).sN.abs.lt
        Binary64.SMALL_NUM = false ∧
    (Double.finite 0).lt (Binary64.ratios ⟨.finite 0, .finite 0, .finite 0⟩
        ⟨.finite 1, .finite 0, .finite 0⟩ ⟨.finite 1, .finite 0, .finite 0⟩
        ⟨.finite 1, .finite 1, .finite 0⟩).sD = true :=
  ⟨⟨by rw [b64_corner_coefficients]; rfl, by rw [b64_corner_coefficients]; rfl,
      by rw [b64_corner_coefficients]; rfl, by rw [b64_corner_coefficients]; rfl,
      by rw [b64_corner_coefficients]; rfl, by rw [b64_corner_coefficients]; rfl⟩,
    by rw [b64_corner_ratios]; exact b64_one_abs_not_lt_SMALL_NUM,
    (C5_denominators_positive ⟨.finite 0, .finite 0, .finite 0⟩ ⟨.finite 1, .finite 0, .finite 0⟩
      ⟨.finite 1, .finite 0, .finite 0⟩ ⟨.finite 1, .finite 1, .finite 0⟩
      (by rw [b64_corner_coefficients]; rfl) (by rw [b64_corner_coefficients]; rfl)
      (by rw [b64_corner_coefficients]; rfl) (by rw [b64_corner_coefficients]; rfl)
      (by rw [b64_corner_coefficients]; rfl) (by rw [b64_corner_coefficients]; rfl)).1
      (by rw [b64_corner_ratios]; exact b64_one_abs_not_lt_SMALL_NUM)⟩

/-- C6: there are two segments with `D = a*c - b*b < SMALL_NUM` for which
`dist3D_Segment_to_Segment` returns `s = 0`, while the minimum of the squared distance
over the unit square is attained at `s = 1` (at `t = 3/4`) and only at `s = 1`, and the
returned squared distance is strictly greater than that minimum. -/
theorem C6_near_parallel_wrong_closest_points :
    ∃ P0 P1 Q0 Q1 : Vector3, ∃ r : Result,
      Dot (P1.sub P0) (P1.sub P0) * Dot (Q1.sub Q0) (Q1.sub Q0)
        - Dot (P1.sub P0) (Q1.sub Q0) * Dot (P1.sub P0) (Q1.sub Q0) < SMALL_NUM ∧
      dist3D_Segment_to_Segment P0 P1 Q0 Q1 = some r ∧
      r.s = 0 ∧
      (∃ t', 0 ≤ t' ∧ t' ≤ 1 ∧
        (∀ s'' t'', 0 ≤ s'' → s'' ≤ 1 → 0 ≤ t'' → t'' ≤ 1 →
          sqrDistanceAt P0 P1 Q0 Q1 1 t' ≤ sqrDistanceAt P0 P1 Q0 Q1 s'' t'') ∧
        (∀ s'' t'', 0 ≤ s'' → s'' ≤ 1 → 0 ≤ t'' → t'' ≤ 1 →
          sqrDistanceAt P0 P1 Q0 Q1 s'' t'' ≤ sqrDistanceAt P0 P1 Q0 Q1 1 t' → s'' = 1) ∧
        sqrDistanceAt P0 P1 Q0 Q1 1 t' < r.sqrDistance ∧
        r.closest0 ≠ segmentPoint P0 P1 1) := by
  have hmin : sqrDistanceAt ⟨0, 0, 0⟩ ⟨1, 0, 0⟩ ⟨-1/2, -3/262144, 0⟩ ⟨3/2, 1/262144, 0⟩
      1 (3/4) = 0 := by
    norm_num [sqrDistanceAt, segmentPoint, Dot, Vector3.sub, Vector3.add, Vector3.smul]
  refine ⟨⟨0, 0, 0⟩, ⟨1, 0, 0⟩, ⟨-1/2, -3/262144, 0⟩, ⟨3/2, 1/262144, 0⟩, _, ?_,
    crossing_example_eval, rfl, 3/4, by norm_num, by norm_num, ?_, ?_, ?_, ?_⟩
  · norm_num [Dot, Vector3.sub, SMALL_NUM]
  · intro s'' t'' _ _ _ _
    rw [hmin]
    exact sqrDistanceAt_nonneg _ _ _ _ _ _
  · intro s'' t'' _ _ _ _ h
    rw [hmin] at h
    simp only [sqrDistanceAt, segmentPoint, Dot, Vector3.sub, Vector3.add, Vector3.smul] at h
    have hy : ((1 - s'') * 0 + s'' * 0 - ((1 - t'') * (-3/262144) + t'' * (1/262144))) = 0 := by
      nlinarith [mul_self_nonneg ((1 - s'') * 0 + s'' * 0 - ((1 - t'') * (-3/262144) + t'' * (1/262144))),
        mul_self_nonneg ((1 - s'') * 0 + s'' * 1 - ((1 - t'') * (-1/2) + t'' * (3/2))),
        mul_self_nonneg ((1 - s'') * 0 + s'' * 0 - ((1 - t'') * 0 + t'' * 0))]
    have hx : ((1 - s'') * 0 + s'' * 1 - ((1 - t'') * (-1/2) + t'' * (3/2))) = 0 := by
      nlinarith [mul_self_nonneg ((1 - s'') * 0 + s'' * 0 - ((1 - t'') * (-3/262144) + t'' * (1/262144))),
        mul_self_nonneg ((1 - s'') * 0 + s'' * 1 - ((1 - t'') * (-1/2) + t'' * (3/2))),
        mul_self_nonneg ((1 - s'') * 0 + s'' * 0 - ((1 - t'') * 0 + t'' * 0))]
    linarith
  · rw [hmin]
    norm_num
  · simp only [segmentPoint, Vector3.add, Vector3.smul, ne_eq, Vector3.mk.injEq]
    norm_num

/-- C7 (counterexample): for the finite doubles `P0 = P1 = (2^1023, 0, 0)` and
`Q0 = Q1 = (-2^1023, 0, 0)` the returned `sqrDistance` is NaN, and `sqrDistance >= 0` is
false. -/
theorem C7_sqrDistance_nan :
    (Binary64.hugePoint.isFinite = true ∧ Binary64.hugePoint.representable = true ∧
      Binary64.hugePointNeg.isFinite = true ∧ Binary64.hugePointNeg.representable = true) ∧
    (Binary64.dist3D_Segment_to_Segment Binary64.hugePoint Binary64.hugePoint
        Binary64.hugePointNeg Binary64.hugePointNeg).sqrDistance = .nan ∧
    (Double.finite 0).le (Binary64.dist3D_Segment_to_Segment Binary64.hugePoint
        Binary64.hugePoint Binary64.hugePointNeg Binary64.hugePointNeg).sqrDistance = false := by
  refine ⟨b64_hugePoint_finite, ?_, ?_⟩
  · rw [b64_overflow_example_eval]
  · rw [b64_overflow_example_eval]
    simp [Double.le, Double.isNaN]

/-- C7 (as amended): for every input the outputs are consistent with each other in
binary64 arithmetic: `closest[0] = (1-s)*P0 + s*P1`, `closest[1] = (1-t)*Q0 + t*Q1` and
`sqrDistance = Dot(diff, diff)` for `diff = closest[0] - closest[1]`, each evaluated in
double; and `sqrDistance` is NaN or `sqrDistance >= 0`. -/
theorem C7_outputs_consistent_or_nan (P0 P1 Q0 Q1 : Binary64.Vector3) :
    (Binary64.dist3D_Segment_to_Segment P0 P1 Q0 Q1).closest0
      = (Binary64.Vector3.smul
          ((Double.finite 1).sub (Binary64.dist3D_Segment_to_Segment P0 P1 Q0 Q1).s) P0).add
        (Binary64.Vector3.smul (Binary64.dist3D_Segment_to_Segment P0 P1 Q0 Q1).s P1) ∧
    (Binary64.dist3D_Segment_to_Segment P0 P1 Q0 Q1).closest1
      = (Binary64.Vector3.smul
          ((Double.finite 1).sub (Binary64.dist3D_Segment_to_Segment P0 P1 Q0 Q1).t) Q0).add
        (Binary64.Vector3.smul (Binary64.dist3D_Segment_to_Segment P0 P1 Q0 Q1).t Q1) ∧
    (Binary64.dist3D_Segment_to_Segment P0 P1 Q0 Q1).sqrDistance
      = Binary64.Dot
          ((Binary64.dist3D_Segment_to_Segment P0 P1 Q0 Q1).closest0.sub
            (Binary64.dist3D_Segment_to_Segment P0 P1 Q0 Q1).closest1)
          ((Binary64.dist3D_Segment_to_Segment P0 P1 Q0 Q1).closest0.sub
            (Binary64.dist3D_Segment_to_Segment P0 P1 Q0 Q1).closest1) ∧
    ((Binary64.dist3D_Segment_to_Segment P0 P1 Q0 Q1).sqrDistance.isNaN = true ∨
      (Double.finite 0).le (Binary64.dist3D_Segment_to_Segment P0 P1 Q0 Q1).sqrDistance
        = true) :=
  ⟨rfl, rfl, rfl, nonnegOrNaN_le (Dot_self_nonnegOrNaN _)⟩

/-! ## Claims about LoadInput, the harness loops and the cone fit -/

/-- C8 (as amended): when the file holds at least `6*numInputs` doubles, `LoadInput`
consumes exactly `6*numInputs` of them in both branches; for `testNonparallel = false`
segment `i` is read as two triples (doubles `6i..6i+2` are `p[0]`, `6i+3..6i+5` are
`p[1]`), and for `testNonparallel = true` the six doubles are interleaved (double
`6i+2k` is channel `k` of `p[0]`, double `6i+2k+1` is channel `k` of `p[1]`). -/
theorem C8_LoadInput_layout (N numInputs : Nat) (file : List ℚ) (segment : Nat → Segment)
    (hlen : 6 * numInputs ≤ file.length) :
    (LoadInput N false numInputs file segment).input = file.drop (6 * numInputs) ∧
    tripleLayout file (LoadInput N false numInputs file segment).segment numInputs ∧
    (LoadInput N true numInputs file segment).input = file.drop (6 * numInputs) ∧
    interleavedLayout file (LoadInput N true numInputs file segment).segment numInputs := by
  obtain ⟨p1, p2⟩ := loadLoop_invariant (parallelBody N)
    (fun s a0 a1 a2 a3 a4 a5 =>
      s.p0 0 = a0 ∧ s.p0 1 = a1 ∧ s.p0 2 = a2 ∧ s.p1 0 = a3 ∧ s.p1 1 = a4 ∧ s.p1 2 = a5)
    (fun i st a0 a1 a2 a3 a4 a5 rest h => by
      obtain ⟨q1, q2, q3⟩ := parallelBody_spec N i st a0 a1 a2 a3 a4 a5 rest h
      exact ⟨q1, q2, q3⟩)
    file segment numInputs hlen
  obtain ⟨n1, n2⟩ := loadLoop_invariant (nonparallelBody N)
    (fun s a0 a1 a2 a3 a4 a5 =>
      s.p0 0 = a0 ∧ s.p1 0 = a1 ∧ s.p0 1 = a2 ∧ s.p1 1 = a3 ∧ s.p0 2 = a4 ∧ s.p1 2 = a5)
    (fun i st a0 a1 a2 a3 a4 a5 rest h => by
      obtain ⟨q1, q2, q3⟩ := nonparallelBody_spec N i st a0 a1 a2 a3 a4 a5 rest h
      exact ⟨q1, q2, q3⟩)
    file segment numInputs hlen
  refine ⟨p1, ?_, n1, ?_⟩
  · intro i hi k hk
    obtain ⟨a0, a1, a2, a3, a4, a5, g0, g1, g2, g3, g4, g5, e0, e1, e2, e3, e4, e5⟩ := p2 i hi
    have hL : (LoadInput N false numInputs file segment).segment
        = (forLoop 0 numInputs (parallelBody N) { input := file, segment := segment }).segment :=
      rfl
    rw [hL]
    rcases layout_cases k hk with rfl | rfl | rfl
    · exact ⟨by rw [e0]; exact g0, by rw [e3]; exact g3⟩
    · exact ⟨by rw [e1]; exact g1, by rw [e4]; exact g4⟩
    · exact ⟨by rw [e2]; exact g2, by rw [e5]; exact g5⟩
  · intro i hi k hk
    obtain ⟨a0, a1, a2, a3, a4, a5, g0, g1, g2, g3, g4, g5, e0, e1, e2, e3, e4, e5⟩ := n2 i hi
    have hL : (LoadInput N true numInputs file segment).segment
        = (forLoop 0 numInputs (nonparallelBody N) { input := file, segment := segment }).segment :=
      rfl
    rw [hL]
    rcases layout_cases k hk with rfl | rfl | rfl
    · exact ⟨by rw [e0]; exact g0, by rw [e1]; exact g1⟩
    · exact ⟨by rw [e2]; exact g2, by rw [e3]; exact g3⟩
    · exact ⟨by rw [e4]; exact g4, by rw [e5]; exact g5⟩

/-- Witness of C8 (as amended): two segments read from a file of twelve doubles. -/
theorem C8_LoadInput_layout_witness :
    6 * 2 ≤ ([1, 2, 3, 4, 5, 6, 7, 8, 9, 10, 11, 12] : List ℚ).length ∧
    ((LoadInput 3 false 2 [1, 2, 3, 4, 5, 6, 7, 8, 9, 10, 11, 12] blankSegments).input
      = List.drop (6 * 2) [1, 2, 3, 4, 5, 6, 7, 8, 9, 10, 11, 12] ∧
    tripleLayout [1, 2, 3, 4, 5, 6, 7, 8, 9, 10, 11, 12]
      (LoadInput 3 false 2 [1, 2, 3, 4, 5, 6, 7, 8, 9, 10, 11, 12] blankSegments).segment 2 ∧
    (LoadInput 3 true 2 [1, 2, 3, 4, 5, 6, 7, 8, 9, 10, 11, 12] blankSegments).input
      = List.drop (6 * 2) [1, 2, 3, 4, 5, 6, 7, 8, 9, 10, 11, 12] ∧
    interleavedLayout [1, 2, 3, 4, 5, 6, 7, 8, 9, 10, 11, 12]
      (LoadInput 3 true 2 [1, 2, 3, 4, 5, 6, 7, 8, 9, 10, 11, 12] blankSegments).segment 2) :=
  ⟨by decide, C8_LoadInput_layout 3 2 [1, 2, 3, 4, 5, 6, 7, 8, 9, 10, 11, 12] blankSegments
    (by decide)⟩

/-- C8 (as stated) fails for `testNonparallel = true`: reading one segment from the
doubles `1,2,3,4,5,6` gives `p[0] = (1,3,5)` and `p[1] = (2,4,6)`, so the doubles `0..2`
are not the coordinates of `p[0]`. -/
theorem C8_nonparallel_not_triples :
    ((LoadInput 3 true 1 [1, 2, 3, 4, 5, 6] blankSegments).segment 0).p0 0 = 1 ∧
    ((LoadInput 3 true 1 [1, 2, 3, 4, 5, 6] blankSegments).segment 0).p0 1 = 3 ∧
    ((LoadInput 3 true 1 [1, 2, 3, 4, 5, 6] blankSegments).segment 0).p0 2 = 5 ∧
    ((LoadInput 3 true 1 [1, 2, 3, 4, 5, 6] blankSegments).segment 0).p1 0 = 2 ∧
    ((LoadInput 3 true 1 [1, 2, 3, 4, 5, 6] blankSegments).segment 0).p1 1 = 4 ∧
    ((LoadInput 3 true 1 [1, 2, 3, 4, 5, 6] blankSegments).segment 0).p1 2 = 6 ∧
    ¬ tripleLayout [1, 2, 3, 4, 5, 6]
      (LoadInput 3 true 1 [1, 2, 3, 4, 5, 6] blankSegments).segment 1 := by
  have hL : LoadInput 3 true 1 [1, 2, 3, 4, 5, 6] blankSegments
      = nonparallelBody 3 0 { input := [1, 2, 3, 4, 5, 6], segment := blankSegments } := rfl
  obtain ⟨_, _, e0, e1, e2, e3, e4, e5⟩ := nonparallelBody_spec 3 0
    { input := [1, 2, 3, 4, 5, 6], segment := blankSegments } 1 2 3 4 5 6 [] rfl
  rw [hL]
  refine ⟨e0, e2, e4, e1, e3, e5, ?_⟩
  intro h
  have h1 := (h 0 (by decide) 1 (by decide)).1
  rw [e2] at h1
  simp only [Nat.mul_zero, Nat.zero_add, List.getElem?_cons_succ, List.getElem?_cons_zero,
    Option.some.injEq] at h1
  norm_num at h1

/-- C9: the loop nest `for y in [0,n), for x in [y+1,n)` runs its body on the pairs
`(x, y)` with `y < x < n`, each once, so exactly one of `(i, j)`, `(j, i)` is visited,
and only once, for distinct `i, j < n`, and `n*(n-1)/2` pairs are visited in all. The runs of
`CPUPerformanceTest` for `PERF_SUNDAY` and `PERF_ROBUST` and of `CPUAccuracyTest`
without exact comparison issue their queries on the pairs for `n = 16384`, that is
134209536 queries per algorithm; the runs for `PERF_RATIONAL` and with exact comparison
use `n = 1024`, that is 523776 queries per algorithm. -/
theorem C9_one_query_per_pair :
    (∀ n, (visits n).Nodup ∧
      (∀ x y, (x, y) ∈ visits n ↔ (y < x ∧ x < n)) ∧
      (∀ i j, i < n → j < n → i ≠ j →
        ((i, j) ∈ visits n ∧ (j, i) ∉ visits n) ∨ ((j, i) ∈ visits n ∧ (i, j) ∉ visits n)) ∧
      (visits n).length = n * (n - 1) / 2) ∧
    CPUPerformanceTest PERF_SUNDAY
      = { sunday := visits 16384, robust := [], rational := [] } ∧
    CPUPerformanceTest PERF_ROBUST
      = { sunday := [], robust := visits 16384, rational := [] } ∧
    CPUPerformanceTest PERF_RATIONAL
      = { sunday := [], robust := [], rational := visits 1024 } ∧
    CPUAccuracyTest false
      = { sunday := visits 16384, robust := visits 16384, rational := [] } ∧
    CPUAccuracyTest true
      = { sunday := visits 1024, robust := visits 1024, rational := visits 1024 } ∧
    (visits 16384).length = 134209536 ∧
    (visits 1024).length = 523776 := by
  refine ⟨fun n => ⟨nodup_visits n, mem_visits n, ?_, length_visits n⟩,
    CPUPerformanceTest_sunday, CPUPerformanceTest_robust, CPUPerformanceTest_rational,
    CPUAccuracyTest_inexact, CPUAccuracyTest_exact, ?_, ?_⟩
  · intro i j hi hj hij
    rcases Nat.lt_or_gt_of_ne hij with h | h
    · have h1 : (j, i) ∈ visits n := (mem_visits n j i).2 ⟨h, hj⟩
      have h2 : (i, j) ∉ visits n := fun hm => by
        have := (mem_visits n i j).1 hm
        omega
      exact Or.inr ⟨h1, h2⟩
    · have h1 : (i, j) ∈ visits n := (mem_visits n i j).2 ⟨h, hi⟩
      have h2 : (j, i) ∉ visits n := fun hm => by
        have := (mem_visits n j i).1 hm
        omega
      exact Or.inl ⟨h1, h2⟩
  · rw [length_visits]
  · rw [length_visits]

/-- C10: on at least 6 points the Levenberg-Marquardt fit returns a result whose final
error is the error of the returned cone and is at most the error of the initial guess;
its error history starts at the error of the initial guess, ends at the final
error and decreases strictly at every accepted update. This holds for every choice
of the control parameters, and so for the call made by `CreateLMCone`, whose initial
guess is the estimate derived from the points. -/
theorem C10_LM_final_error_le_initial (K : ConeFitKernel) (numPoints : Nat)
    (points : List Vector3) (maxIterations : Nat)
    (updateLengthTolerance errorDifferenceTolerance lambdaFactor lambdaAdjust : ℚ)
    (maxAdjustments : Nat) (useConeInputAsInitialGuess : Bool) (coneInput : Cone)
    (X : List Vector3) (h6 : 6 ≤ numPoints) (hX : 6 ≤ X.length) :
    (∃ r, ApprCone3_LM K numPoints points maxIterations updateLengthTolerance
        errorDifferenceTolerance lambdaFactor lambdaAdjust maxAdjustments
        useConeInputAsInitialGuess coneInput = some r ∧
      r.finalError = K.error points r.cone ∧
      r.finalError
        ≤ K.error points (initialGuess K points useConeInputAsInitialGuess coneInput) ∧
      List.Chain' (fun newer old => newer < old) r.errorHistory ∧
      (∃ older, r.errorHistory = r.finalError :: older) ∧
      (∃ newer, r.errorHistory = newer ++
        [K.error points (initialGuess K points useConeInputAsInitialGuess coneInput)])) ∧
    (∃ r, CreateLMCone K X coneInput = some r ∧
      r.finalError = K.error X r.cone ∧
      r.finalError ≤ K.error X (K.estimate X)) := by
  constructor
  · obtain ⟨newer, h1, ⟨pre, h2⟩, h3, h4, h5⟩ := lmIterate_history K points
      updateLengthTolerance errorDifferenceTolerance lambdaAdjust maxAdjustments maxIterations
      { cone := initialGuess K points useConeInputAsInitialGuess coneInput,
        lambda := lambdaFactor,
        errorHistory :=
          [K.error points (initialGuess K points useConeInputAsInitialGuess coneInput)],
        iterationsUsed := 0 } [] rfl (List.chain'_singleton _)
    refine ⟨_, ?_, h4, h5, h3, ⟨newer, h1⟩, ⟨pre, h2⟩⟩
    unfold ApprCone3_LM
    rw [if_neg (by omega)]
  · obtain ⟨newer, h1, ⟨pre, h2⟩, h3, h4, h5⟩ := lmIterate_history K X
      (1 / 10000) (1 / 100000000) 10 8 32
      { cone := initialGuess K X false coneInput,
        lambda := 1 / 1000,
        errorHistory := [K.error X (initialGuess K X false coneInput)],
        iterationsUsed := 0 } [] rfl (List.chain'_singleton _)
    refine ⟨_, ?_, h4, h5⟩
    unfold CreateLMCone ApprCone3_LM
    rw [if_neg (by omega)]

/-- Witness of C10: the fit of six points with a kernel that halves the cone angle. -/
theorem C10_LM_final_error_le_initial_witness :
    (6 ≤ 6 ∧ 6 ≤ sixPoints.length) ∧
    ((∃ r, ApprCone3_LM halvingKernel 6 sixPoints 4 (1 / 10000) (1 / 100000000) (1 / 1000) 10 8
        false ⟨⟨0, 0, 0⟩, ⟨0, 0, 1⟩, 2⟩ = some r ∧
      r.finalError = halvingKernel.error sixPoints r.cone ∧
      r.finalError ≤ halvingKernel.error sixPoints
        (initialGuess halvingKernel sixPoints false ⟨⟨0, 0, 0⟩, ⟨0, 0, 1⟩, 2⟩) ∧
      List.Chain' (fun newer old => newer < old) r.errorHistory ∧
      (∃ older, r.errorHistory = r.finalError :: older) ∧
      (∃ newer, r.errorHistory = newer ++
        [halvingKernel.error sixPoints
          (initialGuess halvingKernel sixPoints false ⟨⟨0, 0, 0⟩, ⟨0, 0, 1⟩, 2⟩)])) ∧
    (∃ r, CreateLMCone halvingKernel sixPoints ⟨⟨0, 0, 0⟩, ⟨0, 0, 1⟩, 2⟩ = some r ∧
      r.finalError = halvingKernel.error sixPoints r.cone ∧
      r.finalError ≤ halvingKernel.error sixPoints (halvingKernel.estimate sixPoints))) :=
  ⟨⟨le_refl 6, by decide⟩,
    C10_LM_final_error_le_initial halvingKernel 6 sixPoints 4 (1 / 10000) (1 / 100000000)
      (1 / 1000) 10 8 false ⟨⟨0, 0, 0⟩, ⟨0, 0, 1⟩, 2⟩ sixPoints (le_refl 6) (by decide)⟩

/-! ## Claims about the box-sphere query, the coefficients, the harness and the windows -/

/-- C11: the moving box-sphere query depends on the two velocities only through their
difference: adding a vector `d` to both velocities does not change the result (so
neither the intersects flag nor the contact time), and the result is that of the
static box against the sphere moving with `sphereVelocity - boxVelocity`. -/
theorem C11_query_depends_on_relative_velocity (K : MovingSphereKernel) (box : AlignedBox3)
    (sphere : Sphere3) (boxVelocity sphereVelocity d : Vector3) :
    FIQuery K box sphere (boxVelocity.add d) (sphereVelocity.add d)
      = FIQuery K box sphere boxVelocity sphereVelocity ∧
    (FIQuery K box sphere (boxVelocity.add d) (sphereVelocity.add d)).intersects
      = (FIQuery K box sphere boxVelocity sphereVelocity).intersects ∧
    (FIQuery K box sphere (boxVelocity.add d) (sphereVelocity.add d)).timeOfContact
      = (FIQuery K box sphere boxVelocity sphereVelocity).timeOfContact ∧
    FIQuery K box sphere boxVelocity sphereVelocity
      = FIQuery K box sphere ⟨0, 0, 0⟩ (sphereVelocity.sub boxVelocity) ∧
    FIQuery K box sphere boxVelocity sphereVelocity
      = K.staticBoxQuery box sphere (sphereVelocity.sub boxVelocity) := by
  have h1 : (sphereVelocity.add d).sub (boxVelocity.add d) = sphereVelocity.sub boxVelocity := by
    simp only [Vector3.sub, Vector3.add, Vector3.mk.injEq]
    refine ⟨?_, ?_, ?_⟩ <;> ring
  have h2 : (sphereVelocity.sub boxVelocity).sub ⟨0, 0, 0⟩ = sphereVelocity.sub boxVelocity := by
    simp only [Vector3.sub, Vector3.mk.injEq]
    refine ⟨?_, ?_, ?_⟩ <;> ring
  have h3 : FIQuery K box sphere (boxVelocity.add d) (sphereVelocity.add d)
      = FIQuery K box sphere boxVelocity sphereVelocity := by
    unfold FIQuery
    rw [h1]
  refine ⟨h3, by rw [h3], by rw [h3], ?_, rfl⟩
  unfold FIQuery
  rw [h2]

/-- C12: `CreateGNCone` and `CreateLMCone` call the fitter with the same point set and
the same `maxIterations = 32`, `updateLengthTolerance = 1e-4`,
`errorDifferenceTolerance = 1e-8` and `useConeInputAsInitialGuess = false`; the LM call
has the extra arguments `lambdaFactor = 0.001`, `lambdaAdjust = 10`, `maxAdjustments = 8`
and nothing else differs, so a fitter that ignores the extra arguments is called as by
`CreateGNCone`. In `CreateScene` both receive the same 8196 (at least 6) points. -/
theorem C12_same_control_parameters :
    (∀ (R : Type) (fitter : Nat → List Vector3 → Nat → ℚ → ℚ → Bool → Cone → R)
        (X : List Vector3) (cone : Cone),
      CreateGNCone fitter X cone
        = fitter X.length X 32 (1 / 10000) (1 / 100000000) false cone) ∧
    (∀ (R : Type) (fitter : Nat → List Vector3 → Nat → ℚ → ℚ → ℚ → ℚ → Nat → Bool → Cone → R)
        (X : List Vector3) (cone : Cone),
      CreateLMConeWith fitter X cone
        = fitter X.length X 32 (1 / 10000) (1 / 100000000) (1 / 1000) 10 8 false cone) ∧
    (∀ (R : Type) (fitter : Nat → List Vector3 → Nat → ℚ → ℚ → Bool → Cone → R)
        (X : List Vector3) (cone : Cone),
      CreateLMConeWith
          (fun numPoints points maxIterations updateLengthTolerance errorDifferenceTolerance
            _ _ _ useConeInputAsInitialGuess cone =>
            fitter numPoints points maxIterations updateLengthTolerance
              errorDifferenceTolerance useConeInputAsInitialGuess cone) X cone
        = CreateGNCone fitter X cone) ∧
    (∀ (K : ConeFitKernel) (X : List Vector3) (cone : Cone),
      CreateLMCone K X cone = CreateLMConeWith (ApprCone3_LM K) X cone) ∧
    (∀ (S : SceneKernel)
        (fitterGN : Nat → List Vector3 → Nat → ℚ → ℚ → Bool → Cone → Cone)
        (fitterLM : Nat → List Vector3 → Nat → ℚ → ℚ → ℚ → ℚ → Nat → Bool → Cone → Cone)
        (cone : Cone),
      (CreateScene S fitterGN fitterLM cone).X.length = 8196 ∧
      6 ≤ (CreateScene S fitterGN fitterLM cone).X.length ∧
      (CreateScene S fitterGN fitterLM cone).gnCone
        = fitterGN 8196 (CreateScene S fitterGN fitterLM cone).X 32 (1 / 10000)
            (1 / 100000000) false cone ∧
      (CreateScene S fitterGN fitterLM cone).lmCone
        = fitterLM 8196 (CreateScene S fitterGN fitterLM cone).X 32 (1 / 10000)
            (1 / 100000000) (1 / 1000) 10 8 false
            (CreateScene S fitterGN fitterLM cone).gnCone) := by
  refine ⟨fun _ _ _ _ => rfl, fun _ _ _ _ => rfl, fun _ _ _ _ => rfl, fun _ _ _ => rfl, ?_⟩
  intro S fitterGN fitterLM cone
  rw [CreateScene_X, CreateScene_gnCone, CreateScene_lmCone, scenePoints_length]
  refine ⟨rfl, by omega, ?_, ?_⟩
  · unfold CreateGNCone
    rw [scenePoints_length]
  · unfold CreateLMConeWith
    rw [scenePoints_length]

/-- C13: for every input the quantities annotated `always >= 0` are not negative:
`a = Dot(u,u)`, `c = Dot(v,v)` and `D = a*c - b*b`, the value to which the
denominators `sD` and `tD` are initialised. -/
theorem C13_coefficients_nonneg (P0 P1 Q0 Q1 : Vector3) :
    0 ≤ (coefficients P0 P1 Q0 Q1).a ∧ 0 ≤ (coefficients P0 P1 Q0 Q1).c ∧
    0 ≤ (coefficients P0 P1 Q0 Q1).D ∧
    (coefficients P0 P1 Q0 Q1).a = Dot (P1.sub P0) (P1.sub P0) ∧
    (coefficients P0 P1 Q0 Q1).c = Dot (Q1.sub Q0) (Q1.sub Q0) ∧
    (coefficients P0 P1 Q0 Q1).D
      = (coefficients P0 P1 Q0 Q1).a * (coefficients P0 P1 Q0 Q1).c
        - (coefficients P0 P1 Q0 Q1).b * (coefficients P0 P1 Q0 Q1).b ∧
    ratios P0 P1 Q0 Q1
      = clipT (coefficients P0 P1 Q0 Q1).a (coefficients P0 P1 Q0 Q1).b
          (coefficients P0 P1 Q0 Q1).d
          (lineParameters (coefficients P0 P1 Q0 Q1).a (coefficients P0 P1 Q0 Q1).b
            (coefficients P0 P1 Q0 Q1).c (coefficients P0 P1 Q0 Q1).d
            (coefficients P0 P1 Q0 Q1).e (coefficients P0 P1 Q0 Q1).D) :=
  ⟨Dot_self_nonneg _, Dot_self_nonneg _, Dot_cauchy_schwarz _ _, rfl, rfl, rfl, rfl⟩

/-- C14 (counterexample): the two points `P0 = P1 = (2^1023, 0, 0)` and
`Q0 = Q1 = (-2^1023, 0, 0)` have finite double coordinates, yet the function returns
`t = NaN`, `closest[1] = (NaN, NaN, NaN)` and `sqrDistance = NaN`, not `t = 0` and
`closest[1] = Q0`. -/
theorem C14_two_points_overflow :
    (Binary64.hugePoint.isFinite = true ∧ Binary64.hugePoint.representable = true ∧
      Binary64.hugePointNeg.isFinite = true ∧ Binary64.hugePointNeg.representable = true) ∧
    Binary64.dist3D_Segment_to_Segment Binary64.hugePoint Binary64.hugePoint
        Binary64.hugePointNeg Binary64.hugePointNeg
      = { sqrDistance := .nan, s := .finite 0, t := .nan, closest0 := Binary64.hugePoint,
          closest1 := ⟨.nan, .nan, .nan⟩ } ∧
    (Binary64.dist3D_Segment_to_Segment Binary64.hugePoint Binary64.hugePoint
        Binary64.hugePointNeg Binary64.hugePointNeg).t ≠ .finite 0 ∧
    (Binary64.dist3D_Segment_to_Segment Binary64.hugePoint Binary64.hugePoint
        Binary64.hugePointNeg Binary64.hugePointNeg).closest1 ≠ Binary64.hugePointNeg := by
  refine ⟨b64_hugePoint_finite, b64_overflow_example_eval, ?_, ?_⟩
  · rw [b64_overflow_example_eval]
    simp
  · rw [b64_overflow_example_eval]
    simp [Binary64.hugePointNeg]

/-- C14 (as amended): when both segments are points (`P1 = P0` and `Q1 = Q0`) with finite
double coordinates whose difference `P0 - Q0` is finite (does not overflow), the function
returns `s = 0`, `t = 0`, `closest[0] = P0`, `closest[1] = Q0` and
`sqrDistance = Dot(P0 - Q0, P0 - Q0)`, evaluated in double. -/
theorem C14_two_points_finite (P0 Q0 : Binary64.Vector3)
    (hP : P0.isFinite = true ∧ P0.representable = true)
    (hQ : Q0.isFinite = true ∧ Q0.representable = true)
    (hw : (P0.sub Q0).isFinite = true) :
    Binary64.dist3D_Segment_to_Segment P0 P0 Q0 Q0
      = { sqrDistance := Binary64.Dot (P0.sub Q0) (P0.sub Q0), s := .finite 0, t := .finite 0,
          closest0 := P0, closest1 := Q0 } := by
  obtain ⟨e, he, hr⟩ := b64_ratios_two_points hP.1 hQ.1 hw
  have hs : Binary64.quotient (.finite 0) (.finite 1) = .finite 0 :=
    (b64_isZero_facts ((isZero_iff (.finite 0)).mpr (Or.inl rfl)) (.finite 1)).2.2
  have ht : Binary64.quotient e (.finite 0) = .finite 0 := (b64_isZero_facts he (.finite 0)).2.2
  unfold Binary64.dist3D_Segment_to_Segment
  rw [hr]
  simp only [hs, ht]
  unfold Binary64.output
  simp only [b64_segment_at_zero hP.1 hP.2, b64_segment_at_zero hQ.1 hQ.2]

/-- Witness of C14: the points `P0 = (1, 0, 0)` and `Q0 = (0, 1, 0)`. -/
theorem C14_two_points_finite_witness :
    ((Binary64.Vector3.mk (.finite 1) (.finite 0) (.finite 0)).isFinite = true ∧
      (Binary64.Vector3.mk (.finite 1) (.finite 0) (.finite 0)).representable = true) ∧
    ((Binary64.Vector3.mk (.finite 0) (.finite 1) (.finite 0)).isFinite = true ∧
      (Binary64.Vector3.mk (.finite 0) (.finite 1) (.finite 0)).representable = true) ∧
    ((Binary64.Vector3.mk (.finite 1) (.finite 0) (.finite 0)).sub
      (Binary64.Vector3.mk (.finite 0) (.finite 1) (.finite 0))).isFinite = true ∧
    Binary64.dist3D_Segment_to_Segment ⟨.finite 1, .finite 0, .finite 0⟩
        ⟨.finite 1, .finite 0, .finite 0⟩ ⟨.finite 0, .finite 1, .finite 0⟩
        ⟨.finite 0, .finite 1, .finite 0⟩
      = { sqrDistance := Binary64.Dot
            ((Binary64.Vector3.mk (.finite 1) (.finite 0) (.finite 0)).sub
              (Binary64.Vector3.mk (.finite 0) (.finite 1) (.finite 0)))
            ((Binary64.Vector3.mk (.finite 1) (.finite 0) (.finite 0)).sub
              (Binary64.Vector3.mk (.finite 0) (.finite 1) (.finite 0))),
          s := .finite 0, t := .finite 0,
          closest0 := ⟨.finite 1, .finite 0, .finite 0⟩,
          closest1 := ⟨.finite 0, .finite 1, .finite 0⟩ } := by
  have h1 : (Binary64.Vector3.mk (.finite 1) (.finite 0) (.finite 0)).representable = true := by
    simp only [Binary64.Vector3.representable, b64_representable_one, b64_representable_zero,
      Bool.and_self]
  have h2 : (Binary64.Vector3.mk (.finite 0) (.finite 1) (.finite 0)).representable = true := by
    simp only [Binary64.Vector3.representable, b64_representable_one, b64_representable_zero,
      Bool.and_self]
  have h3 : (Binary64.Vector3.mk (.finite 1) (.finite 0) (.finite 0)).sub
      (Binary64.Vector3.mk (.finite 0) (.finite 1) (.finite 0))
        = ⟨.finite 1, .finite (-1), .finite 0⟩ := by
    norm_num [Binary64.Vector3.sub, Double.sub, b64_add_finite, b64_neg_finite,
      b64_add_finite_negZero, ofRat_one, ofRat_neg_one]
  have h4 : ((Binary64.Vector3.mk (.finite 1) (.finite 0) (.finite 0)).sub
      (Binary64.Vector3.mk (.finite 0) (.finite 1) (.finite 0))).isFinite = true := by
    rw [h3]
    rfl
  exact ⟨⟨rfl, h1⟩, ⟨rfl, h2⟩, h4,
    C14_two_points_finite ⟨.finite 1, .finite 0, .finite 0⟩ ⟨.finite 0, .finite 1, .finite 0⟩
      ⟨rfl, h1⟩ ⟨rfl, h2⟩ h4⟩

/-- C15: the blocked loops of `GPUAccuracyTest` compare the same segment pairs as the
CPU test, each once. For all sizes, the pairs `(sx, sy) = (x*blockSize + c, y*blockSize + r)`
of the loop nest are pairwise different, they are the pairs with
`sy < sx < numBlocks * blockSize`, so they are a rearrangement of the pairs of the CPU
loops over `numBlocks * blockSize` segments, and every result index `c + blockSize*r` is
less than `blockSize * blockSize`. With the sizes of `GPUAccuracyTest` (16 blocks of size
1024) these are the pairs `0 <= sy < sx < 16384`. -/
theorem C15_gpu_blocks_cover_pairs :
    (∀ numBlocks blockSize,
      ((blockVisits numBlocks blockSize).map (fun v => (v.sx, v.sy))).Nodup ∧
      (∀ sx sy, (sx, sy) ∈ (blockVisits numBlocks blockSize).map (fun v => (v.sx, v.sy))
        ↔ (sy < sx ∧ sx < numBlocks * blockSize)) ∧
      ((blockVisits numBlocks blockSize).map (fun v => (v.sx, v.sy))).Perm
        (visits (numBlocks * blockSize)) ∧
      (∀ v, v ∈ blockVisits numBlocks blockSize → v.index < blockSize * blockSize)) ∧
    GPUAccuracyTest_visits = blockVisits 16 1024 ∧
    (GPUAccuracyTest_visits.map (fun v => (v.sx, v.sy))).Nodup ∧
    (∀ sx sy, (sx, sy) ∈ GPUAccuracyTest_visits.map (fun v => (v.sx, v.sy))
      ↔ (sy < sx ∧ sx < 16384)) ∧
    (GPUAccuracyTest_visits.map (fun v => (v.sx, v.sy))).Perm (visits 16384) ∧
    (∀ v, v ∈ GPUAccuracyTest_visits → v.index < 1024 * 1024) := by
  have hgen : ∀ numBlocks blockSize,
      ((blockVisits numBlocks blockSize).map (fun v => (v.sx, v.sy))).Nodup ∧
      (∀ sx sy, (sx, sy) ∈ (blockVisits numBlocks blockSize).map (fun v => (v.sx, v.sy))
        ↔ (sy < sx ∧ sx < numBlocks * blockSize)) ∧
      ((blockVisits numBlocks blockSize).map (fun v => (v.sx, v.sy))).Perm
        (visits (numBlocks * blockSize)) ∧
      (∀ v, v ∈ blockVisits numBlocks blockSize → v.index < blockSize * blockSize) := by
    intro numBlocks blockSize
    refine ⟨blockVisits_nodup _ _, ?_, blockVisits_perm_visits _ _,
      fun v hv => (blockVisits_bounds _ _ v hv).2.2.1⟩
    intro sx sy
    rw [(blockVisits_perm_visits numBlocks blockSize).mem_iff, mem_visits]
  have e1 : (16384 : Nat) / 1024 = 16 := by norm_num
  have e2 : (16 : Nat) * 1024 = 16384 := by norm_num
  have hG : GPUAccuracyTest_visits = blockVisits 16 1024 := by
    simp only [GPUAccuracyTest_visits, e1]
  obtain ⟨g1, g2, g3, g4⟩ := hgen 16 1024
  rw [e2] at g2 g3
  rw [hG]
  exact ⟨hgen, rfl, g1, g2, g3, g4⟩

/-- C16: after the double loop of `CPUAccuracyTest`, `maxError01` is the maximum of
`|distance0 - distance1|` over the pairs `0 <= y < x < numInputs` (no pair exceeds it
and some pair attains it), and when it is positive `(xmax01, ymax01)` is the first pair
in iteration order whose error equals it, otherwise the pair stays `(0, 0)`; the same
holds for `maxError02` and `maxError12` when `compareUsingExact` is set (`numInputs` is
then 1024, otherwise 16384 and these two maxima stay `0` at `(0, 0)`). -/
theorem C16_max_errors (D : DistanceKernel) :
    ((CPUAccuracyTest_maxErrors D false).m01.isFirstMaxOf
        (fun x y => |D.distance0 x y - D.distance1 x y|) (visits 16384) ∧
      (∃ p, p ∈ visits 16384 ∧
        |D.distance0 p.1 p.2 - D.distance1 p.1 p.2|
          = (CPUAccuracyTest_maxErrors D false).m01.maxError) ∧
      (CPUAccuracyTest_maxErrors D false).m02 = { maxError := 0, xmax := 0, ymax := 0 } ∧
      (CPUAccuracyTest_maxErrors D false).m12 = { maxError := 0, xmax := 0, ymax := 0 }) ∧
    ((CPUAccuracyTest_maxErrors D true).m01.isFirstMaxOf
        (fun x y => |D.distance0 x y - D.distance1 x y|) (visits 1024) ∧
      (CPUAccuracyTest_maxErrors D true).m02.isFirstMaxOf
        (fun x y => |D.distance0 x y - D.distance2 x y|) (visits 1024) ∧
      (CPUAccuracyTest_maxErrors D true).m12.isFirstMaxOf
        (fun x y => |D.distance1 x y - D.distance2 x y|) (visits 1024) ∧
      (∃ p, p ∈ visits 1024 ∧
        |D.distance0 p.1 p.2 - D.distance1 p.1 p.2|
          = (CPUAccuracyTest_maxErrors D true).m01.maxError) ∧
      (∃ p, p ∈ visits 1024 ∧
        |D.distance0 p.1 p.2 - D.distance2 p.1 p.2|
          = (CPUAccuracyTest_maxErrors D true).m02.maxError) ∧
      (∃ p, p ∈ visits 1024 ∧
        |D.distance1 p.1 p.2 - D.distance2 p.1 p.2|
          = (CPUAccuracyTest_maxErrors D true).m12.maxError)) := by
  have hf : CPUAccuracyTest_maxErrors D false = accuracyLoops D false 16384 := by
    simp only [CPUAccuracyTest_maxErrors]
    rfl
  have ht : CPUAccuracyTest_maxErrors D true = accuracyLoops D true 1024 := by
    simp only [CPUAccuracyTest_maxErrors]
    rfl
  have n1 : visits 16384 ≠ [] := visits_ne_nil 16384 (by omega)
  have n2 : visits 1024 ≠ [] := visits_ne_nil 1024 (by omega)
  obtain ⟨f1, _, f3⟩ := accuracyLoops_isFirstMaxOf D false 16384
  obtain ⟨t1, t2, _⟩ := accuracyLoops_isFirstMaxOf D true 1024
  obtain ⟨t2a, t2b⟩ := t2 rfl
  obtain ⟨f3a, f3b⟩ := f3 rfl
  rw [hf, ht]
  exact ⟨⟨f1, f1.2.1 n1, f3a, f3b⟩, ⟨t1, t2a, t2b, t1.2.1 n2, t2a.2.1 n2, t2b.2.1 n2⟩⟩

/-- C19: in a state whose rasterizer state is one of the two states of the window and
whose culling modes are `CULL_ALWAYS` or `CULL_NEVER` (the constructor leaves such a
state, with both cones `CULL_ALWAYS` and so not drawn, and the three keys keep it so):
key `0` flips `mGNCone->culling` between `CULL_NEVER` and `CULL_ALWAYS`, key `1` does
the same for `mLMCone`, keys `w` and `W` flip the rasterizer state between solid and
wireframe; each returns `true` and changes nothing else, and pressing the same key
twice restores the state. -/
theorem C19_key_toggles (base : Char → Int → Int → FitConeState → Bool × FitConeState)
    (x y : Int) (st : FitConeState) (h : st.toggled) :
    (OnCharPress base '0' x y st
        = (true, { st with mGNConeCulling :=
            if st.mGNConeCulling = CullingMode.CULL_NEVER then CullingMode.CULL_ALWAYS
            else CullingMode.CULL_NEVER }) ∧
      (OnCharPress base '0' x y (OnCharPress base '0' x y st).2).2 = st) ∧
    (OnCharPress base '1' x y st
        = (true, { st with mLMConeCulling :=
            if st.mLMConeCulling = CullingMode.CULL_NEVER then CullingMode.CULL_ALWAYS
            else CullingMode.CULL_NEVER }) ∧
      (OnCharPress base '1' x y (OnCharPress base '1' x y st).2).2 = st) ∧
    (OnCharPress base 'w' x y st
        = (true, { st with rasterizerState :=
            if st.rasterizerState = RasterizerState.mNoCullSolidState
            then RasterizerState.mNoCullWireState else RasterizerState.mNoCullSolidState }) ∧
      OnCharPress base 'W' x y st = OnCharPress base 'w' x y st ∧
      (OnCharPress base 'w' x y (OnCharPress base 'w' x y st).2).2 = st ∧
      (OnCharPress base 'W' x y (OnCharPress base 'W' x y st).2).2 = st) ∧
    ((OnCharPress base '0' x y st).2.toggled ∧ (OnCharPress base '1' x y st).2.toggled ∧
      (OnCharPress base 'w' x y st).2.toggled ∧ (OnCharPress base 'W' x y st).2.toggled) ∧
    (FitConeState.initial.toggled ∧
      FitConeState.initial.mGNConeCulling = CullingMode.CULL_ALWAYS ∧
      FitConeState.initial.mLMConeCulling = CullingMode.CULL_ALWAYS ∧
      FitConeState.initial.rasterizerState = RasterizerState.mNoCullSolidState ∧
      OnIdle_draws FitConeState.initial = [Mesh.mPoints]) := by
  obtain ⟨r, g, l⟩ := st
  cases r <;> cases g <;> cases l <;>
    simp [OnCharPress, FitConeState.toggled, FitConeState.initial, OnIdle_draws] at h ⊢

/-- Witness of C19: the state left by the constructor. -/
theorem C19_key_toggles_witness :
    FitConeState.initial.toggled ∧
    (OnCharPress (fun _ _ _ st => (false, st)) '0' 0 0 FitConeState.initial).2.mGNConeCulling
      = CullingMode.CULL_NEVER ∧
    (OnCharPress (fun _ _ _ st => (false, st)) '0' 0 0
      (OnCharPress (fun _ _ _ st => (false, st)) '0' 0 0 FitConeState.initial).2).2
      = FitConeState.initial :=
  ⟨by decide,
    by rw [(C19_key_toggles (fun _ _ _ st => (false, st)) 0 0 FitConeState.initial
      (by decide)).1.1]; rfl,
    (C19_key_toggles (fun _ _ _ st => (false, st)) 0 0 FitConeState.initial (by decide)).1.2⟩

/-- C20: `ComputeApprPath(true)` at capacity, that is when
`2*mCurrNumApprPoints - 1 > mNumApprPoints`, returns the state unchanged:
`mCurrNumApprPoints`, every element of `mApprPoints` and the list of calls to
`mGeodesic` (so no call of `Subdivide`) are as before; otherwise it sets
`mCurrNumApprPoints` to `2*mCurrNumApprPoints - 1`. -/
theorem C20_subdivide_at_capacity (G : GeodesicKernel) (st : EllipsoidState) :
    (2 * st.mCurrNumApprPoints - 1 > st.mNumApprPoints →
      ComputeApprPath G true st = st ∧
      (ComputeApprPath G true st).mCurrNumApprPoints = st.mCurrNumApprPoints ∧
      (∀ i, (ComputeApprPath G true st).mApprPoints i = st.mApprPoints i) ∧
      (ComputeApprPath G true st).calls = st.calls) ∧
    (¬ 2 * st.mCurrNumApprPoints - 1 > st.mNumApprPoints →
      (ComputeApprPath G true st).mCurrNumApprPoints = 2 * st.mCurrNumApprPoints - 1) := by
  constructor
  · intro h
    have e : ComputeApprPath G true st = st := by
      unfold ComputeApprPath
      simp only [if_true]
      rw [if_pos h]
    rw [e]
    exact ⟨rfl, rfl, fun _ => rfl, rfl⟩
  · intro h
    unfold ComputeApprPath
    simp only [if_true]
    rw [if_neg h]
    rfl

/-! ## Claims about the approximate path counts and the blur idle step -/

/-- C21: after the constructor and any sequence of calls of `ComputeTruePath` and
`ComputeApprPath`, `mNumApprPoints` is `2^subdivisions + 1` and `mCurrNumApprPoints` has
the form `2^k + 1` with `0 <= k <= subdivisions`, so
`2 <= mCurrNumApprPoints <= mNumApprPoints`; and in that state every index into
`mApprPoints` used by the copy, subdivision and refinement loops of a further call of
`ComputeApprPath` is at least `0` and less than `mNumApprPoints`, as are the indices
`0` and `1` written by `ComputeTruePath`. -/
theorem C21_counts_form_and_indices (G : GeodesicKernel) (subdivisions : Nat)
    (mParam0 mParam1 : GVector) (points : Int → GVector) (calls : List PathCall) :
    (runCalls G mParam0 mParam1 calls
        (EllipsoidState.constructed G subdivisions mParam0 mParam1 points)).mNumApprPoints
      = 2 ^ subdivisions + 1 ∧
    (∃ k : Nat, k ≤ subdivisions ∧
      (runCalls G mParam0 mParam1 calls
        (EllipsoidState.constructed G subdivisions mParam0 mParam1 points)).mCurrNumApprPoints
        = 2 ^ k + 1) ∧
    2 ≤ (runCalls G mParam0 mParam1 calls
        (EllipsoidState.constructed G subdivisions mParam0 mParam1 points)).mCurrNumApprPoints ∧
    (runCalls G mParam0 mParam1 calls
        (EllipsoidState.constructed G subdivisions mParam0 mParam1 points)).mCurrNumApprPoints
      ≤ (runCalls G mParam0 mParam1 calls
        (EllipsoidState.constructed G subdivisions mParam0 mParam1 points)).mNumApprPoints ∧
    (∀ (subdivide : Bool) (j : Int),
      j ∈ ComputeApprPath_indices subdivide (runCalls G mParam0 mParam1 calls
        (EllipsoidState.constructed G subdivisions mParam0 mParam1 points)) →
      0 ≤ j ∧ j < (runCalls G mParam0 mParam1 calls
        (EllipsoidState.constructed G subdivisions mParam0 mParam1 points)).mNumApprPoints) ∧
    1 < (runCalls G mParam0 mParam1 calls
        (EllipsoidState.constructed G subdivisions mParam0 mParam1 points)).mNumApprPoints := by
  have hform := runCalls_countsOfForm G mParam0 mParam1 subdivisions calls _
    (constructed_countsOfForm G subdivisions mParam0 mParam1 points)
  obtain ⟨hb1, hb2⟩ := countsOfForm_bounds subdivisions _ hform
  exact ⟨hform.1, hform.2, hb1, hb2,
    fun subdivide j hj => ComputeApprPath_indices_bounds subdivide _ hb1 hb2 j hj,
    by omega⟩

/-- C22: a call of `GpuGaussianBlur3Window::OnIdle` leaves `gsUseDirichlet` as it was
and adds to the calls made so far: the Gaussian-blur program executed once, then
exactly one boundary program, the Dirichlet program when `gsUseDirichlet` is true and
the Neumann program otherwise, then the drawing calls. -/
theorem C22_idle_executes_blur_then_one_boundary (st : BlurState) :
    st.OnIdle.gsUseDirichlet = st.gsUseDirichlet ∧
    st.OnIdle.calls = st.calls ++
      [IdleCall.Measure,
       IdleCall.Execute BlurProgram.mGaussianBlurProgram st.mNumXGroups st.mNumYGroups 1,
       IdleCall.Execute
         (if st.gsUseDirichlet then BlurProgram.mBoundaryDirichletProgram
          else BlurProgram.mBoundaryNeumannProgram) st.mNumXGroups st.mNumYGroups 1,
       IdleCall.DrawOverlay, IdleCall.DrawFPS, IdleCall.DisplayColorBuffer 0,
       IdleCall.UpdateFrameCount] ∧
    executedPrograms (st.OnIdle.calls.drop st.calls.length)
      = [BlurProgram.mGaussianBlurProgram,
         if st.gsUseDirichlet then BlurProgram.mBoundaryDirichletProgram
         else BlurProgram.mBoundaryNeumannProgram] ∧
    (BlurProgram.mBoundaryDirichletProgram
        ∈ executedPrograms (st.OnIdle.calls.drop st.calls.length)
      ↔ st.gsUseDirichlet = true) ∧
    (BlurProgram.mBoundaryNeumannProgram
        ∈ executedPrograms (st.OnIdle.calls.drop st.calls.length)
      ↔ st.gsUseDirichlet = false) := by
  have hcalls : st.OnIdle.calls = st.calls ++
      [IdleCall.Measure,
       IdleCall.Execute BlurProgram.mGaussianBlurProgram st.mNumXGroups st.mNumYGroups 1,
       IdleCall.Execute
         (if st.gsUseDirichlet then BlurProgram.mBoundaryDirichletProgram
          else BlurProgram.mBoundaryNeumannProgram) st.mNumXGroups st.mNumYGroups 1,
       IdleCall.DrawOverlay, IdleCall.DrawFPS, IdleCall.DisplayColorBuffer 0,
       IdleCall.UpdateFrameCount] := by
    unfold BlurState.OnIdle
    cases h : st.gsUseDirichlet <;> simp [h]
  have hflag : st.OnIdle.gsUseDirichlet = st.gsUseDirichlet := by
    unfold BlurState.OnIdle
    cases h : st.gsUseDirichlet <;> simp [h]
  have hexec : executedPrograms (st.OnIdle.calls.drop st.calls.length)
      = [BlurProgram.mGaussianBlurProgram,
         if st.gsUseDirichlet then BlurProgram.mBoundaryDirichletProgram
         else BlurProgram.mBoundaryNeumannProgram] := by
    rw [hcalls, List.drop_left]
    rfl
  refine ⟨hflag, hcalls, hexec, ?_, ?_⟩
  · rw [hexec]
    cases st.gsUseDirichlet <;> simp
  · rw [hexec]
    cases st.gsUseDirichlet <;> simp

end GTE
